import Mathlib

/-! # Query judge of the SQL-exam backend: a shallow embedding

The development embeds `pkgs/runner/runner.go` (query admission, execution
against a sandbox, comparison of two result sets), the status derivation of
`internals/submission/usecase/usecase.go`, the method `SubmitAnswer` of
`internals/exam/usecase/usecase.go` and the comparison of the legacy judge
`sql-judge/handlers/judge_handler.go`, and proves properties of the embedded
functions.

Conventions of the embedding.

* Go strings are Lean `String`s (valid UTF-8 text); functions that inspect the
  text work on the list of runes `String.data`.
* Go `int` / `int64` values are `Int`; the one sum computed on them, the
  attempt number of `SubmitAnswer`, is wrapped into its width.
* A Go `error` is a `GoError`: its message and whether
  `errors.Is(err, context.DeadlineExceeded)` holds; `nil` is `none`.
* Library code the repository calls but does not contain is either written
  out (`strings.HasPrefix`, `strings.TrimSpace`, `fmt.Sprint` on a row) or
  taken as a parameter (`sort.Slice`, the Unicode case table, the database
  driver).
-/

set_option linter.unusedVariables false

namespace SqlJudge

/-! ## Values of the runner package -/

/-- A Go `error` value: the text of `Error()` and whether the error is (or
wraps) `context.DeadlineExceeded`. -/
structure GoError where
  msg : String
  deadline : Bool
  deriving DecidableEq, Repr

/-- A cell of a result row, of Go type `interface{}`: the nil interface, a
string (the only kind `scanRows` produces), an integer or a boolean. -/
inductive Cell where
  | null
  | str (s : String)
  | int (n : Int)
  | bool (b : Bool)
  deriving DecidableEq, Repr

/-- A result row, `[]interface{}`. -/
abbrev Row := List Cell

/-- The struct `QueryResult`. -/
structure QueryResult where
  Columns : List String := []
  Rows : List Row := []
  RowCount : Int := 0
  ExecutionMs : Int := 0
  Error : String := ""
  ErrorType : String := ""
  deriving DecidableEq, Repr

/-- The struct `CompareResult`. -/
structure CompareResult where
  IsCorrect : Bool := false
  Message : String := ""
  ExpectedRows : Int := 0
  ActualRows : Int := 0
  MismatchIndex : Int := 0
  deriving DecidableEq, Repr

/-! ## Library functions written out -/

/-- The verb `%v` of package `fmt` applied to one cell. -/
def Cell.format : Cell → String
  | .null => "<nil>"
  | .str s => s
  | .int n => toString n
  | .bool b => if b then "true" else "false"

/-- The call `fmt.Sprint(row)` for a row of type `[]interface{}`: the cells
printed with `%v`, separated by one space, inside square brackets. -/
def Sprint (row : Row) : String :=
  "[" ++ " ".intercalate (row.map Cell.format) ++ "]"

/-- Go's `<` on strings: lexicographic comparison, a proper prefix being
smaller (byte order of UTF-8 text is the order of its code points). -/
def runesLess : List Char → List Char → Bool
  | _, [] => false
  | [], _ :: _ => true
  | a :: as, b :: bs =>
    if a.toNat < b.toNat then true
    else if b.toNat < a.toNat then false
    else runesLess as bs

/-- Go's `s < t` on strings. -/
def strLess (s t : String) : Bool := runesLess s.data t.data

/-- The function `sort.Slice` of the Go standard library, as a function from
the `less` callback and the slice contents to the contents after the call. -/
structure SliceSort where
  run : {α : Type} → (α → α → Bool) → List α → List α

/-- A `less` callback that is a strict weak ordering, which is what
`sort.Slice` requires of it. -/
structure StrictWeak {α : Type} (less : α → α → Bool) : Prop where
  asymm : ∀ a b, less a b = true → less b a = false
  negTrans : ∀ a b c, less b a = false → less c b = false → less c a = false

/-- What the documentation of `sort.Slice` promises, and what holds of every
sort that touches the slice only through `less` and `swap`: the result is a
permutation of the input, it is ordered when `less` is a strict weak
ordering, and the sort acts on elements only through `less` (so it commutes
with reading the elements through a function). Stability is not promised. -/
structure SliceSort.Lawful (S : SliceSort) : Prop where
  perm : ∀ {α : Type} (less : α → α → Bool) (xs : List α), (S.run less xs).Perm xs
  sorted : ∀ {α : Type} (less : α → α → Bool) (xs : List α), StrictWeak less →
    (S.run less xs).Pairwise (fun a b => less b a = false)
  natural : ∀ {α β : Type} (f : α → β) (less : β → β → Bool) (xs : List α),
    (S.run (fun a b => less (f a) (f b)) xs).map f = S.run less (xs.map f)

/-- Inner loop of Go's `insertionSort_func`: the element `x` at index `j`
is swapped leftwards while `less(j, j-1)`. The part of the slice to the left
of `x` is given nearest element first, and so is the result. -/
def siftLeft {α : Type} (less : α → α → Bool) (x : α) : List α → List α
  | [] => [x]
  | y :: left => if less x y then y :: siftLeft less x left else x :: y :: left

/-- Go's `insertionSort_func` over the whole slice, which is what
`sort.Slice` runs on a short slice (of at most 12 elements since Go 1.19, of
at most 6 elements before). -/
def insertionSort_func {α : Type} (less : α → α → Bool) (xs : List α) : List α :=
  (xs.foldl (fun left x => siftLeft less x left) []).reverse

/-- The function `sort.Slice` on short slices. -/
def smallSliceSort : SliceSort := ⟨fun less xs => insertionSort_func less xs⟩

/-! ## The comparator -/

/-- The function `cloneRows`: a fresh outer slice holding a fresh copy of
every row. Both levels are allocated with `make`, so neither is a nil slice
and `reflect.DeepEqual` on two clones is equality of the row lists. -/
def cloneRows (rows : List Row) : List Row :=
  rows.map (fun r => r.map (fun c => c))

/-- The function `sortRows`: `sort.Slice` with
`less(i, j) = fmt.Sprint(rows[i]) < fmt.Sprint(rows[j])`. -/
def sortRows (S : SliceSort) (rows : List Row) : List Row :=
  S.run (fun a b => strLess (Sprint a) (Sprint b)) rows

/-- The loop of `Compare` that looks for the first mismatch:
`for i := range expRows`, stopping at the first `i` with
`i >= len(actRows) || !reflect.DeepEqual(expRows[i], actRows[i])`; the value
is what `MismatchIndex` holds after the loop, `-1` when the loop never
assigns it. -/
def findMismatch (expRows actRows : List Row) : Int :=
  match (List.range expRows.length).find?
      (fun i => decide (actRows.length ≤ i) || decide (expRows[i]? ≠ actRows[i]?)) with
  | some i => (i : Int)
  | none => -1

/-- The method `Compare` of the runner. -/
def Compare (S : SliceSort) (expected actual : QueryResult) (orderMatters : Bool) :
    CompareResult :=
  let result : CompareResult :=
    { ExpectedRows := expected.RowCount, ActualRows := actual.RowCount, MismatchIndex := -1 }
  if actual.Error ≠ "" then
    { result with IsCorrect := false, Message := "Query error: " ++ actual.Error }
  else if expected.RowCount ≠ actual.RowCount then
    { result with
      IsCorrect := false
      Message := "Row count mismatch: expected " ++ toString expected.RowCount ++
        ", got " ++ toString actual.RowCount }
  else
    let expRows := sortRows S (cloneRows expected.Rows)
    let actRows := sortRows S (cloneRows actual.Rows)
    if expRows ≠ actRows then
      { result with
        IsCorrect := false
        Message := "Result mismatch (values do not match)"
        MismatchIndex := findMismatch expRows actRows }
    else
      { result with IsCorrect := true, Message := "Correct!" }

/-! ## The query admitter -/

/-- The function `unicode.IsSpace`. -/
def isSpace (c : Char) : Bool :=
  let n := c.toNat
  n = 0x09 || n = 0x0A || n = 0x0B || n = 0x0C || n = 0x0D || n = 0x20 ||
  n = 0x85 || n = 0xA0 || n = 0x1680 || (0x2000 ≤ n && n ≤ 0x200A) ||
  n = 0x2028 || n = 0x2029 || n = 0x202F || n = 0x205F || n = 0x3000

/-- The function `strings.TrimSpace`: leading and trailing white space
removed. -/
def TrimSpace (s : String) : String :=
  ⟨((s.data.dropWhile isSpace).reverse.dropWhile isSpace).reverse⟩

/-- The function `unicode.ToUpper` on one rune: written out on ASCII, and
read from the Unicode case table `table` (part of the Go standard library)
on every other rune. -/
def toUpperRune (table : Char → Char) (c : Char) : Char :=
  if c.toNat < 128 then
    if 'a'.toNat ≤ c.toNat ∧ c.toNat ≤ 'z'.toNat then Char.ofNat (c.toNat - 32) else c
  else table c

/-- The function `strings.ToUpper`: every rune mapped by `unicode.ToUpper`. -/
def ToUpper (table : Char → Char) (s : String) : String :=
  ⟨s.data.map (toUpperRune table)⟩

/-- A case table that maps no rune: enough to run `ToUpper` on ASCII text,
where the table is never consulted. -/
def asciiCaseTable : Char → Char := fun c => c

/-- The function `strings.HasPrefix`. -/
def HasPrefix (s pre : String) : Bool := pre.data.isPrefixOf s.data

/-- The sentinel `ErrInvalidStatement`. -/
def ErrInvalidStatement : GoError := ⟨"only SELECT statements are allowed", false⟩

/-- The sentinel `ErrUnsupportedDB`. -/
def ErrUnsupportedDB : GoError := ⟨"unsupported database type", false⟩

/-- The sentinel `ErrQueryTimeout`. -/
def ErrQueryTimeout : GoError := ⟨"query execution timeout", false⟩

/-- The sentinel `ErrConnectionFailed`. -/
def ErrConnectionFailed : GoError := ⟨"failed to connect to sandbox database", false⟩

/-- The slice `forbidden` of `ValidateQuery`. -/
def forbidden : List String :=
  ["INSERT", "UPDATE", "DELETE", "DROP", "CREATE", "ALTER", "TRUNCATE", "GRANT", "REVOKE"]

/-- The loop of `ValidateQuery` over `forbidden`: the first keyword that is
a prefix of `trimmed` makes the function return `ErrInvalidStatement`. -/
def forbiddenLoop (trimmed : String) : List String → Option GoError
  | [] => none
  | stmt :: rest =>
    if HasPrefix trimmed stmt then some ErrInvalidStatement else forbiddenLoop trimmed rest

/-- The function `ValidateQuery`; `none` is the `nil` error. -/
def ValidateQuery (table : Char → Char) (query : String) : Option GoError :=
  let trimmed := TrimSpace (ToUpper table query)
  match forbiddenLoop trimmed forbidden with
  | some err => some err
  | none =>
    if !HasPrefix trimmed "SELECT" && !HasPrefix trimmed "WITH" then some ErrInvalidStatement
    else none

/-! ## The execution engine

The database and its driver are outside the repository. They are a `World`:
an oracle that decides the outcome of every driver call from the calls made
so far. The runner's calls are recorded, in order, in a list of `Event`s. -/

/-- The type `DBType`, a Go string. -/
abbrev DBType := String

/-- The identity of a connection pool, `*sql.DB`. -/
abbrev Handle := Nat

/-- The fields of `configs.Config` the runner reads. -/
structure Config where
  SandboxPostgresURI : String := ""
  SandboxMySQLURI : String := ""
  SandboxSQLServerURI : String := ""
  QueryTimeoutSeconds : Int := 3
  QueryMaxRows : Int := 1000
  deriving DecidableEq, Repr

/-- The struct `runner`. The map `connections` is an association list holding
at most one entry for a key. -/
structure runner where
  cfg : Config
  connections : List (DBType × Handle)
  deriving DecidableEq, Repr

/-- A call into `database/sql`. `commit` is there to be shown absent. -/
inductive Event where
  | ping (db : Handle)
  | closeDB (db : Handle)
  | openDB (driver dsn : String)
  | beginTx (db : Handle)
  | exec (db : Handle) (stmt : String)
  | query (db : Handle) (inTx : Bool) (query : String)
  | rowsClose (db : Handle)
  | rollback (db : Handle)
  | commit (db : Handle)
  deriving DecidableEq, Repr

/-- What a `*sql.Rows` cursor yields: the outcome of `Columns()`, then for
every row for which `Next()` is true the outcome of `Scan` into
`sql.RawBytes` (a cell is `none` for a nil `RawBytes`, else the string of its
bytes), then the value of `Err()` once `Next()` is false. -/
structure Cursor where
  columns : Except GoError (List String)
  scans : List (Except GoError (List (Option String)))
  err : Option GoError

/-- The database driver and the clock: every outcome is a function of the
calls made before it. -/
structure World where
  ping : List Event → Handle → Option GoError
  openDB : List Event → String → String → Except GoError Handle
  beginTx : List Event → Handle → Option GoError
  exec : List Event → Handle → String → Option GoError
  query : List Event → Handle → Bool → String → Except GoError Cursor
  elapsedMs : List Event → Int

/-- How a call of `Execute` or `ExecuteWithSetup` ends: it returns its pair
of results, or it panics. -/
inductive Outcome where
  | returned (result : QueryResult) (err : Option GoError)
  | panicked (reason : String)
  deriving DecidableEq, Repr

/-- The `switch dbType` of `getConnection`: the DSN and the driver name of a
known dialect. -/
def dialect (cfg : Config) (dbType : DBType) : Option (String × String) :=
  if dbType = "postgresql" then some (cfg.SandboxPostgresURI, "postgres")
  else if dbType = "mysql" then some (cfg.SandboxMySQLURI, "mysql")
  else if dbType = "sqlserver" then some (cfg.SandboxSQLServerURI, "sqlserver")
  else none

/-- The method `getConnection`. -/
def getConnection (W : World) (r : runner) (tr : List Event) (dbType : DBType) :
    Except GoError Handle × runner × List Event :=
  let reconnect (r : runner) (tr : List Event) : Except GoError Handle × runner × List Event :=
    match dialect r.cfg dbType with
    | none => (.error ErrUnsupportedDB, r, tr)
    | some (dsn, driver) =>
      if dsn = "" then
        (.error ⟨ErrConnectionFailed.msg ++ ": " ++ dbType ++ " sandbox not configured", false⟩,
          r, tr)
      else
        match W.openDB tr driver dsn with
        | .error err =>
          (.error ⟨ErrConnectionFailed.msg ++ ": " ++ err.msg, false⟩, r, tr ++ [.openDB driver dsn])
        | .ok db =>
          let tr1 := tr ++ [.openDB driver dsn]
          match W.ping tr1 db with
          | some err =>
            (.error ⟨ErrConnectionFailed.msg ++ ": " ++ err.msg, false⟩, r,
              tr1 ++ [.ping db, .closeDB db])
          | none =>
            (.ok db,
              { r with connections :=
                  (dbType, db) :: r.connections.filter (fun e => e.1 ≠ dbType) },
              tr1 ++ [.ping db])
  match r.connections.lookup dbType with
  | some conn =>
    match W.ping tr conn with
    | none => (.ok conn, r, tr ++ [.ping conn])
    | some _ =>
      reconnect { r with connections := r.connections.filter (fun e => e.1 ≠ dbType) }
        (tr ++ [.ping conn, .closeDB conn])
  | none => reconnect r tr

/-- The conversion of one scanned row in `scanRows`: a row of `len(columns)`
cells, a nil `RawBytes` becoming the empty string and any other the string of
its bytes. -/
def convertRow (ncols : Nat) (raw : List (Option String)) : Row :=
  (List.range ncols).map (fun i =>
    match raw.getD i none with
    | none => Cell.str ""
    | some bytes => Cell.str bytes)

/-- The loop `for rows.Next()` of `scanRows`: the rows appended to
`result.Rows`, or the error of the first failing `Scan`. -/
def scanLoop (ncols : Nat) : List (Except GoError (List (Option String))) → List Row →
    Except GoError (List Row)
  | [], acc => .ok acc
  | .error err :: _, _ => .error err
  | .ok raw :: rest, acc => scanLoop ncols rest (acc ++ [convertRow ncols raw])

/-- The method `scanRows`: the pair `(*QueryResult, error)`, a `none` result
being the nil pointer. -/
def scanRows (cur : Cursor) : Option QueryResult × Option GoError :=
  match cur.columns with
  | .error err => (none, some err)
  | .ok columns =>
    match scanLoop columns.length cur.scans [] with
    | .error err => (none, some err)
    | .ok rows =>
      (some { Columns := columns, Rows := rows, RowCount := rows.length }, cur.err)

/-- The method `executeInternal`, on the pool `db` itself or on the
transaction open on it (`inTx`). -/
def executeInternal (W : World) (cfg : Config) (tr : List Event) (db : Handle) (inTx : Bool)
    (query : String) : Outcome × List Event :=
  let tr1 := tr ++ [.query db inTx query]
  match W.query tr db inTx query with
  | .error err =>
    let errorType := if err.deadline then "timeout" else "runtime"
    let err := if err.deadline then ErrQueryTimeout else err
    (.returned { ExecutionMs := W.elapsedMs tr1, Error := err.msg, ErrorType := errorType }
      (some err), tr1)
  | .ok cur =>
    match scanRows cur with
    | (_, some err) =>
      (.returned { ExecutionMs := W.elapsedMs tr1, Error := err.msg, ErrorType := "runtime" }
        (some err), tr1 ++ [.rowsClose db])
    | (none, none) => (.panicked "nil pointer dereference", tr1 ++ [.rowsClose db])
    | (some result, none) =>
      let result := { result with ExecutionMs := W.elapsedMs tr1 }
      if (result.Rows.length : Int) > cfg.QueryMaxRows then
        if cfg.QueryMaxRows < 0 then
          (.panicked "slice bounds out of range", tr1 ++ [.rowsClose db])
        else
          (.returned
            { result with
              Rows := result.Rows.take cfg.QueryMaxRows.toNat
              RowCount := cfg.QueryMaxRows } none,
            tr1 ++ [.rowsClose db])
      else (.returned result none, tr1 ++ [.rowsClose db])

/-- The method `Execute`. -/
def Execute (table : Char → Char) (W : World) (r : runner) (tr : List Event)
    (dbType : DBType) (query : String) : Outcome × runner × List Event :=
  match ValidateQuery table query with
  | some err => (.returned { Error := err.msg, ErrorType := "validation" } (some err), r, tr)
  | none =>
    match getConnection W r tr dbType with
    | (.error err, r1, tr1) =>
      (.returned { Error := err.msg, ErrorType := "connection" } (some err), r1, tr1)
    | (.ok db, r1, tr1) =>
      let (out, tr2) := executeInternal W r1.cfg tr1 db false query
      (out, r1, tr2)

/-- The function `strings.Split(s, ";")` on the runes of `s`; `cur` holds the
piece being read. -/
def splitSemis : List Char → List Char → List String
  | [], cur => [⟨cur⟩]
  | c :: rest, cur =>
    if c = ';' then ⟨cur⟩ :: splitSemis rest [] else splitSemis rest (cur ++ [c])

/-- The setup loop of `ExecuteWithSetup` over the pieces of the script: each
piece is trimmed, an empty one is skipped, any other is executed in the
transaction; the first failure ends the loop with the error and the
statement. -/
def setupLoop (W : World) (db : Handle) : List Event → List String →
    Option (GoError × String) × List Event
  | tr, [] => (none, tr)
  | tr, piece :: rest =>
    let stmt := TrimSpace piece
    if stmt = "" then setupLoop W db tr rest
    else
      match W.exec tr db stmt with
      | some err => (some (err, stmt), tr ++ [.exec db stmt])
      | none => setupLoop W db (tr ++ [.exec db stmt]) rest

/-- The method `ExecuteWithSetup`. The deferred `tx.Rollback()` is the last
event of every path on which `BeginTx` succeeded. -/
def ExecuteWithSetup (table : Char → Char) (W : World) (r : runner) (tr : List Event)
    (dbType : DBType) (setupSQL query : String) : Outcome × runner × List Event :=
  match ValidateQuery table query with
  | some err => (.returned { Error := err.msg, ErrorType := "validation" } (some err), r, tr)
  | none =>
    match getConnection W r tr dbType with
    | (.error err, r1, tr1) =>
      (.returned { Error := err.msg, ErrorType := "connection" } (some err), r1, tr1)
    | (.ok db, r1, tr1) =>
      match W.beginTx tr1 db with
      | some err =>
        (.returned { Error := err.msg, ErrorType := "connection" } (some err), r1,
          tr1 ++ [.beginTx db])
      | none =>
        let tr2 := tr1 ++ [.beginTx db]
        let stmts := if setupSQL ≠ "" then splitSemis setupSQL.data [] else []
        match setupLoop W db tr2 stmts with
        | (some (err, stmt), tr3) =>
          (.returned
            { Error := "setup error: " ++ err.msg ++ " (stmt: " ++ stmt ++ ")"
              ErrorType := "setup" } (some err),
            r1, tr3 ++ [.rollback db])
        | (none, tr3) =>
          let (out, tr4) := executeInternal W r1.cfg tr3 db true query
          (out, r1, tr4 ++ [.rollback db])

/-! ## The scoring adapter of per-problem Submit -/

/-- The status derivation of `submissionUseCase.Submit` (the block under
"Determine status"), from the user query's result and the verdict. -/
def submitStatus (actualResult : QueryResult) (compareResult : CompareResult) : String :=
  if actualResult.Error ≠ "" then
    if actualResult.ErrorType = "timeout" then "timeout" else "error"
  else if compareResult.IsCorrect then "accepted"
  else "wrong_answer"

/-! ## The comparator on Go memory

`Compare` receives pointers, and `sort.Slice` sorts in place. To state that
the caller's rows are left alone, the slices are placed in a heap of backing
arrays and the functions of the comparator are written again as heap
transformers. Equality by `reflect.DeepEqual` is equality of the values read
from the heap (the slices compared are made by `cloneRows`, never nil). -/

namespace Mem

/-- A slice header: the backing array, the offset of the first element, and
the length. -/
structure Slice where
  arr : Nat
  off : Nat
  len : Nat
  deriving DecidableEq, Repr

/-- The zero value of a slice header, the nil slice. -/
def nilSlice : Slice := ⟨0, 0, 0⟩

/-- The backing arrays: those of the rows (`[]interface{}`) and those of the
row lists (`[][]interface{}`, whose elements are slice headers). The address
of an array is its index. -/
structure Heap where
  cellArrays : List (List Cell)
  rowArrays : List (List Slice)
  deriving DecidableEq, Repr

/-- The contents of `xs` with `vals` written from index `off` on. -/
def splice {α : Type} (xs : List α) (off : Nat) (vals : List α) : List α :=
  xs.take off ++ vals ++ xs.drop (off + vals.length)

/-- The cells a row slice holds. -/
def Heap.cellsOf (h : Heap) (s : Slice) : Row :=
  ((h.cellArrays.getD s.arr []).drop s.off).take s.len

/-- The row headers a slice of rows holds. -/
def Heap.headersOf (h : Heap) (s : Slice) : List Slice :=
  ((h.rowArrays.getD s.arr []).drop s.off).take s.len

/-- The rows a slice of rows holds, as values. -/
def Heap.rowsOf (h : Heap) (s : Slice) : List Row :=
  (h.headersOf s).map h.cellsOf

/-- Store `vals` into the elements of the row slice `dst`, from its first. -/
def Heap.storeCells (h : Heap) (dst : Slice) (vals : List Cell) : Heap :=
  { h with
    cellArrays := h.cellArrays.set dst.arr (splice (h.cellArrays.getD dst.arr []) dst.off vals) }

/-- Store `vals` into the elements of the slice of rows `dst`, from its
first. -/
def Heap.storeHeaders (h : Heap) (dst : Slice) (vals : List Slice) : Heap :=
  { h with
    rowArrays := h.rowArrays.set dst.arr (splice (h.rowArrays.getD dst.arr []) dst.off vals) }

/-- The loop of `cloneRows`, from index `i`, with `n` iterations left:
`newRow := make([]interface{}, len(r))`, `copy(newRow, r)`,
`newRows[i] = newRow`. -/
def cloneLoop (rows newRows : Slice) : Nat → Nat → Heap → Heap
  | 0, _, h => h
  | n + 1, i, h =>
    let r := (h.headersOf rows).getD i nilSlice
    let newRow : Slice := ⟨h.cellArrays.length, 0, r.len⟩
    let h1 : Heap := { h with cellArrays := h.cellArrays ++ [List.replicate r.len Cell.null] }
    let h2 := h1.storeCells newRow ((h1.cellsOf r).take newRow.len)
    let h3 := h2.storeHeaders ⟨newRows.arr, newRows.off + i, 1⟩ [newRow]
    cloneLoop rows newRows n (i + 1) h3

/-- The function `cloneRows` on the heap: the new heap and the new slice. -/
def cloneRows (h : Heap) (rows : Slice) : Heap × Slice :=
  let newRows : Slice := ⟨h.rowArrays.length, 0, rows.len⟩
  let h0 : Heap := { h with rowArrays := h.rowArrays ++ [List.replicate rows.len nilSlice] }
  (cloneLoop rows newRows rows.len 0 h0, newRows)

/-- The function `sortRows` on the heap: `sort.Slice` permutes the headers
held by `rows`, in place. -/
def sortRows (S : SliceSort) (h : Heap) (rows : Slice) : Heap :=
  h.storeHeaders rows
    (S.run (fun a b => strLess (Sprint (h.cellsOf a)) (Sprint (h.cellsOf b))) (h.headersOf rows))

/-- The fields of a `*QueryResult` that `Compare` reads, `Rows` being a slice
in the heap. -/
structure QueryResultRef where
  Rows : Slice
  RowCount : Int
  Error : String
  deriving DecidableEq, Repr

/-- The value a `*QueryResult` denotes in a heap. -/
def QueryResultRef.value (h : Heap) (q : QueryResultRef) : QueryResult :=
  { Rows := h.rowsOf q.Rows, RowCount := q.RowCount, Error := q.Error }

/-- The method `Compare` on the heap: the heap when it returns, and its
result. -/
def Compare (S : SliceSort) (h : Heap) (expected actual : QueryResultRef)
    (orderMatters : Bool) : Heap × CompareResult :=
  let result : CompareResult :=
    { ExpectedRows := expected.RowCount, ActualRows := actual.RowCount, MismatchIndex := -1 }
  if actual.Error ≠ "" then
    (h, { result with IsCorrect := false, Message := "Query error: " ++ actual.Error })
  else if expected.RowCount ≠ actual.RowCount then
    (h, { result with
          IsCorrect := false
          Message := "Row count mismatch: expected " ++ toString expected.RowCount ++
            ", got " ++ toString actual.RowCount })
  else
    let (h1, expRows) := cloneRows h expected.Rows
    let (h2, actRows) := cloneRows h1 actual.Rows
    let h3 := sortRows S h2 expRows
    let h4 := sortRows S h3 actRows
    if h4.rowsOf expRows ≠ h4.rowsOf actRows then
      (h4, { result with
             IsCorrect := false
             Message := "Result mismatch (values do not match)"
             MismatchIndex := findMismatch (h4.rowsOf expRows) (h4.rowsOf actRows) })
    else
      (h4, { result with IsCorrect := true, Message := "Correct!" })

/-- A slice of rows that lies inside the heap, with every row it holds
inside the heap too. -/
def Heap.Holds (h : Heap) (rows : Slice) : Prop :=
  rows.arr < h.rowArrays.length ∧
  rows.off + rows.len ≤ (h.rowArrays.getD rows.arr []).length ∧
  ∀ r ∈ h.headersOf rows,
    r.arr < h.cellArrays.length ∧ r.off + r.len ≤ (h.cellArrays.getD r.arr []).length

/-- The heap `h'` holds, at every address below `nC` (rows) and below `nR`
(row lists), the array that `h` holds there. -/
def Keeps (nC nR : Nat) (h h' : Heap) : Prop :=
  (∀ a, a < nC → h'.cellArrays[a]? = h.cellArrays[a]?) ∧
  (∀ a, a < nR → h'.rowArrays[a]? = h.rowArrays[a]?)

end Mem

/-! ## Scenarios -/

/-- A result of two text columns whose two rows, `("a b", "c")` and
`("a", "b c")`, have the same printed form `[a b c]`. -/
def tieExpected : QueryResult :=
  { Columns := ["x", "y"]
    Rows := [[.str "a b", .str "c"], [.str "a", .str "b c"]]
    RowCount := 2 }

/-- The rows of `tieExpected` in the other order. -/
def tieActual : QueryResult :=
  { Columns := ["x", "y"]
    Rows := [[.str "a", .str "b c"], [.str "a b", .str "c"]]
    RowCount := 2 }

/-- Scenario S1, the result of the reference query `SELECT x FROM t ORDER BY x`. -/
def s1Expected : QueryResult :=
  { Columns := ["x"], Rows := [[.str "1"], [.str "2"], [.str "3"]], RowCount := 3 }

/-- Scenario S1, the result of the user query `SELECT x FROM t ORDER BY x DESC`. -/
def s1Actual : QueryResult :=
  { Columns := ["x"], Rows := [[.str "3"], [.str "2"], [.str "1"]], RowCount := 3 }

/-- Scenario S2, the result of the reference query `SELECT x FROM t WHERE x > 1`. -/
def s2Expected : QueryResult :=
  { Columns := ["x"], Rows := [[.str "2"], [.str "3"]], RowCount := 2 }

/-- Scenario S2, the result of the user query `SELECT x FROM t`. -/
def s2Actual : QueryResult :=
  { Columns := ["x"], Rows := [[.str "1"], [.str "2"], [.str "3"]], RowCount := 3 }

/-- The result of a user query that failed at run time. -/
def failedActual : QueryResult :=
  { Error := "pq: division by zero", ErrorType := "runtime" }

/-- A result that differs from `s1Expected` in its last row only. -/
def offActual : QueryResult :=
  { Columns := ["x"], Rows := [[.str "4"], [.str "2"], [.str "1"]], RowCount := 3 }

/-- A database on which every call succeeds and every query yields the three
rows of scenario S1. -/
def quietWorld : World where
  ping := fun _ _ => none
  openDB := fun _ _ _ => .ok 1
  beginTx := fun _ _ => none
  exec := fun _ _ _ => none
  query := fun _ _ _ _ => .ok ⟨.ok ["x"], [.ok [some "1"], .ok [some "2"], .ok [some "3"]], none⟩
  elapsedMs := fun _ => 1

/-- A runner with the PostgreSQL sandbox configured and one pool open. -/
def pgRunner : runner :=
  { cfg := { SandboxPostgresURI := "postgres://sandbox" }, connections := [("postgresql", 1)] }

/-- A heap holding the rows `[3],[2],[1]` and `[1],[2],[3]` of scenario S1,
the three cells `3`, `2`, `1` laid out in one backing array. -/
def s1Heap : Mem.Heap :=
  { cellArrays := [[.str "3", .str "2", .str "1"]]
    rowArrays := [[⟨0, 0, 1⟩, ⟨0, 1, 1⟩, ⟨0, 2, 1⟩], [⟨0, 2, 1⟩, ⟨0, 1, 1⟩, ⟨0, 0, 1⟩]] }

/-- Scenario S1 on the heap: the reference result, rows `[1],[2],[3]`. -/
def s1ExpectedRef : Mem.QueryResultRef := { Rows := ⟨1, 0, 3⟩, RowCount := 3, Error := "" }

/-- Scenario S1 on the heap: the user's result, rows `[3],[2],[1]`. -/
def s1ActualRef : Mem.QueryResultRef := { Rows := ⟨0, 0, 3⟩, RowCount := 3, Error := "" }

/-! ## The setup script, the invariants of the data model, the exam adapter -/

/-- The statements of a setup script in the words of the specification: the
script split on `;`, each piece trimmed, the empty pieces dropped, the order
kept. -/
def setupStatements (setupSQL : String) : List String :=
  ((splitSemis setupSQL.data []).map TrimSpace).filter (fun stmt => stmt ≠ "")

/-- The invariants the specification states of a `QueryResult`, for the row
limit `maxRows`: the row count is the number of rows, the rows do not exceed
the limit, and every row has one cell for each column. -/
def QueryResult.Shaped (maxRows : Int) (q : QueryResult) : Prop :=
  q.RowCount = (q.Rows.length : Int) ∧ (q.Rows.length : Int) ≤ maxRows ∧
  ∀ row ∈ q.Rows, row.length = q.Columns.length

/-- A driver none of whose errors has an empty message: the errors of
`BeginTx`, of `QueryContext`, and of the cursor (`Columns`, `Scan`, `Err`).
The errors of `Ping`, `Open` and `ExecContext` reach the result behind a
fixed text and need no such condition. -/
def World.SpeaksUp (W : World) : Prop :=
  (∀ tr db e, W.beginTx tr db = some e → e.msg ≠ "") ∧
  (∀ tr db inTx q e, W.query tr db inTx q = .error e → e.msg ≠ "") ∧
  (∀ tr db inTx q cur, W.query tr db inTx q = .ok cur →
    (∀ e, cur.columns = .error e → e.msg ≠ "") ∧
    (∀ e, Except.error e ∈ cur.scans → e.msg ≠ "") ∧
    (∀ e, cur.err = some e → e.msg ≠ ""))

/-- The error kinds of the data model, the empty string being `none`. -/
def errorKinds : List String :=
  ["", "validation", "connection", "setup", "timeout", "syntax", "runtime"]

/-- The status rule of the Scoring Adapter in the words of the
specification: `timeout` for the kind timeout, else `error` for the kinds
runtime, syntax, setup, connection and validation, else `accepted` for a
correct verdict, else `wrong_answer`. -/
def specStatus (errorKind : String) (isCorrect : Bool) : String :=
  if errorKind = "timeout" then "timeout"
  else if errorKind ∈ ["runtime", "syntax", "setup", "connection", "validation"] then "error"
  else if isCorrect then "accepted"
  else "wrong_answer"

/-- The status derivation of `examUseCase.SubmitAnswer`, from the user
query's result and the verdict. -/
def examStatus (actualResult : QueryResult) (compareResult : CompareResult) : String :=
  if compareResult.IsCorrect then "accepted"
  else if actualResult.Error ≠ "" then "error"
  else "wrong_answer"

/-- The score computed by `examUseCase.SubmitAnswer`: `float64(maxScore)` for
a correct verdict, else the zero value. The conversion of an `int32` to
`float64` is exact, and the score is kept as an integer. -/
def examScore (maxScore : Int) (compareResult : CompareResult) : Int :=
  if compareResult.IsCorrect then maxScore else 0

/-! ## Scenarios of the execution engine -/

/-- Scenario S6, the cursor of the reference query: one row holding NULL. -/
def s6Reference : Cursor := ⟨.ok ["x"], [.ok [none]], none⟩

/-- Scenario S6, the cursor of the user query: one row holding the empty
string. -/
def s6User : Cursor := ⟨.ok ["x"], [.ok [some ""]], none⟩

/-- A runner like `pgRunner` with the row limit set to 2. -/
def smallRunner : runner :=
  { cfg := { SandboxPostgresURI := "postgres://sandbox", QueryMaxRows := 2 }
    connections := [("postgresql", 1)] }

/-- Scenarios S4 and S5: a database on which the statement `BOGUS STMT`
fails, the query `SELECT pg_sleep(10)` outlives its deadline, and every other
call succeeds, other queries yielding the three rows of scenario S1. -/
def s5World : World where
  ping := fun _ _ => none
  openDB := fun _ _ _ => .ok 1
  beginTx := fun _ _ => none
  exec := fun _ _ stmt =>
    if stmt = "BOGUS STMT" then some ⟨"pq: syntax error at or near BOGUS", false⟩ else none
  query := fun _ _ _ q =>
    if q = "SELECT pg_sleep(10)" then .error ⟨"context deadline exceeded", true⟩
    else .ok ⟨.ok ["x"], [.ok [some "1"], .ok [some "2"], .ok [some "3"]], none⟩
  elapsedMs := fun _ => 2000

/-- A database whose cursor delivers one row and then reports, through
`rows.Err()`, that the deadline of the query has expired. -/
def slowScanWorld : World where
  ping := fun _ _ => none
  openDB := fun _ _ _ => .ok 1
  beginTx := fun _ _ => none
  exec := fun _ _ _ => none
  query := fun _ _ _ _ =>
    .ok ⟨.ok ["x"], [.ok [some "1"]], some ⟨"context deadline exceeded", true⟩⟩
  elapsedMs := fun _ => 3000

/-- A database whose driver fails every query with an error whose message is
empty. -/
def mutedWorld : World where
  ping := fun _ _ => none
  openDB := fun _ _ _ => .ok 1
  beginTx := fun _ _ => none
  exec := fun _ _ _ => none
  query := fun _ _ _ _ => .error ⟨"", false⟩
  elapsedMs := fun _ => 1

/-- The result of a user query that outlived its deadline. -/
def timeoutActual : QueryResult :=
  { ExecutionMs := 3000, Error := "query execution timeout", ErrorType := "timeout" }

/-! ## The legacy judge `sql-judge` -/

/-- The call `fmt.Sprint(row)` for a row of type `[]string`: the strings
separated by one space, inside square brackets. -/
def sprintStrings (row : List String) : String :=
  "[" ++ " ".intercalate row ++ "]"

/-- The function `sortResult` of `sql-judge`: `sort.Slice` with
`less(i, j) = fmt.Sprint(r[i]) < fmt.Sprint(r[j])`. -/
def sortResult (S : SliceSort) (r : List (List String)) : List (List String) :=
  S.run (fun a b => strLess (sprintStrings a) (sprintStrings b)) r

/-- The test `JudgeSQL` applies to one test case: `sortResult(exp)`,
`sortResult(act)`, then `reflect.DeepEqual(exp, act)`. Both values come from
`queryToSlice`, which builds them with `append` from a nil slice, so a slice
is nil exactly when it is empty and `DeepEqual` is equality of the lists. -/
def judgeSQLMatch (S : SliceSort) (exp act : List (List String)) : Bool :=
  decide (sortResult S exp = sortResult S act)

/-- Rows of type `[][]string` read as rows of the runner, every cell a
string. -/
def ofStrings (rows : List (List String)) : List Row :=
  rows.map (fun row => row.map Cell.str)

/-! ## The admitter without its loop, and letter case -/

/-- The function `ValidateQuery` with the loop over `forbidden` taken out:
what the specification compares `ValidateQuery` with. -/
def validateQueryNoLoop (table : Char → Char) (query : String) : Option GoError :=
  let trimmed := TrimSpace (ToUpper table query)
  if !HasPrefix trimmed "SELECT" && !HasPrefix trimmed "WITH" then some ErrInvalidStatement
  else none

/-- The upper-case form of an ASCII letter, every other rune left as it is:
two texts with the same image differ in the case of ASCII letters only. -/
def asciiFold (c : Char) : Char :=
  if 'a'.toNat ≤ c.toNat ∧ c.toNat ≤ 'z'.toNat then Char.ofNat (c.toNat - 32) else c

/-! ## The exam adapter: `SubmitAnswer`

The repositories are outside the given source. They are a `Repos`: what each
call answers. The one write, `CreateExamSubmission`, is recorded in the list
of submissions created. `int` is the 64-bit integer type. -/

/-- The fields of `models.Exam` that `SubmitAnswer` reads; `MaxAttempts` is a
`*int32`. -/
structure Exam where
  MaxAttempts : Option Int
  deriving DecidableEq, Repr

/-- The field of `models.ExamParticipant` that `SubmitAnswer` reads. -/
structure ExamParticipant where
  Status : Option String
  deriving DecidableEq, Repr

/-- The fields of `models.ListExamProblemsRow` that `SubmitAnswer` reads. -/
structure ListExamProblemsRow where
  ID : Int
  ProblemID : Int
  Points : Option Int
  deriving DecidableEq, Repr

/-- The fields of `models.Problem` that `SubmitAnswer` reads. -/
structure Problem where
  SolutionQuery : String
  OrderMatters : Option Bool
  deriving DecidableEq, Repr

/-- The struct `dto.ExamSubmitRequest`. -/
structure ExamSubmitRequest where
  ProblemID : Int
  Code : String
  DatabaseType : String
  deriving DecidableEq, Repr

/-- The struct `dto.ExamSubmitResponse`; the score, a `float64` that holds an
integer, is kept as an integer. -/
structure ExamSubmitResponse where
  IsCorrect : Bool
  Score : Int
  MaxScore : Int
  ExecutionMs : Int
  Message : String
  Error : String
  AttemptNumber : Int
  MaxAttempts : Int
  deriving DecidableEq, Repr

/-- The struct `models.CreateExamSubmissionParams`, without the two JSON
texts `ExpectedOutput` and `ActualOutput`. -/
structure CreateExamSubmissionParams where
  ExamID : Int
  ExamProblemID : Int
  UserID : Int
  Code : String
  DatabaseType : String
  Status : String
  ExecutionTimeMs : Int
  ErrorMessage : Option String
  IsCorrect : Bool
  AttemptNumber : Int
  deriving DecidableEq, Repr

/-- The answers of the exam repository and of the problem repository to the
calls of `SubmitAnswer`. `ListProblems` and `CountExamSubmissions` answer with
a value and an error, and `SubmitAnswer` reads the value only. -/
structure Repos where
  GetByID : Int → Except GoError Exam
  GetParticipant : Int → Int → Except GoError ExamParticipant
  ListProblems : Int → List ListExamProblemsRow × Option GoError
  CountExamSubmissions : Int → Int → Int → Int × Option GoError
  problemGetByID : Int → Except GoError Problem

/-- How a call of `SubmitAnswer` ends: with a response, with an error, or in
a panic of the runner. -/
inductive SubmitOutcome where
  | ok (resp : ExamSubmitResponse)
  | failed (err : GoError)
  | panicked (reason : String)
  deriving DecidableEq, Repr

/-- The sentinel `ErrExamNotFound`. -/
def ErrExamNotFound : GoError := ⟨"exam not found", false⟩

/-- The sentinel `ErrNotParticipant`. -/
def ErrNotParticipant : GoError := ⟨"you are not a participant", false⟩

/-- The sentinel `ErrAlreadySubmitted`. -/
def ErrAlreadySubmitted : GoError := ⟨"you have already submitted this exam", false⟩

/-- The sentinel `ErrMaxAttemptsReached`. -/
def ErrMaxAttemptsReached : GoError := ⟨"maximum attempts reached", false⟩

/-- The sentinel `ErrProblemNotInExam`. -/
def ErrProblemNotInExam : GoError := ⟨"problem not in this exam", false⟩

/-- The function `ptrToStr`. -/
def ptrToStr : Option String → String
  | none => ""
  | some s => s

/-- The function `ptrToBool`. -/
def ptrToBool : Option Bool → Bool
  | none => false
  | some b => b

/-- The function `ptrToInt32`. -/
def ptrToInt32 : Option Int → Int
  | none => 0
  | some i => i

/-- The function `strPtr`. -/
def strPtr (s : String) : Option String :=
  if s = "" then none else some s

/-- The value of an `int64` expression: the integer wrapped into 64 bits. -/
def int64 (x : Int) : Int := (x + 9223372036854775808) % 18446744073709551616 - 9223372036854775808

/-- The conversion `int32(x)`: the integer wrapped into 32 bits. -/
def int32 (x : Int) : Int := (x + 2147483648) % 4294967296 - 2147483648

/-- The method `SubmitAnswer` of the exam use case: the outcome, the
submissions created, the runner and the calls into `database/sql`. -/
def SubmitAnswer (table : Char → Char) (S : SliceSort) (W : World) (repo : Repos) (r : runner)
    (tr : List Event) (userID examID : Int) (req : ExamSubmitRequest) :
    SubmitOutcome × List CreateExamSubmissionParams × runner × List Event :=
  match repo.GetByID examID with
  | .error _ => (.failed ErrExamNotFound, [], r, tr)
  | .ok exam =>
    match repo.GetParticipant examID userID with
    | .error _ => (.failed ErrNotParticipant, [], r, tr)
    | .ok participant =>
      if ptrToStr participant.Status ≠ "in_progress" then (.failed ErrAlreadySubmitted, [], r, tr)
      else
        match (repo.ListProblems examID).1.find? (fun p => decide (p.ProblemID = req.ProblemID)) with
        | none => (.failed ErrProblemNotInExam, [], r, tr)
        | some examProblem =>
          let attemptCount := (repo.CountExamSubmissions examID examProblem.ID userID).1
          if attemptCount ≥ ptrToInt32 exam.MaxAttempts then
            (.failed ErrMaxAttemptsReached, [], r, tr)
          else
            match repo.problemGetByID req.ProblemID with
            | .error err => (.failed err, [], r, tr)
            | .ok problem =>
              match Execute table W r tr req.DatabaseType problem.SolutionQuery with
              | (.panicked reason, r1, tr1) => (.panicked reason, [], r1, tr1)
              | (.returned _ (some err), r1, tr1) => (.failed err, [], r1, tr1)
              | (.returned expectedResult none, r1, tr1) =>
                match Execute table W r1 tr1 req.DatabaseType req.Code with
                | (.panicked reason, r2, tr2) => (.panicked reason, [], r2, tr2)
                | (.returned actualResult _, r2, tr2) =>
                  let compareResult :=
                    Compare S expectedResult actualResult (ptrToBool problem.OrderMatters)
                  let maxScore := ptrToInt32 examProblem.Points
                  let attemptNum := int32 (int64 (attemptCount + 1))
                  let status := examStatus actualResult compareResult
                  (.ok
                    { IsCorrect := compareResult.IsCorrect
                      Score := examScore maxScore compareResult
                      MaxScore := maxScore
                      ExecutionMs := actualResult.ExecutionMs
                      Message := compareResult.Message
                      Error := actualResult.Error
                      AttemptNumber := attemptNum
                      MaxAttempts := ptrToInt32 exam.MaxAttempts },
                    [{ ExamID := examID
                       ExamProblemID := examProblem.ID
                       UserID := userID
                       Code := req.Code
                       DatabaseType := req.DatabaseType
                       Status := status
                       ExecutionTimeMs := int32 actualResult.ExecutionMs
                       ErrorMessage := strPtr actualResult.Error
                       IsCorrect := compareResult.IsCorrect
                       AttemptNumber := attemptNum }],
                    r2, tr2)

/-! ## Scenarios of the admitter, the comparator and the exam adapter -/

/-- The result of `SELECT x FROM t WHERE false`: one column, no row. -/
def emptyOneColumn : QueryResult := { Columns := ["x"] }

/-- The result of `SELECT x, y FROM t WHERE false`: two columns, no row. -/
def emptyTwoColumns : QueryResult := { Columns := ["x", "y"] }

/-- Repositories of an exam that allows three attempts, with one in-progress
participant, one problem (exam problem 10, problem 7, worth 5 points) and
`count` stored submissions of that participant for that problem. -/
def examRepos (count : Int) : Repos where
  GetByID := fun _ => .ok ⟨some 3⟩
  GetParticipant := fun _ _ => .ok ⟨some "in_progress"⟩
  ListProblems := fun _ => ([⟨10, 7, some 5⟩], none)
  CountExamSubmissions := fun _ _ _ => (count, none)
  problemGetByID := fun _ => .ok ⟨"SELECT x FROM t ORDER BY x", none⟩

/-- A request that answers problem 7 on PostgreSQL. -/
def examRequest : ExamSubmitRequest :=
  { ProblemID := 7, Code := "SELECT x FROM t", DatabaseType := "postgresql" }

/-- Whether a call into `database/sql` is an `ExecContext`. -/
def Event.isExec : Event → Bool
  | .exec _ _ => true
  | _ => false

/-- Scenario S1 on a database that keeps track of its tables: the statement
`INSERT INTO t VALUES (1),(2),(3)` fails unless `CREATE TABLE t(x INT)` was
executed on the pool before it; every other call succeeds and every query
yields the three rows of scenario S1. -/
def s1World : World where
  ping := fun _ _ => none
  openDB := fun _ _ _ => .ok 1
  beginTx := fun _ _ => none
  exec := fun tr db stmt =>
    if stmt = "INSERT INTO t VALUES (1),(2),(3)" ∧
        Event.exec db "CREATE TABLE t(x INT)" ∉ tr then
      some ⟨"pq: relation t does not exist", false⟩
    else none
  query := fun _ _ _ _ => .ok ⟨.ok ["x"], [.ok [some "1"], .ok [some "2"], .ok [some "3"]], none⟩
  elapsedMs := fun _ => 1

/-- The function `unicode.ToLower` on the runes of the scenarios: an ASCII
capital letter becomes its small letter, and U+0130, the capital letter I
with a dot above, becomes `i`; the other runes of the scenarios have no lower
case and are left as they are. -/
def toLowerRune (c : Char) : Char :=
  if 'A'.toNat ≤ c.toNat ∧ c.toNat ≤ 'Z'.toNat then Char.ofNat (c.toNat + 32)
  else if c.toNat = 0x130 then 'i'
  else c

/-- The function `strings.ToLower`: every rune mapped by `unicode.ToLower`. -/
def ToLower (s : String) : String :=
  ⟨s.data.map toLowerRune⟩

end SqlJudge

namespace SqlJudge

/-! ## String order and the sort -/

theorem runesLess_irrefl (a : List Char) : runesLess a a = false := by
  induction a with
  | nil => rfl
  | cons x xs ih => simp [runesLess, ih]

theorem runesLess_asymm (a b : List Char) (h : runesLess a b = true) :
    runesLess b a = false := by
  induction a generalizing b with
  | nil => cases b <;> simp [runesLess] at h ⊢
  | cons x xs ih =>
    cases b with
    | nil => simp [runesLess] at h
    | cons y ys =>
      simp only [runesLess] at h ⊢
      by_cases h1 : x.toNat < y.toNat
      · have h2 : ¬ y.toNat < x.toNat := by omega
        simp [h1, h2]
      · by_cases h2 : y.toNat < x.toNat
        · simp [h1, h2] at h
        · simp only [h1, h2, if_false] at h ⊢
          exact ih ys h

theorem runesLess_negTrans (a b c : List Char) (h1 : runesLess b a = false)
    (h2 : runesLess c b = false) : runesLess c a = false := by
  induction a generalizing b c with
  | nil => cases c <;> simp [runesLess]
  | cons x xs ih =>
    cases b with
    | nil => simp [runesLess] at h1
    | cons y ys =>
      cases c with
      | nil => simp [runesLess] at h2
      | cons z zs =>
        simp only [runesLess] at h1 h2 ⊢
        by_cases hyx : y.toNat < x.toNat
        · simp [hyx] at h1
        · by_cases hxy : x.toNat < y.toNat
          · by_cases hzy : z.toNat < y.toNat
            · simp [hzy] at h2
            · have h3 : ¬ z.toNat < x.toNat := by omega
              have h4 : x.toNat < z.toNat := by omega
              simp [h3, h4]
          · simp only [hyx, hxy, if_false] at h1
            by_cases hzy : z.toNat < y.toNat
            · simp [hzy] at h2
            · by_cases hyz : y.toNat < z.toNat
              · have h3 : ¬ z.toNat < x.toNat := by omega
                have h4 : x.toNat < z.toNat := by omega
                simp [h3, h4]
              · simp only [hzy, hyz, if_false] at h2
                have h3 : ¬ z.toNat < x.toNat := by omega
                have h4 : ¬ x.toNat < z.toNat := by omega
                simp only [h3, h4, if_false]
                exact ih ys zs h1 h2

theorem runesLess_total (a b : List Char) (h1 : runesLess a b = false)
    (h2 : runesLess b a = false) : a = b := by
  induction a generalizing b with
  | nil =>
    cases b with
    | nil => rfl
    | cons y ys => simp [runesLess] at h1
  | cons x xs ih =>
    cases b with
    | nil => simp [runesLess] at h2
    | cons y ys =>
      simp only [runesLess] at h1 h2
      by_cases hxy : x.toNat < y.toNat
      · simp [hxy] at h1
      · by_cases hyx : y.toNat < x.toNat
        · simp [hyx] at h2
        · simp only [hxy, hyx, if_false] at h1 h2
          have hx : x = y := by
            apply Char.ext
            apply UInt32.ext
            have : x.toNat = y.toNat := by omega
            exact this
          rw [hx, ih ys h1 h2]

theorem strLess_total (s t : String) (h1 : strLess s t = false) (h2 : strLess t s = false) :
    s = t := by
  have := runesLess_total s.data t.data h1 h2
  exact String.ext this

/-- The `less` callback of `sortRows` is a strict weak ordering. -/
theorem sprintLess_strictWeak :
    StrictWeak (fun a b : Row => strLess (Sprint a) (Sprint b)) where
  asymm := fun a b h => runesLess_asymm _ _ h
  negTrans := fun a b c h1 h2 => runesLess_negTrans _ _ _ h1 h2

theorem siftLeft_perm {α : Type} (less : α → α → Bool) (x : α) (left : List α) :
    (siftLeft less x left).Perm (x :: left) := by
  induction left with
  | nil => exact List.Perm.refl _
  | cons y ys ih =>
    simp only [siftLeft]
    split
    · exact ((List.Perm.cons y ih).trans (List.Perm.swap x y ys))
    · exact List.Perm.refl _

theorem siftFold_perm {α : Type} (less : α → α → Bool) (xs left : List α) :
    (xs.foldl (fun left x => siftLeft less x left) left).Perm (xs ++ left) := by
  induction xs generalizing left with
  | nil => exact List.Perm.refl _
  | cons x xs ih =>
    simp only [List.foldl_cons]
    refine (ih _).trans ?_
    refine (List.Perm.append_left xs (siftLeft_perm less x left)).trans ?_
    exact List.perm_middle

theorem siftLeft_sorted {α : Type} (less : α → α → Bool) (hw : StrictWeak less) (x : α)
    (left : List α) (h : left.Pairwise (fun a b => less a b = false)) :
    (siftLeft less x left).Pairwise (fun a b => less a b = false) := by
  induction left with
  | nil => simp [siftLeft]
  | cons y ys ih =>
    rw [List.pairwise_cons] at h
    simp only [siftLeft]
    by_cases hxy : less x y = true
    · simp only [hxy, if_true]
      rw [List.pairwise_cons]
      refine ⟨?_, ih h.2⟩
      intro z hz
      have hz2 := (siftLeft_perm less x ys).subset hz
      rcases List.mem_cons.mp hz2 with rfl | hz3
      · exact hw.asymm _ _ hxy
      · exact h.1 z hz3
    · have hxy2 : less x y = false := by simpa using hxy
      simp only [hxy2, Bool.false_eq_true, if_false]
      rw [List.pairwise_cons]
      refine ⟨?_, List.pairwise_cons.mpr h⟩
      intro z hz
      rcases List.mem_cons.mp hz with rfl | hz3
      · exact hxy2
      · exact hw.negTrans z y x (h.1 z hz3) hxy2

theorem siftFold_sorted {α : Type} (less : α → α → Bool) (hw : StrictWeak less)
    (xs left : List α) (h : left.Pairwise (fun a b => less a b = false)) :
    (xs.foldl (fun left x => siftLeft less x left) left).Pairwise
      (fun a b => less a b = false) := by
  induction xs generalizing left with
  | nil => exact h
  | cons x xs ih => exact ih _ (siftLeft_sorted less hw x left h)

theorem siftLeft_map {α β : Type} (f : α → β) (less : β → β → Bool) (x : α) (left : List α) :
    (siftLeft (fun a b => less (f a) (f b)) x left).map f = siftLeft less (f x) (left.map f) := by
  induction left with
  | nil => rfl
  | cons y ys ih =>
    simp only [siftLeft, List.map_cons]
    split <;> simp [ih]

theorem siftFold_map {α β : Type} (f : α → β) (less : β → β → Bool) (xs left : List α) :
    (xs.foldl (fun left x => siftLeft (fun a b => less (f a) (f b)) x left) left).map f =
      (xs.map f).foldl (fun left x => siftLeft less x left) (left.map f) := by
  induction xs generalizing left with
  | nil => rfl
  | cons x xs ih =>
    simp only [List.foldl_cons, List.map_cons]
    rw [ih, siftLeft_map]

/-- Go's insertion sort, which `sort.Slice` runs on short slices, keeps the
promises of `sort.Slice`. -/
theorem smallSliceSort_lawful : smallSliceSort.Lawful where
  perm := fun less xs => by
    show (insertionSort_func less xs).Perm xs
    unfold insertionSort_func
    refine (List.reverse_perm _).trans ?_
    simpa using siftFold_perm less xs []
  sorted := fun less xs hw => by
    show (insertionSort_func less xs).Pairwise _
    unfold insertionSort_func
    rw [List.pairwise_reverse]
    exact siftFold_sorted less hw xs [] List.Pairwise.nil
  natural := fun f less xs => by
    show (insertionSort_func _ xs).map f = insertionSort_func less (xs.map f)
    unfold insertionSort_func
    rw [List.map_reverse, siftFold_map]
    rfl

end SqlJudge

namespace SqlJudge

/-! ## The query admitter -/

theorem forbiddenLoop_none_iff (t : String) (kws : List String) :
    forbiddenLoop t kws = none ↔ ∀ kw ∈ kws, HasPrefix t kw = false := by
  induction kws with
  | nil => simp [forbiddenLoop]
  | cons kw rest ih =>
    simp only [forbiddenLoop, List.mem_cons, forall_eq_or_imp]
    by_cases h : HasPrefix t kw = true
    · simp [h]
    · have h2 : HasPrefix t kw = false := by simpa using h
      simp [h2, ih]

theorem forbiddenLoop_some (t : String) (kws : List String) (e : GoError)
    (h : forbiddenLoop t kws = some e) : e = ErrInvalidStatement := by
  induction kws with
  | nil => simp [forbiddenLoop] at h
  | cons kw rest ih =>
    simp only [forbiddenLoop] at h
    split at h
    · exact (Option.some.inj h).symm
    · exact ih h

theorem validateQuery_cases (table : Char → Char) (q : String) :
    ValidateQuery table q = none ∨ ValidateQuery table q = some ErrInvalidStatement := by
  cases hl : forbiddenLoop (TrimSpace (ToUpper table q)) forbidden with
  | some e =>
    right
    simp only [ValidateQuery, hl]
    rw [forbiddenLoop_some _ _ e hl]
  | none =>
    simp only [ValidateQuery, hl]
    split
    · right; rfl
    · left; rfl

/-- C1. `ValidateQuery` returns nil exactly when the text it inspects (the
query upper-cased, then trimmed) begins with SELECT or WITH and begins with
none of the forbidden keywords; in every other case, and so whenever the text
begins with neither SELECT nor WITH, it returns `ErrInvalidStatement`. -/
theorem validateQuery_admits_iff (table : Char → Char) (q : String) :
    (ValidateQuery table q = none ↔
      ((HasPrefix (TrimSpace (ToUpper table q)) "SELECT" = true ∨
          HasPrefix (TrimSpace (ToUpper table q)) "WITH" = true) ∧
        ∀ kw ∈ forbidden, HasPrefix (TrimSpace (ToUpper table q)) kw = false)) ∧
    (ValidateQuery table q ≠ none ↔ ValidateQuery table q = some ErrInvalidStatement) ∧
    (¬ (HasPrefix (TrimSpace (ToUpper table q)) "SELECT" = true ∨
          HasPrefix (TrimSpace (ToUpper table q)) "WITH" = true) →
      ValidateQuery table q = some ErrInvalidStatement) := by
  have key : ValidateQuery table q = none ↔
      ((HasPrefix (TrimSpace (ToUpper table q)) "SELECT" = true ∨
          HasPrefix (TrimSpace (ToUpper table q)) "WITH" = true) ∧
        ∀ kw ∈ forbidden, HasPrefix (TrimSpace (ToUpper table q)) kw = false) := by
    cases hl : forbiddenLoop (TrimSpace (ToUpper table q)) forbidden with
    | some e =>
      simp only [ValidateQuery, hl]
      constructor
      · intro h; cases h
      · intro h
        have := (forbiddenLoop_none_iff _ _).mpr h.2
        rw [hl] at this; cases this
    | none =>
      have hf := (forbiddenLoop_none_iff _ _).mp hl
      simp only [ValidateQuery, hl]
      cases h1 : HasPrefix (TrimSpace (ToUpper table q)) "SELECT" <;>
        cases h2 : HasPrefix (TrimSpace (ToUpper table q)) "WITH" <;>
        simp <;> exact hf
  refine ⟨key, ?_, ?_⟩
  · constructor
    · intro h
      rcases validateQuery_cases table q with h0 | h1
      · exact absurd h0 h
      · exact h1
    · intro h; rw [h]; simp
  · intro h
    rcases validateQuery_cases table q with h0 | h1
    · exact absurd (key.mp h0).1 h
    · exact h1

end SqlJudge

namespace SqlJudge

/-! ## The comparator -/

theorem cloneRows_eq (rows : List Row) : cloneRows rows = rows := by
  unfold cloneRows
  induction rows with
  | nil => rfl
  | cons r rs ih => simp

theorem compare_of_error (S : SliceSort) (expected actual : QueryResult) (om : Bool)
    (h : actual.Error ≠ "") :
    Compare S expected actual om =
      { IsCorrect := false
        Message := "Query error: " ++ actual.Error
        ExpectedRows := expected.RowCount
        ActualRows := actual.RowCount
        MismatchIndex := -1 } := by
  simp [Compare, h]

theorem compare_of_count (S : SliceSort) (expected actual : QueryResult) (om : Bool)
    (h : actual.Error = "") (hc : expected.RowCount ≠ actual.RowCount) :
    Compare S expected actual om =
      { IsCorrect := false
        Message := "Row count mismatch: expected " ++ toString expected.RowCount ++
          ", got " ++ toString actual.RowCount
        ExpectedRows := expected.RowCount
        ActualRows := actual.RowCount
        MismatchIndex := -1 } := by
  simp [Compare, h, hc]

theorem compare_of_mismatch (S : SliceSort) (expected actual : QueryResult) (om : Bool)
    (h : actual.Error = "") (hc : expected.RowCount = actual.RowCount)
    (hne : sortRows S expected.Rows ≠ sortRows S actual.Rows) :
    Compare S expected actual om =
      { IsCorrect := false
        Message := "Result mismatch (values do not match)"
        ExpectedRows := expected.RowCount
        ActualRows := actual.RowCount
        MismatchIndex := findMismatch (sortRows S expected.Rows) (sortRows S actual.Rows) } := by
  simp [Compare, h, hc, cloneRows_eq, hne]

theorem compare_of_match (S : SliceSort) (expected actual : QueryResult) (om : Bool)
    (h : actual.Error = "") (hc : expected.RowCount = actual.RowCount)
    (heq : sortRows S expected.Rows = sortRows S actual.Rows) :
    Compare S expected actual om =
      { IsCorrect := true
        Message := "Correct!"
        ExpectedRows := expected.RowCount
        ActualRows := actual.RowCount
        MismatchIndex := -1 } := by
  simp [Compare, h, hc, cloneRows_eq, heq]

/-- Two lists ordered by the same relation and holding the same elements are
equal, when the relation is antisymmetric on those elements. -/
theorem eq_of_perm_of_pairwise {α : Type} (R : α → α → Prop) :
    ∀ (l₁ l₂ : List α), l₁.Perm l₂ → l₁.Pairwise R → l₂.Pairwise R →
      (∀ a ∈ l₁, ∀ b ∈ l₁, R a b → R b a → a = b) → l₁ = l₂
  | [], l₂, hp, _, _, _ => (List.Perm.nil_eq hp)
  | a :: t₁, [], hp, _, _, _ => absurd hp.symm.nil_eq (by simp)
  | a :: t₁, b :: t₂, hp, h1, h2, hanti => by
    rw [List.pairwise_cons] at h1 h2
    have hab : a = b := by
      have ha : a ∈ b :: t₂ := hp.subset (List.mem_cons_self a t₁)
      have hb : b ∈ a :: t₁ := hp.symm.subset (List.mem_cons_self b t₂)
      rcases List.mem_cons.mp ha with h | ha2
      · exact h
      · rcases List.mem_cons.mp hb with h | hb2
        · exact h.symm
        · exact hanti a (List.mem_cons_self a t₁) b hb (h1.1 b hb2) (h2.1 a ha2)
    subst hab
    have ht : t₁ = t₂ :=
      eq_of_perm_of_pairwise R t₁ t₂ (List.Perm.cons_inv hp) h1.2 h2.2
        (fun x hx y hy => hanti x (List.mem_cons_of_mem a hx) y (List.mem_cons_of_mem a hy))
    rw [ht]

/-- Any lawful sort brings two reorderings of the same rows to the same
sequence, when rows with the same printed form are equal. -/
theorem sortRows_eq_of_perm (S : SliceSort) (hS : S.Lawful) (xs ys : List Row)
    (hperm : ys.Perm xs)
    (hinj : ∀ r ∈ xs, ∀ r' ∈ xs, Sprint r = Sprint r' → r = r') :
    sortRows S xs = sortRows S ys := by
  have p1 : (sortRows S xs).Perm xs := hS.perm _ xs
  have p2 : (sortRows S ys).Perm ys := hS.perm _ ys
  have s1 := hS.sorted _ xs sprintLess_strictWeak
  have s2 := hS.sorted _ ys sprintLess_strictWeak
  refine eq_of_perm_of_pairwise _ _ _ (p1.trans (hperm.symm.trans p2.symm)) s1 s2 ?_
  intro a ha b hb hab hba
  exact hinj a (p1.subset ha) b (p1.subset hb) (strLess_total _ _ hba hab)

theorem sortRows_length (S : SliceSort) (hS : S.Lawful) (xs : List Row) :
    (sortRows S xs).length = xs.length :=
  (hS.perm _ xs).length_eq

/-- The mismatch loop on two sequences of equal length that differ: it stops
at the least index at which they differ. -/
theorem findMismatch_least (xs ys : List Row) (hlen : xs.length = ys.length) (hne : xs ≠ ys) :
    ∃ i : Nat, findMismatch xs ys = (i : Int) ∧ i < xs.length ∧ xs[i]? ≠ ys[i]? ∧
      ∀ j, j < i → xs[j]? = ys[j]? := by
  have hex : ∃ i : Nat, xs[i]? ≠ ys[i]? := by
    by_contra hcon
    push_neg at hcon
    exact hne (List.ext_getElem? hcon)
  cases hf : (List.range xs.length).find?
      (fun i => decide (ys.length ≤ i) || decide (xs[i]? ≠ ys[i]?)) with
  | none =>
    exfalso
    rw [List.find?_range_eq_none] at hf
    obtain ⟨i, hi⟩ := hex
    by_cases hlt : i < xs.length
    · have := hf i hlt
      simp [hi] at this
    · have h1 : xs[i]? = none := List.getElem?_eq_none (by omega)
      have h2 : ys[i]? = none := List.getElem?_eq_none (by omega)
      exact hi (h1.trans h2.symm)
  | some i =>
    rw [List.find?_range_eq_some] at hf
    obtain ⟨hp, hmem, hleast⟩ := hf
    have hi : i < xs.length := List.mem_range.mp hmem
    refine ⟨i, ?_, hi, ?_, ?_⟩
    · simp only [findMismatch]
      rw [(List.find?_range_eq_some).mpr ⟨hp, hmem, hleast⟩]
    · have hnot : ¬ ys.length ≤ i := by omega
      simpa [hnot] using hp
    · intro j hj
      have := hleast j hj
      simp at this
      exact this.2

end SqlJudge

namespace SqlJudge

/-- The rows of `tieExpected` and `tieActual` are judged different by every
lawful sort, not only by the insertion sort: all keys being equal, the sort
cannot tell the two inputs apart and moves the same positions in both. -/
theorem compare_tie_any_sort (S : SliceSort) (hS : S.Lawful) (om : Bool) :
    (Compare S tieExpected tieActual om).IsCorrect = false := by
  have hne : sortRows S tieExpected.Rows ≠ sortRows S tieActual.Rows := by
    let f : Bool → Row := fun b =>
      if b then [.str "a b", .str "c"] else [.str "a", .str "b c"]
    let g : Bool → Row := fun b =>
      if b then [.str "a", .str "b c"] else [.str "a b", .str "c"]
    have hf := hS.natural f (fun a b => strLess (Sprint a) (Sprint b)) [true, false]
    have hg := hS.natural g (fun a b => strLess (Sprint a) (Sprint b)) [true, false]
    have lf : (fun a b : Bool => strLess (Sprint (f a)) (Sprint (f b))) = fun _ _ => false := by
      funext a b; cases a <;> cases b <;> decide
    have lg : (fun a b : Bool => strLess (Sprint (g a)) (Sprint (g b))) = fun _ _ => false := by
      funext a b; cases a <;> cases b <;> decide
    rw [lf] at hf
    rw [lg] at hg
    have hperm := hS.perm (fun _ _ : Bool => false) [true, false]
    have hcases : S.run (fun _ _ : Bool => false) [true, false] = [true, false] ∨
        S.run (fun _ _ : Bool => false) [true, false] = [false, true] := by
      generalize S.run (fun _ _ : Bool => false) [true, false] = L at hperm
      have hlen := hperm.length_eq
      match L, hlen with
      | [x, y], _ =>
        have hx : x ∈ [true, false] := hperm.subset (by simp)
        have hy : y ∈ [true, false] := hperm.subset (by simp)
        have hnd : [x, y].Nodup := hperm.nodup_iff.mpr (by decide)
        cases x <;> cases y <;> simp_all
    show S.run _ tieExpected.Rows ≠ S.run _ tieActual.Rows
    have e1 : tieExpected.Rows = [true, false].map f := rfl
    have e2 : tieActual.Rows = [true, false].map g := rfl
    rw [e1, e2, ← hf, ← hg]
    rcases hcases with h | h <;> rw [h] <;> decide
  rw [compare_of_mismatch S tieExpected tieActual om rfl rfl hne]

/-- C2 (counterexample). The results `tieExpected` and `tieActual` are free
of errors, their row counts are the lengths of their rows, and the rows of one
are a reordering of the rows of the other; `Compare` judges them different,
for either value of `orderMatters`. -/
theorem compare_reordering_rejected :
    tieExpected.Error = "" ∧ tieActual.Error = "" ∧
    tieExpected.RowCount = tieExpected.Rows.length ∧
    tieActual.RowCount = tieActual.Rows.length ∧
    tieActual.Rows.Perm tieExpected.Rows ∧
    (Compare smallSliceSort tieExpected tieActual true).IsCorrect = false ∧
    (Compare smallSliceSort tieExpected tieActual false).IsCorrect = false := by
  decide

/-- C2 (amended). For results `A`, `B` free of errors, with row counts equal
to the lengths of their rows and holding the same multiset of rows, in which
rows with the same printed form are equal, `Compare` returns
`is_correct = true`, for either value of `orderMatters` and whatever lawful
sort `sort.Slice` is. -/
theorem compare_same_multiset_correct (S : SliceSort) (hS : S.Lawful) (A B : QueryResult)
    (orderMatters : Bool) (hA : A.Error = "") (hB : B.Error = "")
    (hAc : A.RowCount = A.Rows.length) (hBc : B.RowCount = B.Rows.length)
    (hms : (A.Rows : Multiset Row) = (B.Rows : Multiset Row))
    (hinj : ∀ r ∈ A.Rows, ∀ r' ∈ A.Rows, Sprint r = Sprint r' → r = r') :
    (Compare S A B orderMatters).IsCorrect = true := by
  have hperm : A.Rows.Perm B.Rows := Multiset.coe_eq_coe.mp hms
  have hc : A.RowCount = B.RowCount := by rw [hAc, hBc, hperm.length_eq]
  rw [compare_of_match S A B orderMatters hB hc (sortRows_eq_of_perm S hS _ _ hperm.symm hinj)]

/-- C2 (amended), on scenario S1. -/
theorem compare_same_multiset_correct_witness :
    (Compare smallSliceSort s1Expected s1Actual false).IsCorrect = true :=
  compare_same_multiset_correct smallSliceSort smallSliceSort_lawful s1Expected s1Actual false
    rfl rfl (by decide) (by decide) (Multiset.coe_eq_coe.mpr (by decide)) (by decide)

/-- C3. When `actual.Error` is not empty `Compare` returns the verdict
`false` with the message `Query error: ` followed by the error, the two row
counts, and mismatch index `-1`, whatever the rows and `orderMatters` are. -/
theorem compare_query_error (S : SliceSort) (expected actual : QueryResult)
    (orderMatters : Bool) (h : actual.Error ≠ "") :
    (Compare S expected actual orderMatters).IsCorrect ≠ true ∧
    Compare S expected actual orderMatters =
      { IsCorrect := false
        Message := "Query error: " ++ actual.Error
        ExpectedRows := expected.RowCount
        ActualRows := actual.RowCount
        MismatchIndex := -1 } := by
  rw [compare_of_error S expected actual orderMatters h]
  simp

/-- C3, on a failed user query compared with the reference of scenario S1. -/
theorem compare_query_error_witness :
    failedActual.Error ≠ "" ∧
    (Compare smallSliceSort s1Expected failedActual true).IsCorrect ≠ true ∧
    Compare smallSliceSort s1Expected failedActual true =
      { IsCorrect := false
        Message := "Query error: pq: division by zero"
        ExpectedRows := 3
        ActualRows := 0
        MismatchIndex := -1 } :=
  ⟨by decide, compare_query_error smallSliceSort s1Expected failedActual true (by decide)⟩

/-- C4. When `actual.Error` is empty and the two row counts differ `Compare`
returns the verdict `false`, the two row counts, and the message
`Row count mismatch: expected E, got A` with the counts in decimal. -/
theorem compare_row_count_mismatch (S : SliceSort) (expected actual : QueryResult)
    (orderMatters : Bool) (h : actual.Error = "")
    (hc : expected.RowCount ≠ actual.RowCount) :
    Compare S expected actual orderMatters =
      { IsCorrect := false
        Message := "Row count mismatch: expected " ++ toString expected.RowCount ++
          ", got " ++ toString actual.RowCount
        ExpectedRows := expected.RowCount
        ActualRows := actual.RowCount
        MismatchIndex := -1 } :=
  compare_of_count S expected actual orderMatters h hc

/-- C4, on scenario S2: two expected rows, three actual rows. -/
theorem compare_row_count_mismatch_witness :
    Compare smallSliceSort s2Expected s2Actual true =
      { IsCorrect := false
        Message := "Row count mismatch: expected 2, got 3"
        ExpectedRows := 2
        ActualRows := 3
        MismatchIndex := -1 } :=
  compare_row_count_mismatch smallSliceSort s2Expected s2Actual true rfl (by decide)

/-- C5. The flag `orderMatters` is not honoured: `Compare` returns the same
result for `true` and for `false`. -/
theorem compare_ignores_orderMatters (S : SliceSort) (expected actual : QueryResult) :
    Compare S expected actual true = Compare S expected actual false :=
  rfl

end SqlJudge

namespace SqlJudge

/-- C6. For a user query that `ValidateQuery` rejects, `ExecuteWithSetup` and
`Execute` return, for every dialect tag and every setup script, the result
with `ErrorType = "validation"`, `Error = "only SELECT statements are
allowed"`, no rows and row count 0, together with the error
`ErrInvalidStatement`; the runner (its connection map) is the one before the
call and no call to the database is made. -/
theorem rejected_query_touches_nothing (table : Char → Char) (W : World) (r : runner)
    (tr : List Event) (dbType : DBType) (setupSQL query : String)
    (h : ValidateQuery table query ≠ none) :
    ExecuteWithSetup table W r tr dbType setupSQL query =
      (.returned
        { Columns := [], Rows := [], RowCount := 0, ExecutionMs := 0
          Error := "only SELECT statements are allowed", ErrorType := "validation" }
        (some ErrInvalidStatement), r, tr) ∧
    Execute table W r tr dbType query =
      (.returned
        { Columns := [], Rows := [], RowCount := 0, ExecutionMs := 0
          Error := "only SELECT statements are allowed", ErrorType := "validation" }
        (some ErrInvalidStatement), r, tr) := by
  have hv : ValidateQuery table query = some ErrInvalidStatement := by
    rcases validateQuery_cases table query with h0 | h1
    · exact absurd h0 h
    · exact h1
  constructor
  · simp only [ExecuteWithSetup, hv]
    rfl
  · simp only [Execute, hv]
    rfl

/-- C6, on scenario S3: the user query `DROP TABLE t`, on a known and on an
unknown dialect tag. -/
theorem rejected_query_touches_nothing_witness :
    ValidateQuery asciiCaseTable "DROP TABLE t" ≠ none ∧
    (ExecuteWithSetup asciiCaseTable quietWorld pgRunner [] "postgresql"
        "CREATE TABLE t(x INT); INSERT INTO t VALUES (1),(2),(3);" "DROP TABLE t" =
      (.returned
        { Columns := [], Rows := [], RowCount := 0, ExecutionMs := 0
          Error := "only SELECT statements are allowed", ErrorType := "validation" }
        (some ErrInvalidStatement), pgRunner, []) ∧
    Execute asciiCaseTable quietWorld pgRunner [] "postgresql" "DROP TABLE t" =
      (.returned
        { Columns := [], Rows := [], RowCount := 0, ExecutionMs := 0
          Error := "only SELECT statements are allowed", ErrorType := "validation" }
        (some ErrInvalidStatement), pgRunner, [])) :=
  ⟨by decide,
    rejected_query_touches_nothing asciiCaseTable quietWorld pgRunner [] "postgresql"
      "CREATE TABLE t(x INT); INSERT INTO t VALUES (1),(2),(3);" "DROP TABLE t" (by decide)⟩

/-- C7. For two results free of errors whose row counts are the lengths of
their rows and are equal, and whose sorted row sequences differ, `Compare`
returns the verdict `false`, the message `Result mismatch (values do not
match)`, and as mismatch index the least index below the row count at which
the two sorted sequences hold different rows. -/
theorem compare_mismatch_index (S : SliceSort) (hS : S.Lawful) (expected actual : QueryResult)
    (orderMatters : Bool) (he : expected.Error = "") (ha : actual.Error = "")
    (hec : expected.RowCount = expected.Rows.length)
    (hac : actual.RowCount = actual.Rows.length)
    (hc : expected.RowCount = actual.RowCount)
    (hne : sortRows S expected.Rows ≠ sortRows S actual.Rows) :
    (Compare S expected actual orderMatters).IsCorrect = false ∧
    (Compare S expected actual orderMatters).Message = "Result mismatch (values do not match)" ∧
    ∃ i : Nat, (Compare S expected actual orderMatters).MismatchIndex = (i : Int) ∧
      (i : Int) < expected.RowCount ∧
      (sortRows S expected.Rows)[i]? ≠ (sortRows S actual.Rows)[i]? ∧
      ∀ j, j < i → (sortRows S expected.Rows)[j]? = (sortRows S actual.Rows)[j]? := by
  have _ := he
  rw [compare_of_mismatch S expected actual orderMatters ha hc hne]
  have hlen : (sortRows S expected.Rows).length = (sortRows S actual.Rows).length := by
    rw [sortRows_length S hS, sortRows_length S hS]
    have : (expected.Rows.length : Int) = actual.Rows.length := by rw [← hec, ← hac, hc]
    exact_mod_cast this
  obtain ⟨i, hi, hlt, hd, hl⟩ := findMismatch_least _ _ hlen hne
  refine ⟨rfl, rfl, i, hi, ?_, hd, hl⟩
  rw [hec]
  rw [sortRows_length S hS] at hlt
  exact_mod_cast hlt

/-- C7, on the reference of scenario S1 and a result whose greatest row is
`[4]` instead of `[3]`: the sorted sequences first differ at index 2. -/
theorem compare_mismatch_index_witness :
    (Compare smallSliceSort s1Expected offActual true).MismatchIndex = 2 ∧
    ((Compare smallSliceSort s1Expected offActual true).IsCorrect = false ∧
    (Compare smallSliceSort s1Expected offActual true).Message =
      "Result mismatch (values do not match)" ∧
    ∃ i : Nat, (Compare smallSliceSort s1Expected offActual true).MismatchIndex = (i : Int) ∧
      (i : Int) < s1Expected.RowCount ∧
      (sortRows smallSliceSort s1Expected.Rows)[i]? ≠ (sortRows smallSliceSort offActual.Rows)[i]? ∧
      ∀ j, j < i → (sortRows smallSliceSort s1Expected.Rows)[j]? =
        (sortRows smallSliceSort offActual.Rows)[j]?) :=
  ⟨by decide,
    compare_mismatch_index smallSliceSort smallSliceSort_lawful s1Expected offActual true
      rfl rfl (by decide) (by decide) (by decide) (by decide)⟩

/-- C8. When `Compare` returns the verdict `true` its message is `Correct!`
and its mismatch index is `-1`; and the mismatch index is `-1` in every
result but that of a value mismatch: it is `-1` for a query error and for a
row-count mismatch, and a result whose index is not `-1` is the verdict
`false` with the message `Result mismatch (values do not match)`, reached with
no error, equal row counts and different sorted rows. -/
theorem compare_mismatch_index_default (S : SliceSort) (expected actual : QueryResult)
    (orderMatters : Bool) :
    ((Compare S expected actual orderMatters).IsCorrect = true →
      (Compare S expected actual orderMatters).Message = "Correct!" ∧
      (Compare S expected actual orderMatters).MismatchIndex = -1) ∧
    (actual.Error ≠ "" → (Compare S expected actual orderMatters).MismatchIndex = -1) ∧
    (actual.Error = "" → expected.RowCount ≠ actual.RowCount →
      (Compare S expected actual orderMatters).MismatchIndex = -1) ∧
    ((Compare S expected actual orderMatters).MismatchIndex ≠ -1 →
      actual.Error = "" ∧ expected.RowCount = actual.RowCount ∧
      sortRows S expected.Rows ≠ sortRows S actual.Rows ∧
      (Compare S expected actual orderMatters).IsCorrect = false ∧
      (Compare S expected actual orderMatters).Message =
        "Result mismatch (values do not match)") := by
  by_cases h : actual.Error = ""
  · by_cases hc : expected.RowCount = actual.RowCount
    · by_cases hs : sortRows S expected.Rows = sortRows S actual.Rows
      · rw [compare_of_match S expected actual orderMatters h hc hs]
        simp
      · rw [compare_of_mismatch S expected actual orderMatters h hc hs]
        simp [h, hc, hs]
    · rw [compare_of_count S expected actual orderMatters h hc]
      simp
  · rw [compare_of_error S expected actual orderMatters h]
    simp

/-- C10. For two results free of errors whose row counts are the lengths of
their rows, the actual rows being a permutation of the expected rows and no
two distinct rows having the same printed form, `Compare` returns the verdict
`true`, and the status `Submit` derives from it is `accepted`. -/
theorem compare_permutation_accepted (S : SliceSort) (hS : S.Lawful)
    (expected actual : QueryResult) (orderMatters : Bool)
    (he : expected.Error = "") (ha : actual.Error = "")
    (hec : expected.RowCount = expected.Rows.length)
    (hac : actual.RowCount = actual.Rows.length)
    (hperm : actual.Rows.Perm expected.Rows)
    (hinj : ∀ r ∈ expected.Rows, ∀ r' ∈ expected.Rows, r ≠ r' → Sprint r ≠ Sprint r') :
    (Compare S expected actual orderMatters).IsCorrect = true ∧
    submitStatus actual (Compare S expected actual orderMatters) = "accepted" := by
  have _ := he
  have hc : expected.RowCount = actual.RowCount := by rw [hec, hac, hperm.length_eq]
  have hs : sortRows S expected.Rows = sortRows S actual.Rows :=
    sortRows_eq_of_perm S hS _ _ hperm
      (fun r hr r' hr' hk => by
        by_contra hne
        exact hinj r hr r' hr' hne hk)
  rw [compare_of_match S expected actual orderMatters ha hc hs]
  simp [submitStatus, ha]

/-- C10, on scenario S1: expected rows `[1],[2],[3]`, actual rows
`[3],[2],[1]`. -/
theorem compare_permutation_accepted_witness :
    (Compare smallSliceSort s1Expected s1Actual true).IsCorrect = true ∧
    submitStatus s1Actual (Compare smallSliceSort s1Expected s1Actual true) = "accepted" :=
  compare_permutation_accepted smallSliceSort smallSliceSort_lawful s1Expected s1Actual true
    rfl rfl (by decide) (by decide) (by decide) (by decide)

end SqlJudge

namespace SqlJudge

namespace Mem

/-! ## The comparator leaves the caller's memory alone -/

theorem keeps_refl (nC nR : Nat) (h : Heap) : Keeps nC nR h h :=
  ⟨fun _ _ => rfl, fun _ _ => rfl⟩

theorem keeps_trans {nC nR : Nat} {h₁ h₂ h₃ : Heap} (h12 : Keeps nC nR h₁ h₂)
    (h23 : Keeps nC nR h₂ h₃) : Keeps nC nR h₁ h₃ :=
  ⟨fun a ha => (h23.1 a ha).trans (h12.1 a ha), fun a ha => (h23.2 a ha).trans (h12.2 a ha)⟩

theorem keeps_storeCells (nC nR : Nat) (h : Heap) (dst : Slice) (vals : List Cell)
    (hd : nC ≤ dst.arr) : Keeps nC nR h (h.storeCells dst vals) := by
  refine ⟨fun a ha => ?_, fun _ _ => rfl⟩
  show (h.cellArrays.set dst.arr _)[a]? = _
  rw [List.getElem?_set_ne (by omega)]

theorem keeps_storeHeaders (nC nR : Nat) (h : Heap) (dst : Slice) (vals : List Slice)
    (hd : nR ≤ dst.arr) : Keeps nC nR h (h.storeHeaders dst vals) := by
  refine ⟨fun _ _ => rfl, fun a ha => ?_⟩
  show (h.rowArrays.set dst.arr _)[a]? = _
  rw [List.getElem?_set_ne (by omega)]

theorem keeps_allocCells (nC nR : Nat) (h : Heap) (x : List Cell)
    (hn : nC ≤ h.cellArrays.length) :
    Keeps nC nR h { h with cellArrays := h.cellArrays ++ [x] } := by
  refine ⟨fun a ha => ?_, fun _ _ => rfl⟩
  show (h.cellArrays ++ [x])[a]? = _
  rw [List.getElem?_append_left (by omega)]

theorem keeps_allocRows (nC nR : Nat) (h : Heap) (x : List Slice)
    (hn : nR ≤ h.rowArrays.length) :
    Keeps nC nR h { h with rowArrays := h.rowArrays ++ [x] } := by
  refine ⟨fun _ _ => rfl, fun a ha => ?_⟩
  show (h.rowArrays ++ [x])[a]? = _
  rw [List.getElem?_append_left (by omega)]

theorem cloneLoop_keeps (nC nR : Nat) (rows newRows : Slice) (hr : nR ≤ newRows.arr) :
    ∀ (n i : Nat) (h : Heap), nC ≤ h.cellArrays.length →
      Keeps nC nR h (cloneLoop rows newRows n i h) ∧
      h.cellArrays.length ≤ (cloneLoop rows newRows n i h).cellArrays.length ∧
      (cloneLoop rows newRows n i h).rowArrays.length = h.rowArrays.length
  | 0, _, h, _ => ⟨keeps_refl _ _ _, Nat.le_refl _, rfl⟩
  | n + 1, i, h, hn => by
    simp only [cloneLoop]
    generalize hr0 : (h.headersOf rows).getD i nilSlice = r
    generalize hh1 : ({ h with cellArrays := h.cellArrays ++ [List.replicate r.len Cell.null] } :
      Heap) = h1
    generalize hh2 : h1.storeCells ⟨h.cellArrays.length, 0, r.len⟩
      ((h1.cellsOf r).take r.len) = h2
    generalize hh3 : h2.storeHeaders ⟨newRows.arr, newRows.off + i, 1⟩
      [⟨h.cellArrays.length, 0, r.len⟩] = h3
    have k1 : Keeps nC nR h h1 := by
      rw [← hh1]; exact keeps_allocCells nC nR h _ hn
    have l1 : h1.cellArrays.length = h.cellArrays.length + 1 := by
      rw [← hh1]; simp
    have r1 : h1.rowArrays.length = h.rowArrays.length := by rw [← hh1]
    have k2 : Keeps nC nR h1 h2 := by
      rw [← hh2]; exact keeps_storeCells nC nR h1 _ _ hn
    have l2 : h2.cellArrays.length = h1.cellArrays.length := by
      rw [← hh2]; simp [Heap.storeCells]
    have r2 : h2.rowArrays.length = h1.rowArrays.length := by rw [← hh2]; rfl
    have k3 : Keeps nC nR h2 h3 := by
      rw [← hh3]; exact keeps_storeHeaders nC nR h2 _ _ hr
    have l3 : h3.cellArrays.length = h2.cellArrays.length := by rw [← hh3]; rfl
    have r3 : h3.rowArrays.length = h2.rowArrays.length := by
      rw [← hh3]; simp [Heap.storeHeaders]
    obtain ⟨k4, l4, r4⟩ := cloneLoop_keeps nC nR rows newRows hr n (i + 1) h3 (by omega)
    exact ⟨keeps_trans (keeps_trans (keeps_trans k1 k2) k3) k4, by omega, by omega⟩

theorem cloneRows_keeps (nC nR : Nat) (h : Heap) (rows : Slice)
    (hn : nC ≤ h.cellArrays.length) (hr : nR ≤ h.rowArrays.length) :
    Keeps nC nR h (cloneRows h rows).1 ∧
    h.cellArrays.length ≤ (cloneRows h rows).1.cellArrays.length ∧
    (cloneRows h rows).1.rowArrays.length = h.rowArrays.length + 1 ∧
    (cloneRows h rows).2.arr = h.rowArrays.length := by
  simp only [cloneRows]
  have k0 := keeps_allocRows nC nR h (List.replicate rows.len nilSlice) hr
  obtain ⟨k1, l1, r1⟩ := cloneLoop_keeps nC nR rows ⟨h.rowArrays.length, 0, rows.len⟩ hr
    rows.len 0 { h with rowArrays := h.rowArrays ++ [List.replicate rows.len nilSlice] } hn
  refine ⟨keeps_trans k0 k1, l1, ?_, ?_⟩
  · rw [r1]; simp
  · trivial

theorem sortRows_keeps (S : SliceSort) (nC nR : Nat) (h : Heap) (rows : Slice)
    (hr : nR ≤ rows.arr) :
    Keeps nC nR h (sortRows S h rows) ∧
    (sortRows S h rows).cellArrays = h.cellArrays ∧
    (sortRows S h rows).rowArrays.length = h.rowArrays.length :=
  ⟨keeps_storeHeaders nC nR h rows _ hr, rfl, by simp [sortRows, Heap.storeHeaders]⟩

theorem compare_keeps (S : SliceSort) (h : Heap) (expected actual : QueryResultRef)
    (om : Bool) :
    Keeps h.cellArrays.length h.rowArrays.length h (Compare S h expected actual om).1 := by
  unfold Compare
  split
  · exact keeps_refl _ _ _
  · split
    · exact keeps_refl _ _ _
    · obtain ⟨k1, l1, r1, a1⟩ := cloneRows_keeps h.cellArrays.length h.rowArrays.length h
        expected.Rows (Nat.le_refl _) (Nat.le_refl _)
      obtain ⟨k2, l2, r2, a2⟩ := cloneRows_keeps h.cellArrays.length h.rowArrays.length
        (cloneRows h expected.Rows).1 actual.Rows l1 (by omega)
      obtain ⟨k3, l3, r3⟩ := sortRows_keeps S h.cellArrays.length h.rowArrays.length
        (cloneRows (cloneRows h expected.Rows).1 actual.Rows).1 (cloneRows h expected.Rows).2
        (by omega)
      obtain ⟨k4, l4, r4⟩ := sortRows_keeps S h.cellArrays.length h.rowArrays.length
        (sortRows S (cloneRows (cloneRows h expected.Rows).1 actual.Rows).1
          (cloneRows h expected.Rows).2)
        (cloneRows (cloneRows h expected.Rows).1 actual.Rows).2 (by omega)
      have k := keeps_trans (keeps_trans (keeps_trans k1 k2) k3) k4
      simp only []
      split <;> exact k

theorem rowsOf_of_keeps {nC nR : Nat} {h h' : Heap} (k : Keeps nC nR h h') (rows : Slice)
    (ha : rows.arr < nR) (hc : ∀ r ∈ h.headersOf rows, r.arr < nC) :
    h'.headersOf rows = h.headersOf rows ∧ h'.rowsOf rows = h.rowsOf rows := by
  have e1 : h'.headersOf rows = h.headersOf rows := by
    simp only [Heap.headersOf, List.getD_eq_getElem?_getD, k.2 rows.arr ha]
  refine ⟨e1, ?_⟩
  simp only [Heap.rowsOf, e1]
  apply List.map_congr_left
  intro r hr
  simp only [Heap.cellsOf, List.getD_eq_getElem?_getD, k.1 r.arr (hc r hr)]

end Mem

end SqlJudge

namespace SqlJudge

namespace Mem

/-! ## The heap comparator computes the comparator on values -/

theorem cellsOf_congr {h h' : Heap} (r : Slice)
    (e : h'.cellArrays[r.arr]? = h.cellArrays[r.arr]?) : h'.cellsOf r = h.cellsOf r := by
  simp only [Heap.cellsOf, List.getD_eq_getElem?_getD, e]

theorem headersOf_congr {h h' : Heap} (s : Slice)
    (e : h'.rowArrays[s.arr]? = h.rowArrays[s.arr]?) : h'.headersOf s = h.headersOf s := by
  simp only [Heap.headersOf, List.getD_eq_getElem?_getD, e]

theorem splice_single {α : Type} (xs : List α) (i : Nat) (v : α) (hi : i < xs.length) :
    splice xs i [v] = xs.set i v := by
  simp [splice, List.set_eq_take_append_cons_drop, hi]

theorem splice_whole {α : Type} (xs vals : List α) (off : Nat)
    (h : off + vals.length ≤ xs.length) :
    ((splice xs off vals).drop off).take vals.length = vals := by
  unfold splice
  have h1 : (xs.take off).length = off := by simp; omega
  rw [List.append_assoc, List.drop_left' h1, List.take_left]

theorem splice_length {α : Type} (xs vals : List α) (off : Nat)
    (h : off + vals.length ≤ xs.length) : (splice xs off vals).length = xs.length := by
  unfold splice
  simp
  omega

theorem take_set_self {α : Type} (l : List α) (i : Nat) (a : α) :
    (l.set i a).take i = l.take i := by
  rw [List.set_take]
  exact List.set_eq_of_length_le (by simp)

/-- One iteration of the loop of `cloneRows`, in closed form. -/
theorem cloneStep (hcur : Heap) (A i : Nat) (r : Slice) (arrN : List Slice)
    (hr : r.arr < hcur.cellArrays.length) (hlen : (hcur.cellsOf r).length = r.len)
    (hA : hcur.rowArrays[A]? = some arrN) (hi : i < arrN.length) :
    (({ hcur with cellArrays := hcur.cellArrays ++ [List.replicate r.len Cell.null] } :
        Heap).storeCells ⟨hcur.cellArrays.length, 0, r.len⟩
        ((({ hcur with cellArrays := hcur.cellArrays ++ [List.replicate r.len Cell.null] } :
          Heap).cellsOf r).take r.len)).storeHeaders ⟨A, 0 + i, 1⟩
        [⟨hcur.cellArrays.length, 0, r.len⟩] =
      ⟨hcur.cellArrays ++ [hcur.cellsOf r],
        hcur.rowArrays.set A (arrN.set i ⟨hcur.cellArrays.length, 0, r.len⟩)⟩ := by
  have e1 : ({ hcur with cellArrays := hcur.cellArrays ++ [List.replicate r.len Cell.null] } :
      Heap).cellsOf r = hcur.cellsOf r :=
    cellsOf_congr r (List.getElem?_append_left hr)
  rw [e1, List.take_of_length_le (by omega)]
  simp only [Heap.storeCells, Heap.storeHeaders, List.getD_eq_getElem?_getD, hA,
    Option.getD_some, Nat.zero_add]
  rw [splice_single _ _ _ hi]
  congr 1
  rw [List.getElem?_append_right (Nat.le_refl _)]
  simp only [Nat.sub_self, List.getElem?_cons_zero, Option.getD_some]
  rw [List.set_append_right _ _ (Nat.le_refl _)]
  simp only [Nat.sub_self, List.set_cons_zero]
  congr 2
  unfold splice
  simp [hlen]

/-- The loop of `cloneRows` fills the new slice with copies of the source
rows: `vals` are the rows to copy, `i` of which are already in place. -/
theorem cloneLoop_rowsOf (rows : Slice) (A L : Nat) (src : List Slice) (vals : List Row)
    (hAr : rows.arr ≠ A) (hsl : src.length = L) :
    ∀ (n i : Nat) (hcur : Heap) (arrN : List Slice),
      i + n = L →
      hcur.headersOf rows = src →
      (∀ r ∈ src, r.arr < hcur.cellArrays.length ∧ (hcur.cellsOf r).length = r.len) →
      src.map hcur.cellsOf = vals →
      hcur.rowArrays[A]? = some arrN → arrN.length = L →
      (∀ d ∈ arrN.take i, d.arr < hcur.cellArrays.length ∧
        d.off + d.len ≤ (hcur.cellArrays.getD d.arr []).length) →
      (arrN.take i).map hcur.cellsOf = vals.take i →
      (cloneLoop rows ⟨A, 0, L⟩ n i hcur).Holds ⟨A, 0, L⟩ ∧
      (cloneLoop rows ⟨A, 0, L⟩ n i hcur).rowsOf ⟨A, 0, L⟩ = vals
  | 0, i, hcur, arrN, hin, _, _, hv, hA, hlen, hdb, hdone => by
    have hiL : i = L := by omega
    have hvl : vals.length = L := by rw [← hv, List.length_map, hsl]
    have hAlt : A < hcur.rowArrays.length := by
      obtain ⟨hlt, _⟩ := List.getElem?_eq_some.mp hA
      exact hlt
    subst hiL
    refine ⟨⟨hAlt, ?_, ?_⟩, ?_⟩
    · simp only [cloneLoop, List.getD_eq_getElem?_getD, hA, Option.getD_some]; omega
    · simpa only [cloneLoop, Heap.headersOf, List.getD_eq_getElem?_getD, hA,
        Option.getD_some, List.drop_zero] using hdb
    · simp only [cloneLoop, Heap.rowsOf, Heap.headersOf, List.getD_eq_getElem?_getD, hA,
        Option.getD_some, List.drop_zero]
      rw [hdone, List.take_of_length_le (by omega)]
  | n + 1, i, hcur, arrN, hin, hsrc, hval, hv, hA, hlen, hdb, hdone => by
    have hi : i < L := by omega
    have hisrc : i < src.length := by omega
    have hr0 : (hcur.headersOf rows).getD i nilSlice = src[i] := by
      rw [hsrc, List.getD_eq_getElem _ _ hisrc]
    have hmem : src[i] ∈ src := List.getElem_mem hisrc
    obtain ⟨hra, hrl⟩ := hval _ hmem
    simp only [cloneLoop, hr0]
    rw [cloneStep hcur A i src[i] arrN hra hrl hA (by omega)]
    have hAlt : A < hcur.rowArrays.length := by
      obtain ⟨hlt, _⟩ := List.getElem?_eq_some.mp hA
      exact hlt
    have hia : i < arrN.length := by omega
    have oldArr : ∀ a : Nat, a < hcur.cellArrays.length →
        (hcur.cellArrays ++ [hcur.cellsOf src[i]])[a]? = hcur.cellArrays[a]? :=
      fun a ha => List.getElem?_append_left ha
    have old : ∀ d : Slice, d.arr < hcur.cellArrays.length →
        (⟨hcur.cellArrays ++ [hcur.cellsOf src[i]],
          hcur.rowArrays.set A (arrN.set i ⟨hcur.cellArrays.length, 0, src[i].len⟩)⟩ :
          Heap).cellsOf d = hcur.cellsOf d :=
      fun d hd => cellsOf_congr d (oldArr _ hd)
    have freshArr : (hcur.cellArrays ++ [hcur.cellsOf src[i]])[hcur.cellArrays.length]? =
        some (hcur.cellsOf src[i]) := by
      rw [List.getElem?_append_right (Nat.le_refl _)]
      simp
    have fresh : (⟨hcur.cellArrays ++ [hcur.cellsOf src[i]],
          hcur.rowArrays.set A (arrN.set i ⟨hcur.cellArrays.length, 0, src[i].len⟩)⟩ :
          Heap).cellsOf ⟨hcur.cellArrays.length, 0, src[i].len⟩ = hcur.cellsOf src[i] := by
      show (((hcur.cellArrays ++ [hcur.cellsOf src[i]]).getD hcur.cellArrays.length []).drop
        0).take src[i].len = hcur.cellsOf src[i]
      simp only [List.getD_eq_getElem?_getD, freshArr, Option.getD_some, List.drop_zero]
      exact List.take_of_length_le (Nat.le_of_eq hrl)
    have hvi : vals[i]? = some (hcur.cellsOf src[i]) := by
      rw [← hv, List.getElem?_map, List.getElem?_eq_getElem hisrc]
      rfl
    refine cloneLoop_rowsOf rows A L src vals hAr hsl n (i + 1) _
      (arrN.set i ⟨hcur.cellArrays.length, 0, src[i].len⟩) (by omega) ?_ ?_ ?_ ?_ ?_ ?_ ?_
    · exact (headersOf_congr rows (List.getElem?_set_ne (Ne.symm hAr))).trans hsrc
    · intro r hr
      obtain ⟨h1, h2⟩ := hval r hr
      refine ⟨?_, ?_⟩
      · simp only [List.length_append, List.length_singleton]; omega
      · rw [old r h1]; exact h2
    · rw [← hv]
      exact List.map_congr_left (fun r hr => old r (hval r hr).1)
    · exact List.getElem?_set_self hAlt
    · rw [List.length_set]; exact hlen
    · intro d hd
      rw [List.take_succ, take_set_self] at hd
      simp only [List.length_append, List.length_singleton, List.getD_eq_getElem?_getD]
      rcases List.mem_append.mp hd with h1 | h2
      · obtain ⟨b1, b2⟩ := hdb d h1
        rw [oldArr _ b1]
        simp only [List.getD_eq_getElem?_getD] at b2
        exact ⟨by omega, b2⟩
      · rw [List.getElem?_set_self hia] at h2
        simp only [Option.toList_some, List.mem_singleton] at h2
        rw [h2]
        simp only [freshArr, Option.getD_some]
        exact ⟨by omega, by omega⟩
    · rw [List.take_succ, take_set_self,
        List.getElem?_set_self hia, List.take_succ, hvi]
      simp only [Option.toList_some, List.map_append, List.map_cons, List.map_nil]
      rw [fresh, ← hdone]
      congr 1
      exact List.map_congr_left (fun d hd => old d (hdb d hd).1)

theorem holds_length {h : Heap} {s : Slice} (hs : h.Holds s) :
    (h.headersOf s).length = s.len := by
  obtain ⟨_, h2, _⟩ := hs
  simp only [Heap.headersOf, List.length_take, List.length_drop]
  omega

theorem holds_cells_length {h : Heap} {s : Slice} (hs : h.Holds s) (r : Slice)
    (hr : r ∈ h.headersOf s) : (h.cellsOf r).length = r.len := by
  obtain ⟨_, h2⟩ := hs.2.2 r hr
  simp only [Heap.cellsOf, List.length_take, List.length_drop]
  omega

/-- The function `cloneRows` on a slice that lies in the heap: the new slice
lies in the new heap and holds the rows of the source, row for row and cell
for cell. -/
theorem cloneRows_rowsOf (h : Heap) (rows : Slice) (hs : h.Holds rows) :
    (cloneRows h rows).1.Holds (cloneRows h rows).2 ∧
    (cloneRows h rows).1.rowsOf (cloneRows h rows).2 = h.rowsOf rows := by
  simp only [cloneRows]
  have hlt := hs.1
  refine cloneLoop_rowsOf rows h.rowArrays.length rows.len (h.headersOf rows) (h.rowsOf rows)
    (by omega) (holds_length hs) rows.len 0 _ (List.replicate rows.len nilSlice)
    (by omega) ?_ ?_ ?_ ?_ ?_ ?_ ?_
  · exact headersOf_congr rows (List.getElem?_append_left hlt)
  · intro r hr
    exact ⟨(hs.2.2 r hr).1, holds_cells_length hs r hr⟩
  · rfl
  · rw [List.getElem?_append_right (Nat.le_refl _)]
    simp
  · simp
  · intro d hd
    simp at hd
  · simp

theorem holds_of_keeps {h h' : Heap} (k : Keeps h.cellArrays.length h.rowArrays.length h h')
    (s : Slice) (hs : h.Holds s) : h'.Holds s ∧ h'.rowsOf s = h.rowsOf s := by
  obtain ⟨e1, e2⟩ := rowsOf_of_keeps k s hs.1 (fun r hr => (hs.2.2 r hr).1)
  refine ⟨⟨?_, ?_, ?_⟩, e2⟩
  · have := k.2 s.arr hs.1
    rw [List.getElem?_eq_getElem hs.1] at this
    exact (List.getElem?_eq_some.mp this).1
  · have := hs.2.1
    simp only [List.getD_eq_getElem?_getD] at this ⊢
    rw [k.2 s.arr hs.1]
    exact this
  · intro r hr
    rw [e1] at hr
    obtain ⟨b1, b2⟩ := hs.2.2 r hr
    have := k.1 r.arr b1
    refine ⟨?_, ?_⟩
    · rw [List.getElem?_eq_getElem b1] at this
      exact (List.getElem?_eq_some.mp this).1
    · simp only [List.getD_eq_getElem?_getD] at b2 ⊢
      rw [this]
      exact b2

end Mem

end SqlJudge

namespace SqlJudge

namespace Mem

/-- The function `sortRows` on a slice that lies in the heap: afterwards the
slice holds its rows sorted, as `sortRows` on values sorts them. -/
theorem sortRows_rowsOf (S : SliceSort) (hS : S.Lawful) (h : Heap) (s : Slice)
    (hs : h.Holds s) :
    (sortRows S h s).Holds s ∧
    (sortRows S h s).rowsOf s = SqlJudge.sortRows S (h.rowsOf s) := by
  have hperm := hS.perm (fun a b => strLess (Sprint (h.cellsOf a)) (Sprint (h.cellsOf b)))
    (h.headersOf s)
  have hlen : (S.run (fun a b => strLess (Sprint (h.cellsOf a)) (Sprint (h.cellsOf b)))
      (h.headersOf s)).length = s.len := by
    rw [hperm.length_eq, holds_length hs]
  have hb : s.off + (S.run (fun a b => strLess (Sprint (h.cellsOf a)) (Sprint (h.cellsOf b)))
      (h.headersOf s)).length ≤ (h.rowArrays.getD s.arr []).length := by
    rw [hlen]; exact hs.2.1
  have hget : (sortRows S h s).rowArrays.getD s.arr [] =
      splice (h.rowArrays.getD s.arr []) s.off
        (S.run (fun a b => strLess (Sprint (h.cellsOf a)) (Sprint (h.cellsOf b)))
          (h.headersOf s)) := by
    show (h.rowArrays.set s.arr _).getD s.arr [] = _
    rw [List.getD_eq_getElem?_getD, List.getElem?_set_self hs.1]
    rfl
  have hhead : (sortRows S h s).headersOf s =
      S.run (fun a b => strLess (Sprint (h.cellsOf a)) (Sprint (h.cellsOf b)))
        (h.headersOf s) := by
    show (((sortRows S h s).rowArrays.getD s.arr []).drop s.off).take s.len = _
    rw [hget, ← hlen]
    exact splice_whole _ _ _ hb
  refine ⟨⟨?_, ?_, ?_⟩, ?_⟩
  · show s.arr < (h.rowArrays.set s.arr _).length
    rw [List.length_set]; exact hs.1
  · rw [hget, splice_length _ _ _ hb]; exact hs.2.1
  · intro r hr
    rw [hhead] at hr
    exact hs.2.2 r (hperm.subset hr)
  · show ((sortRows S h s).headersOf s).map h.cellsOf = _
    rw [hhead]
    exact hS.natural h.cellsOf (fun a b => strLess (Sprint a) (Sprint b)) (h.headersOf s)

theorem sortRows_other (S : SliceSort) (h : Heap) (s t : Slice) (hne : t.arr ≠ s.arr)
    (ht : h.Holds t) :
    (sortRows S h s).Holds t ∧ (sortRows S h s).rowsOf t = h.rowsOf t := by
  have e : (sortRows S h s).rowArrays[t.arr]? = h.rowArrays[t.arr]? := by
    show (h.rowArrays.set s.arr _)[t.arr]? = _
    exact List.getElem?_set_ne (Ne.symm hne)
  have e1 : (sortRows S h s).headersOf t = h.headersOf t := headersOf_congr t e
  refine ⟨⟨?_, ?_, ?_⟩, ?_⟩
  · show t.arr < (h.rowArrays.set s.arr _).length
    rw [List.length_set]; exact ht.1
  · have := ht.2.1
    simp only [List.getD_eq_getElem?_getD] at this ⊢
    rw [e]; exact this
  · intro r hr
    rw [e1] at hr
    exact ht.2.2 r hr
  · show ((sortRows S h s).headersOf t).map h.cellsOf = _
    rw [e1]
    rfl

/-- The heap comparator returns the result of the comparator on the values
its arguments denote. -/
theorem compare_value (S : SliceSort) (hS : S.Lawful) (h : Heap)
    (expected actual : QueryResultRef) (om : Bool) (hE : h.Holds expected.Rows)
    (hA : h.Holds actual.Rows) :
    (Compare S h expected actual om).2 =
      SqlJudge.Compare S (expected.value h) (actual.value h) om := by
  by_cases herr : actual.Error = ""
  · by_cases hc : expected.RowCount = actual.RowCount
    · obtain ⟨k1, l1, r1, a1⟩ := cloneRows_keeps h.cellArrays.length h.rowArrays.length h
        expected.Rows (Nat.le_refl _) (Nat.le_refl _)
      obtain ⟨c1h, c1v⟩ := cloneRows_rowsOf h expected.Rows hE
      obtain ⟨a1h, a1v⟩ := holds_of_keeps k1 actual.Rows hA
      obtain ⟨k2, l2, r2, a2⟩ := cloneRows_keeps (cloneRows h expected.Rows).1.cellArrays.length
        (cloneRows h expected.Rows).1.rowArrays.length (cloneRows h expected.Rows).1
        actual.Rows (Nat.le_refl _) (Nat.le_refl _)
      obtain ⟨c2h, c2v⟩ := cloneRows_rowsOf (cloneRows h expected.Rows).1 actual.Rows a1h
      obtain ⟨e2h, e2v⟩ := holds_of_keeps k2 (cloneRows h expected.Rows).2 c1h
      have hne : (cloneRows (cloneRows h expected.Rows).1 actual.Rows).2.arr ≠
          (cloneRows h expected.Rows).2.arr := by omega
      obtain ⟨e3h, e3v⟩ := sortRows_rowsOf S hS _ _ e2h
      obtain ⟨a3h, a3v⟩ := sortRows_other S _ _ _ hne c2h
      obtain ⟨a4h, a4v⟩ := sortRows_rowsOf S hS _ _ a3h
      obtain ⟨e4h, e4v⟩ := sortRows_other S _ _ _ (Ne.symm hne) e3h
      rw [e3v, e2v, c1v] at e4v
      rw [a3v, c2v, a1v] at a4v
      simp only [Compare, SqlJudge.Compare, QueryResultRef.value, herr, hc, cloneRows_eq,
        e4v, a4v]
      by_cases hs : SqlJudge.sortRows S (h.rowsOf expected.Rows) =
          SqlJudge.sortRows S (h.rowsOf actual.Rows) <;> simp [hs]
    · simp [Compare, SqlJudge.Compare, QueryResultRef.value, herr, hc]
  · simp [Compare, SqlJudge.Compare, QueryResultRef.value, herr]

/-- C9. `Compare` leaves its inputs intact. Every backing array that exists
when `Compare` is called holds the same elements when it returns; so the
slices `expected.Rows` and `actual.Rows` hold the same row headers and the
same rows, in the same order and with the same cells. The sorted slices are
the ones `cloneRows` makes, and a slice made by `cloneRows` holds rows equal,
element for element, to the rows of its argument. The result is the one the
comparator on values computes. -/
theorem compare_leaves_inputs_intact (S : SliceSort) (hS : S.Lawful) (h : Heap)
    (expected actual : QueryResultRef) (orderMatters : Bool)
    (hE : h.Holds expected.Rows) (hA : h.Holds actual.Rows) :
    (∀ a, a < h.cellArrays.length →
      (Compare S h expected actual orderMatters).1.cellArrays[a]? = h.cellArrays[a]?) ∧
    (∀ a, a < h.rowArrays.length →
      (Compare S h expected actual orderMatters).1.rowArrays[a]? = h.rowArrays[a]?) ∧
    (Compare S h expected actual orderMatters).1.headersOf expected.Rows =
      h.headersOf expected.Rows ∧
    (Compare S h expected actual orderMatters).1.headersOf actual.Rows =
      h.headersOf actual.Rows ∧
    (Compare S h expected actual orderMatters).1.rowsOf expected.Rows =
      h.rowsOf expected.Rows ∧
    (Compare S h expected actual orderMatters).1.rowsOf actual.Rows = h.rowsOf actual.Rows ∧
    (cloneRows h expected.Rows).1.rowsOf (cloneRows h expected.Rows).2 =
      h.rowsOf expected.Rows ∧
    (cloneRows h actual.Rows).1.rowsOf (cloneRows h actual.Rows).2 = h.rowsOf actual.Rows ∧
    SqlJudge.cloneRows (h.rowsOf expected.Rows) = h.rowsOf expected.Rows ∧
    SqlJudge.cloneRows (h.rowsOf actual.Rows) = h.rowsOf actual.Rows ∧
    (Compare S h expected actual orderMatters).2 =
      SqlJudge.Compare S (expected.value h) (actual.value h) orderMatters := by
  have k := compare_keeps S h expected actual orderMatters
  obtain ⟨e1, e2⟩ := rowsOf_of_keeps k expected.Rows hE.1 (fun r hr => (hE.2.2 r hr).1)
  obtain ⟨a1, a2⟩ := rowsOf_of_keeps k actual.Rows hA.1 (fun r hr => (hA.2.2 r hr).1)
  exact ⟨k.1, k.2, e1, a1, e2, a2, (cloneRows_rowsOf h expected.Rows hE).2,
    (cloneRows_rowsOf h actual.Rows hA).2, cloneRows_eq _, cloneRows_eq _,
    compare_value S hS h expected actual orderMatters hE hA⟩

/-- C9, on scenario S1 laid out in a heap: both inputs lie in the heap, the
call allocates and sorts (the heap changes), and the rows the two inputs hold
are the same after the call. -/
theorem compare_leaves_inputs_intact_witness :
    s1Heap.Holds s1ExpectedRef.Rows ∧ s1Heap.Holds s1ActualRef.Rows ∧
    (Compare smallSliceSort s1Heap s1ExpectedRef s1ActualRef true).1 ≠ s1Heap ∧
    (Compare smallSliceSort s1Heap s1ExpectedRef s1ActualRef true).1.rowsOf s1ActualRef.Rows =
      [[.str "3"], [.str "2"], [.str "1"]] ∧
    ((Compare smallSliceSort s1Heap s1ExpectedRef s1ActualRef true).1.rowsOf s1ExpectedRef.Rows =
        s1Heap.rowsOf s1ExpectedRef.Rows ∧
      (Compare smallSliceSort s1Heap s1ExpectedRef s1ActualRef true).1.rowsOf s1ActualRef.Rows =
        s1Heap.rowsOf s1ActualRef.Rows) :=
  ⟨by unfold Heap.Holds; decide, by unfold Heap.Holds; decide, by decide, by decide,
    (compare_leaves_inputs_intact smallSliceSort smallSliceSort_lawful s1Heap s1ExpectedRef
      s1ActualRef true (by unfold Heap.Holds; decide) (by unfold Heap.Holds; decide)).2.2.2.2.1,
    (compare_leaves_inputs_intact smallSliceSort smallSliceSort_lawful s1Heap s1ExpectedRef
      s1ActualRef true (by unfold Heap.Holds; decide)
      (by unfold Heap.Holds; decide)).2.2.2.2.2.1⟩

end Mem

end SqlJudge

namespace SqlJudge

/-! ## The normalizer and the execution engine -/

theorem convertRow_length (ncols : Nat) (raw : List (Option String)) :
    (convertRow ncols raw).length = ncols := by
  simp [convertRow]

theorem convertRow_getElem? (ncols : Nat) (raw : List (Option String)) (i : Nat)
    (hi : i < ncols) :
    (convertRow ncols raw)[i]? = some (Cell.str ((raw.getD i none).getD "")) := by
  simp only [convertRow, List.getElem?_map, List.getElem?_range hi, Option.map_some']
  cases raw.getD i none <;> rfl

theorem scanLoop_ok (ncols : Nat) (raws : List (List (Option String))) (acc : List Row) :
    scanLoop ncols (raws.map Except.ok) acc = .ok (acc ++ raws.map (convertRow ncols)) := by
  induction raws generalizing acc with
  | nil => simp [scanLoop]
  | cons raw rest ih => simp [scanLoop, ih]

theorem scanLoop_rows (ncols : Nat) (scans : List (Except GoError (List (Option String))))
    (acc rows : List Row) (h : scanLoop ncols scans acc = .ok rows)
    (hacc : ∀ row ∈ acc, row.length = ncols) : ∀ row ∈ rows, row.length = ncols := by
  induction scans generalizing acc with
  | nil =>
    simp only [scanLoop, Except.ok.injEq] at h
    rw [← h]; exact hacc
  | cons s rest ih =>
    cases s with
    | error e => simp [scanLoop] at h
    | ok raw =>
      simp only [scanLoop] at h
      refine ih _ h ?_
      intro row hrow
      rcases List.mem_append.mp hrow with h1 | h2
      · exact hacc row h1
      · rw [List.mem_singleton.mp h2]; exact convertRow_length _ _

theorem scanLoop_error (ncols : Nat) (scans : List (Except GoError (List (Option String))))
    (acc : List Row) (e : GoError) (h : scanLoop ncols scans acc = .error e) :
    Except.error e ∈ scans := by
  induction scans generalizing acc with
  | nil => simp [scanLoop] at h
  | cons s rest ih =>
    cases s with
    | error e' =>
      simp only [scanLoop, Except.error.injEq] at h
      rw [h]; exact List.mem_cons_self _ _
    | ok raw =>
      simp only [scanLoop] at h
      exact List.mem_cons_of_mem _ (ih _ h)

/-- The two ways `scanRows` ends: with a nil result and the error of
`Columns` or of a `Scan`, or with a result whose rows all have one cell for
each column, together with the value of `rows.Err()`. -/
theorem scanRows_cases (cur : Cursor) :
    (∃ e, scanRows cur = (none, some e) ∧
      (cur.columns = .error e ∨ Except.error e ∈ cur.scans)) ∨
    (∃ cols rows, cur.columns = .ok cols ∧
      scanLoop cols.length cur.scans [] = .ok rows ∧
      (∀ row ∈ rows, row.length = cols.length) ∧
      scanRows cur =
        (some { Columns := cols, Rows := rows, RowCount := (rows.length : Int) }, cur.err)) := by
  unfold scanRows
  cases hc : cur.columns with
  | error e => left; exact ⟨e, rfl, Or.inl rfl⟩
  | ok cols =>
    cases hl : scanLoop cols.length cur.scans [] with
    | error e => left; exact ⟨e, by simp [hl], Or.inr (scanLoop_error _ _ _ e hl)⟩
    | ok rows =>
      right
      refine ⟨cols, rows, rfl, hl, scanLoop_rows _ _ _ _ hl (by simp), ?_⟩
      simp [hl]

/-- The ways `executeInternal` ends. -/
theorem executeInternal_cases (W : World) (cfg : Config) (tr : List Event) (db : Handle)
    (inTx : Bool) (query : String) :
    (∃ e, W.query tr db inTx query = .error e ∧
      executeInternal W cfg tr db inTx query =
        (.returned
          { ExecutionMs := W.elapsedMs (tr ++ [.query db inTx query])
            Error := (if e.deadline then ErrQueryTimeout else e).msg
            ErrorType := if e.deadline then "timeout" else "runtime" }
          (some (if e.deadline then ErrQueryTimeout else e)),
          tr ++ [.query db inTx query])) ∨
    (∃ cur e, W.query tr db inTx query = .ok cur ∧ (scanRows cur).2 = some e ∧
      executeInternal W cfg tr db inTx query =
        (.returned
          { ExecutionMs := W.elapsedMs (tr ++ [.query db inTx query])
            Error := e.msg, ErrorType := "runtime" }
          (some e), tr ++ [.query db inTx query] ++ [.rowsClose db])) ∨
    (∃ cur cols rows, W.query tr db inTx query = .ok cur ∧ cur.columns = .ok cols ∧
      scanLoop cols.length cur.scans [] = .ok rows ∧ cur.err = none ∧
      (∀ row ∈ rows, row.length = cols.length) ∧
      executeInternal W cfg tr db inTx query =
        (if (rows.length : Int) > cfg.QueryMaxRows then
          if cfg.QueryMaxRows < 0 then .panicked "slice bounds out of range"
          else .returned
            { Columns := cols, Rows := rows.take cfg.QueryMaxRows.toNat
              RowCount := cfg.QueryMaxRows
              ExecutionMs := W.elapsedMs (tr ++ [.query db inTx query]) } none
        else .returned
            { Columns := cols, Rows := rows, RowCount := (rows.length : Int)
              ExecutionMs := W.elapsedMs (tr ++ [.query db inTx query]) } none,
          tr ++ [.query db inTx query] ++ [.rowsClose db])) := by
  cases hq : W.query tr db inTx query with
  | error e =>
    left
    refine ⟨e, rfl, ?_⟩
    simp only [executeInternal, hq]
  | ok cur =>
    right
    rcases scanRows_cases cur with ⟨e, hs, _⟩ | ⟨cols, rows, hc, hl, hrows, hs⟩
    · left
      refine ⟨cur, e, rfl, by rw [hs], ?_⟩
      simp only [executeInternal, hq, hs]
    · cases he : cur.err with
      | some e =>
        left
        refine ⟨cur, e, rfl, by rw [hs, he], ?_⟩
        simp only [executeInternal, hq, hs, he]
      | none =>
        right
        refine ⟨cur, cols, rows, rfl, hc, hl, he, hrows, ?_⟩
        simp only [executeInternal, hq, hs, he]
        split <;> [split; skip] <;> rfl

end SqlJudge

namespace SqlJudge

theorem append_msg_ne_empty (a b : String) (ha : a ≠ "") : a ++ b ≠ "" := by
  intro h
  have h1 := congrArg String.data h
  rw [String.data_append] at h1
  have h2 : a.data = [] := (List.append_eq_nil.mp h1).1
  exact ha (String.ext h2)

/-- What `getConnection` does to the runner and to the trace: the
configuration is kept, the calls added are `Ping`, `Close` and `Open`, and an
error it returns has a message. -/
theorem getConnection_post (W : World) (r : runner) (tr : List Event) (dbType : DBType) :
    (getConnection W r tr dbType).2.1.cfg = r.cfg ∧
    (∃ added, (getConnection W r tr dbType).2.2 = tr ++ added ∧
      ∀ ev ∈ added, (∃ h, ev = .ping h) ∨ (∃ h, ev = .closeDB h) ∨
        (∃ d s, ev = .openDB d s)) ∧
    (∀ e, (getConnection W r tr dbType).1 = .error e → e.msg ≠ "") := by
  have key : ∀ (r' : runner) (tr' : List Event), r'.cfg = r.cfg →
      (∃ added, tr' = tr ++ added ∧
        ∀ ev ∈ added, (∃ h, ev = .ping h) ∨ (∃ h, ev = .closeDB h) ∨
          (∃ d s, ev = .openDB d s)) →
      ∀ out : Except GoError Handle × runner × List Event,
      out = (match dialect r'.cfg dbType with
        | none => (.error ErrUnsupportedDB, r', tr')
        | some (dsn, driver) =>
          if dsn = "" then
            (.error ⟨ErrConnectionFailed.msg ++ ": " ++ dbType ++ " sandbox not configured",
              false⟩, r', tr')
          else
            match W.openDB tr' driver dsn with
            | .error err =>
              (.error ⟨ErrConnectionFailed.msg ++ ": " ++ err.msg, false⟩, r',
                tr' ++ [.openDB driver dsn])
            | .ok db =>
              match W.ping (tr' ++ [.openDB driver dsn]) db with
              | some err =>
                (.error ⟨ErrConnectionFailed.msg ++ ": " ++ err.msg, false⟩, r',
                  tr' ++ [.openDB driver dsn] ++ [.ping db, .closeDB db])
              | none =>
                (.ok db,
                  { r' with connections :=
                      (dbType, db) :: r'.connections.filter (fun e => e.1 ≠ dbType) },
                  tr' ++ [.openDB driver dsn] ++ [.ping db])) →
      out.2.1.cfg = r.cfg ∧
      (∃ added, out.2.2 = tr ++ added ∧
        ∀ ev ∈ added, (∃ h, ev = .ping h) ∨ (∃ h, ev = .closeDB h) ∨
          (∃ d s, ev = .openDB d s)) ∧
      (∀ e, out.1 = .error e → e.msg ≠ "") := by
    intro r' tr' hcfg ⟨added, hadd, hev⟩ out hout
    have hne : ErrConnectionFailed.msg ≠ "" := by decide
    have hm : ∀ b c : String, ErrConnectionFailed.msg ++ b ++ c ≠ "" := fun b c => by
      rw [String.append_assoc]; exact append_msg_ne_empty _ _ hne
    subst hadd
    cases hd : dialect r'.cfg dbType with
    | none =>
      simp only [hd] at hout
      subst hout
      refine ⟨hcfg, ⟨added, rfl, hev⟩, ?_⟩
      intro e he
      simp only [Except.error.injEq] at he
      rw [← he]; decide
    | some p =>
      obtain ⟨dsn, driver⟩ := p
      simp only [hd] at hout
      by_cases hdsn : dsn = ""
      · simp only [hdsn, if_true] at hout
        subst hout
        refine ⟨hcfg, ⟨added, rfl, hev⟩, ?_⟩
        intro e he
        simp only [Except.error.injEq] at he
        rw [← he]
        show ErrConnectionFailed.msg ++ ": " ++ dbType ++ " sandbox not configured" ≠ ""
        rw [String.append_assoc]
        exact hm _ _
      · simp only [hdsn, if_false] at hout
        cases ho : W.openDB (tr ++ added) driver dsn with
        | error err =>
          simp only [ho] at hout
          subst hout
          refine ⟨hcfg, ⟨added ++ [.openDB driver dsn], by simp, ?_⟩, ?_⟩
          · intro ev hmem
            rcases List.mem_append.mp hmem with h1 | h2
            · exact hev ev h1
            · exact Or.inr (Or.inr ⟨driver, dsn, List.mem_singleton.mp h2⟩)
          · intro e he
            simp only [Except.error.injEq] at he
            rw [← he]; exact hm _ _
        | ok db =>
          simp only [ho] at hout
          cases hp : W.ping (tr ++ added ++ [.openDB driver dsn]) db with
          | some err =>
            simp only [hp] at hout
            subst hout
            refine ⟨hcfg, ⟨added ++ [.openDB driver dsn] ++ [.ping db, .closeDB db],
              by simp, ?_⟩, ?_⟩
            · intro ev hmem
              simp only [List.append_assoc, List.mem_append, List.mem_cons, List.mem_singleton,
                List.not_mem_nil, or_false] at hmem
              rcases hmem with h1 | h2 | h3 | h4
              · exact hev ev h1
              · exact Or.inr (Or.inr ⟨driver, dsn, h2⟩)
              · exact Or.inl ⟨db, h3⟩
              · exact Or.inr (Or.inl ⟨db, h4⟩)
            · intro e he
              simp only [Except.error.injEq] at he
              rw [← he]; exact hm _ _
          | none =>
            simp only [hp] at hout
            subst hout
            refine ⟨hcfg, ⟨added ++ [.openDB driver dsn] ++ [.ping db], by simp, ?_⟩, ?_⟩
            · intro ev hmem
              simp only [List.append_assoc, List.mem_append, List.mem_cons, List.mem_singleton,
                List.not_mem_nil, or_false] at hmem
              rcases hmem with h1 | h2 | h3
              · exact hev ev h1
              · exact Or.inr (Or.inr ⟨driver, dsn, h2⟩)
              · exact Or.inl ⟨db, h3⟩
            · intro e he
              cases he
  unfold getConnection
  cases hl : r.connections.lookup dbType with
  | none =>
    exact key r tr rfl ⟨[], by simp, by simp⟩ _ rfl
  | some conn =>
    dsimp only
    cases hp : W.ping tr conn with
    | none =>
      refine ⟨rfl, ⟨[.ping conn], rfl, ?_⟩, ?_⟩
      · intro ev hmem
        exact Or.inl ⟨conn, List.mem_singleton.mp hmem⟩
      · intro e he; cases he
    | some err =>
      refine key { r with connections := r.connections.filter (fun e => e.1 ≠ dbType) }
        (tr ++ [.ping conn, .closeDB conn]) rfl ⟨[.ping conn, .closeDB conn], rfl, ?_⟩ _ rfl
      intro ev hmem
      simp only [List.mem_cons, List.mem_singleton, List.not_mem_nil, or_false] at hmem
      rcases hmem with h1 | h2
      · exact Or.inl ⟨conn, h1⟩
      · exact Or.inr (Or.inl ⟨conn, h2⟩)

end SqlJudge

namespace SqlJudge

/-! ## The setup loop -/

theorem setup_pieces (setupSQL : String) :
    ((if setupSQL ≠ "" then splitSemis setupSQL.data [] else []).map TrimSpace).filter
      (fun stmt => stmt ≠ "") = setupStatements setupSQL := by
  by_cases h : setupSQL = ""
  · subst h; decide
  · simp [h, setupStatements]

/-- The setup loop when a statement fails: the statements before it are
executed, it is executed, and the loop ends with its error. -/
theorem setupLoop_fails (W : World) (db : Handle) (pieces : List String) (tr : List Event)
    (pre : List String) (s : String) (post : List String) (err : GoError)
    (hs : (pieces.map TrimSpace).filter (fun s => s ≠ "") = pre ++ s :: post)
    (hpre : ∀ p1 x p2, pre = p1 ++ x :: p2 →
      W.exec (tr ++ p1.map (Event.exec db)) db x = none)
    (hfail : W.exec (tr ++ pre.map (Event.exec db)) db s = some err) :
    setupLoop W db tr pieces =
      (some (err, s), tr ++ pre.map (Event.exec db) ++ [Event.exec db s]) := by
  induction pieces generalizing tr pre with
  | nil => simp at hs
  | cons piece rest ih =>
    by_cases he : TrimSpace piece = ""
    · simp only [setupLoop, he, if_true]
      exact ih tr pre (by simpa [he] using hs) hpre hfail
    · simp only [List.map_cons, List.filter_cons, he, ne_eq, not_false_eq_true,
        decide_True, if_true] at hs
      simp only [setupLoop, he, if_false]
      cases pre with
      | nil =>
        simp only [List.nil_append, List.cons.injEq] at hs
        simp only [List.map_nil, List.append_nil] at hfail ⊢
        rw [hs.1, hfail]
      | cons p pre' =>
        simp only [List.cons_append, List.cons.injEq] at hs
        have h0 := hpre [] p pre' rfl
        simp only [List.map_nil, List.append_nil] at h0
        rw [hs.1, h0]
        simp only []
        rw [ih (tr ++ [Event.exec db p]) pre' hs.2 ?_ ?_]
        · simp
        · intro p1 x p2 hp
          have := hpre (p :: p1) x p2 (by rw [hp]; rfl)
          simpa using this
        · simpa using hfail

/-- The calls the setup loop adds to the trace are `ExecContext` calls, and a
statement it reports as failing is not empty. -/
theorem setupLoop_trace (W : World) (db : Handle) (pieces : List String) (tr : List Event) :
    ∃ added, (setupLoop W db tr pieces).2 = tr ++ added ∧
      ∀ ev ∈ added, ∃ s, ev = Event.exec db s := by
  induction pieces generalizing tr with
  | nil => exact ⟨[], by simp [setupLoop], by simp⟩
  | cons piece rest ih =>
    simp only [setupLoop]
    split
    · exact ih tr
    · cases hx : W.exec tr db (TrimSpace piece) with
      | some err =>
        exact ⟨[Event.exec db (TrimSpace piece)], rfl,
          fun ev hm => ⟨_, List.mem_singleton.mp hm⟩⟩
      | none =>
        obtain ⟨added, h1, h2⟩ := ih (tr ++ [Event.exec db (TrimSpace piece)])
        refine ⟨Event.exec db (TrimSpace piece) :: added, ?_, ?_⟩
        · simp only []; rw [h1]; simp
        · intro ev hm
          rcases List.mem_cons.mp hm with h | h
          · exact ⟨_, h⟩
          · exact h2 ev h

/-- The ways `ExecuteWithSetup` ends, `pieces` being the pieces of the setup
script. -/
theorem executeWithSetup_cases (table : Char → Char) (W : World) (r : runner)
    (tr : List Event) (dbType : DBType) (setupSQL query : String) :
    (∃ e, ValidateQuery table query = some e ∧
      ExecuteWithSetup table W r tr dbType setupSQL query =
        (.returned { Error := e.msg, ErrorType := "validation" } (some e), r, tr)) ∨
    (ValidateQuery table query = none ∧
      ((∃ e r1 tr1, getConnection W r tr dbType = (.error e, r1, tr1) ∧
        ExecuteWithSetup table W r tr dbType setupSQL query =
          (.returned { Error := e.msg, ErrorType := "connection" } (some e), r1, tr1)) ∨
      (∃ db r1 tr1, getConnection W r tr dbType = (.ok db, r1, tr1) ∧
        ((∃ e, W.beginTx tr1 db = some e ∧
          ExecuteWithSetup table W r tr dbType setupSQL query =
            (.returned { Error := e.msg, ErrorType := "connection" } (some e), r1,
              tr1 ++ [.beginTx db])) ∨
        (W.beginTx tr1 db = none ∧
          ((∃ e stmt tr3,
            setupLoop W db (tr1 ++ [.beginTx db])
              (if setupSQL ≠ "" then splitSemis setupSQL.data [] else []) =
              (some (e, stmt), tr3) ∧
            ExecuteWithSetup table W r tr dbType setupSQL query =
              (.returned
                { Error := "setup error: " ++ e.msg ++ " (stmt: " ++ stmt ++ ")"
                  ErrorType := "setup" } (some e), r1, tr3 ++ [.rollback db])) ∨
          (∃ tr3,
            setupLoop W db (tr1 ++ [.beginTx db])
              (if setupSQL ≠ "" then splitSemis setupSQL.data [] else []) = (none, tr3) ∧
            ExecuteWithSetup table W r tr dbType setupSQL query =
              ((executeInternal W r1.cfg tr3 db true query).1, r1,
                (executeInternal W r1.cfg tr3 db true query).2 ++ [.rollback db])))))))) := by
  cases hv : ValidateQuery table query with
  | some e =>
    left
    exact ⟨e, rfl, by simp only [ExecuteWithSetup, hv]⟩
  | none =>
    right
    refine ⟨rfl, ?_⟩
    rcases hg : getConnection W r tr dbType with ⟨res, r1, tr1⟩
    cases res with
    | error e =>
      left
      exact ⟨e, r1, tr1, rfl, by simp only [ExecuteWithSetup, hv, hg]⟩
    | ok db =>
      right
      refine ⟨db, r1, tr1, rfl, ?_⟩
      cases hb : W.beginTx tr1 db with
      | some e =>
        left
        exact ⟨e, rfl, by simp only [ExecuteWithSetup, hv, hg, hb]⟩
      | none =>
        right
        refine ⟨rfl, ?_⟩
        rcases hl : setupLoop W db (tr1 ++ [.beginTx db])
          (if setupSQL ≠ "" then splitSemis setupSQL.data [] else []) with ⟨res, tr3⟩
        cases res with
        | some p =>
          obtain ⟨e, stmt⟩ := p
          left
          exact ⟨e, stmt, tr3, hl, by simp only [ExecuteWithSetup, hv, hg, hb, hl]⟩
        | none =>
          right
          exact ⟨tr3, hl, by simp only [ExecuteWithSetup, hv, hg, hb, hl]⟩

/-- The ways `Execute` ends. -/
theorem execute_cases (table : Char → Char) (W : World) (r : runner) (tr : List Event)
    (dbType : DBType) (query : String) :
    (∃ e, ValidateQuery table query = some e ∧
      Execute table W r tr dbType query =
        (.returned { Error := e.msg, ErrorType := "validation" } (some e), r, tr)) ∨
    (ValidateQuery table query = none ∧
      ((∃ e r1 tr1, getConnection W r tr dbType = (.error e, r1, tr1) ∧
        Execute table W r tr dbType query =
          (.returned { Error := e.msg, ErrorType := "connection" } (some e), r1, tr1)) ∨
      (∃ db r1 tr1, getConnection W r tr dbType = (.ok db, r1, tr1) ∧
        Execute table W r tr dbType query =
          ((executeInternal W r1.cfg tr1 db false query).1, r1,
            (executeInternal W r1.cfg tr1 db false query).2)))) := by
  cases hv : ValidateQuery table query with
  | some e =>
    left
    exact ⟨e, rfl, by simp only [Execute, hv]⟩
  | none =>
    right
    refine ⟨rfl, ?_⟩
    rcases hg : getConnection W r tr dbType with ⟨res, r1, tr1⟩
    cases res with
    | error e =>
      left
      exact ⟨e, r1, tr1, rfl, by simp only [Execute, hv, hg]⟩
    | ok db =>
      right
      exact ⟨db, r1, tr1, rfl, by simp only [Execute, hv, hg]⟩

end SqlJudge

namespace SqlJudge

/-- The result of `executeInternal` when the query, `Columns`, every `Scan`
and `Err` succeed, `raws` being the rows the cursor yields. -/
theorem executeInternal_of_rows (W : World) (cfg : Config) (tr : List Event) (db : Handle)
    (inTx : Bool) (query : String) (cur : Cursor) (cols : List String)
    (raws : List (List (Option String)))
    (hq : W.query tr db inTx query = .ok cur) (hcols : cur.columns = .ok cols)
    (hscans : cur.scans = raws.map Except.ok) (herr : cur.err = none) :
    executeInternal W cfg tr db inTx query =
      (if (raws.length : Int) > cfg.QueryMaxRows then
        if cfg.QueryMaxRows < 0 then .panicked "slice bounds out of range"
        else .returned
          { Columns := cols
            Rows := (raws.map (convertRow cols.length)).take cfg.QueryMaxRows.toNat
            RowCount := cfg.QueryMaxRows
            ExecutionMs := W.elapsedMs (tr ++ [.query db inTx query]) } none
      else .returned
          { Columns := cols, Rows := raws.map (convertRow cols.length)
            RowCount := (raws.length : Int)
            ExecutionMs := W.elapsedMs (tr ++ [.query db inTx query]) } none,
        tr ++ [.query db inTx query] ++ [.rowsClose db]) := by
  have hs : scanRows cur =
      (some { Columns := cols, Rows := raws.map (convertRow cols.length)
              RowCount := (raws.length : Int) }, none) := by
    simp [scanRows, hcols, hscans, scanLoop_ok, herr]
  simp only [executeInternal, hq, hs, List.length_map]
  split <;> [split; skip] <;> rfl

/-- C11. The normalizer turns a nil cell and a cell of no bytes into the same
string `""` and any other cell into the string of its bytes. So in scenario
S6 the cursor holding one NULL and the cursor holding one empty string are
scanned into the same result, the engine returns for both the single row
`[""]`, and `Compare` judges the two results equal. -/
theorem normalizer_null_as_empty (S : SliceSort) (orderMatters : Bool) :
    (∀ (ncols : Nat) (raw : List (Option String)) (i : Nat), i < ncols →
      (convertRow ncols raw)[i]? = some (Cell.str ((raw.getD i none).getD ""))) ∧
    convertRow 1 [none] = [Cell.str ""] ∧ convertRow 1 [some ""] = [Cell.str ""] ∧
    scanRows s6Reference =
      (some { Columns := ["x"], Rows := [[Cell.str ""]], RowCount := 1 }, none) ∧
    scanRows s6User = scanRows s6Reference ∧
    (∀ (W : World) (cfg : Config) (tr tr' : List Event) (db : Handle) (q q' : String),
      1 ≤ cfg.QueryMaxRows →
      W.query tr db true q = .ok s6Reference → W.query tr' db true q' = .ok s6User →
      ∃ expected actual,
        (executeInternal W cfg tr db true q).1 = .returned expected none ∧
        (executeInternal W cfg tr' db true q').1 = .returned actual none ∧
        expected.Rows = [[Cell.str ""]] ∧ actual.Rows = [[Cell.str ""]] ∧
        (Compare S expected actual orderMatters).IsCorrect = true) := by
  refine ⟨convertRow_getElem?, by decide, by decide, by decide, by decide, ?_⟩
  intro W cfg tr tr' db q q' hmax hq hq'
  have h1 := executeInternal_of_rows W cfg tr db true q s6Reference ["x"] [[none]] hq rfl rfl rfl
  have h2 := executeInternal_of_rows W cfg tr' db true q' s6User ["x"] [[some ""]] hq' rfl rfl rfl
  have hn : ¬ (([[none]] : List (List (Option String))).length : Int) > cfg.QueryMaxRows := by
    simp; omega
  have hn' : ¬ (([[some ""]] : List (List (Option String))).length : Int) >
      cfg.QueryMaxRows := by
    simp; omega
  rw [if_neg hn] at h1
  rw [if_neg hn'] at h2
  refine ⟨_, _, by rw [h1], by rw [h2], rfl, rfl, ?_⟩
  refine (congrArg CompareResult.IsCorrect
    (compare_of_match S _ _ orderMatters ?_ ?_ ?_)).trans ?_ <;> rfl

/-- C12. For a query that succeeds and whose cursor yields `n` rows: when
`n` exceeds `QueryMaxRows` (not negative) `executeInternal` returns no error,
an empty `Error`, `RowCount = QueryMaxRows` and as rows the first
`QueryMaxRows` scanned rows in cursor order; otherwise it returns all `n`
rows with `RowCount = n`. -/
theorem executeInternal_truncates (W : World) (cfg : Config) (tr : List Event) (db : Handle)
    (inTx : Bool) (query : String) (cur : Cursor) (cols : List String)
    (raws : List (List (Option String)))
    (hq : W.query tr db inTx query = .ok cur) (hcols : cur.columns = .ok cols)
    (hscans : cur.scans = raws.map Except.ok) (herr : cur.err = none)
    (hmax : 0 ≤ cfg.QueryMaxRows) :
    ∃ result, (executeInternal W cfg tr db inTx query).1 = .returned result none ∧
      result.Error = "" ∧ result.ErrorType = "" ∧ result.Columns = cols ∧
      ((raws.length : Int) > cfg.QueryMaxRows →
        result.RowCount = cfg.QueryMaxRows ∧
        (result.Rows.length : Int) = cfg.QueryMaxRows ∧
        result.Rows = (raws.map (convertRow cols.length)).take cfg.QueryMaxRows.toNat) ∧
      ((raws.length : Int) ≤ cfg.QueryMaxRows →
        result.RowCount = (raws.length : Int) ∧
        result.Rows = raws.map (convertRow cols.length)) := by
  have h := executeInternal_of_rows W cfg tr db inTx query cur cols raws hq hcols hscans herr
  by_cases hgt : (raws.length : Int) > cfg.QueryMaxRows
  · have hnn : ¬ cfg.QueryMaxRows < 0 := by omega
    rw [if_pos hgt, if_neg hnn] at h
    refine ⟨_, by rw [h], rfl, rfl, rfl, ?_, ?_⟩
    · intro _
      refine ⟨rfl, ?_, rfl⟩
      simp only [List.length_take, List.length_map]
      omega
    · intro hle; omega
  · rw [if_neg hgt] at h
    refine ⟨_, by rw [h], rfl, rfl, rfl, ?_, ?_⟩
    · intro hh; exact absurd hh hgt
    · intro _; exact ⟨rfl, rfl⟩

/-- C12, on a cursor of three rows with `QueryMaxRows = 2`: the first two
rows are returned, with row count 2 and no error. -/
theorem executeInternal_truncates_witness :
    (executeInternal quietWorld smallRunner.cfg [] 1 true "SELECT x FROM t").1 =
      .returned
        { Columns := ["x"], Rows := [[.str "1"], [.str "2"]], RowCount := 2, ExecutionMs := 1 }
        none ∧
    ∃ result,
      (executeInternal quietWorld smallRunner.cfg [] 1 true "SELECT x FROM t").1 =
        .returned result none ∧
      result.RowCount = 2 ∧ (result.Rows.length : Int) = 2 :=
  ⟨by decide,
    (executeInternal_truncates quietWorld smallRunner.cfg [] 1 true "SELECT x FROM t"
      ⟨.ok ["x"], [.ok [some "1"], .ok [some "2"], .ok [some "3"]], none⟩ ["x"]
      [[some "1"], [some "2"], [some "3"]] rfl rfl rfl rfl (by decide)).imp
      (fun _ h => ⟨h.1, (h.2.2.2.2.1 (by decide)).1, (h.2.2.2.2.1 (by decide)).2.1⟩)⟩

end SqlJudge

namespace SqlJudge

/-! ## Invariants of the results -/

theorem shaped_error (maxRows : Int) (hmax : 0 ≤ maxRows) (ms : Int) (e k : String) :
    QueryResult.Shaped maxRows { ExecutionMs := ms, Error := e, ErrorType := k } :=
  ⟨rfl, hmax, fun _ h => absurd h (List.not_mem_nil _)⟩

/-- With a row limit that is not negative `executeInternal` returns, and its
result keeps the invariants of the data model. -/
theorem executeInternal_shaped (W : World) (cfg : Config) (tr : List Event) (db : Handle)
    (inTx : Bool) (query : String) (hmax : 0 ≤ cfg.QueryMaxRows) :
    ∃ result err, (executeInternal W cfg tr db inTx query).1 = .returned result err ∧
      result.Shaped cfg.QueryMaxRows := by
  rcases executeInternal_cases W cfg tr db inTx query with
    ⟨e, _, h⟩ | ⟨cur, e, _, _, h⟩ | ⟨cur, cols, rows, _, _, _, _, hrows, h⟩
  · exact ⟨_, _, by rw [h], shaped_error _ hmax _ _ _⟩
  · exact ⟨_, _, by rw [h], shaped_error _ hmax _ _ _⟩
  · by_cases hgt : (rows.length : Int) > cfg.QueryMaxRows
    · have hnn : ¬ cfg.QueryMaxRows < 0 := by omega
      rw [if_pos hgt, if_neg hnn] at h
      refine ⟨_, _, by rw [h], ?_, ?_, ?_⟩
      · show cfg.QueryMaxRows = ((rows.take cfg.QueryMaxRows.toNat).length : Int)
        rw [List.length_take]; omega
      · show ((rows.take cfg.QueryMaxRows.toNat).length : Int) ≤ cfg.QueryMaxRows
        rw [List.length_take]; omega
      · intro row hrow
        exact hrows row (List.mem_of_mem_take hrow)
    · rw [if_neg hgt] at h
      exact ⟨_, _, by rw [h], rfl, by show (rows.length : Int) ≤ _; omega, hrows⟩

/-- C13. With a row limit that is not negative, `ExecuteWithSetup` and
`Execute` return, on every path, a result whose row count is the number of
its rows, whose rows do not exceed `QueryMaxRows`, and whose rows all have
one cell for each column. -/
theorem results_keep_invariants (table : Char → Char) (W : World) (r : runner)
    (tr : List Event) (dbType : DBType) (setupSQL query : String)
    (hmax : 0 ≤ r.cfg.QueryMaxRows) :
    (∃ result err, (ExecuteWithSetup table W r tr dbType setupSQL query).1 =
        .returned result err ∧
      result.RowCount = (result.Rows.length : Int) ∧
      (result.Rows.length : Int) ≤ r.cfg.QueryMaxRows ∧
      ∀ row ∈ result.Rows, row.length = result.Columns.length) ∧
    (∃ result err, (Execute table W r tr dbType query).1 = .returned result err ∧
      result.RowCount = (result.Rows.length : Int) ∧
      (result.Rows.length : Int) ≤ r.cfg.QueryMaxRows ∧
      ∀ row ∈ result.Rows, row.length = result.Columns.length) := by
  have hcfg := (getConnection_post W r tr dbType).1
  constructor
  · rcases executeWithSetup_cases table W r tr dbType setupSQL query with
      ⟨e, _, h⟩ | ⟨_, ⟨e, r1, tr1, _, h⟩ | ⟨db, r1, tr1, hg, ⟨e, _, h⟩ |
        ⟨_, ⟨e, stmt, tr3, _, h⟩ | ⟨tr3, _, h⟩⟩⟩⟩
    · exact ⟨_, _, by rw [h], shaped_error _ hmax _ _ _⟩
    · exact ⟨_, _, by rw [h], shaped_error _ hmax _ _ _⟩
    · exact ⟨_, _, by rw [h], shaped_error _ hmax _ _ _⟩
    · exact ⟨_, _, by rw [h], shaped_error _ hmax _ _ _⟩
    · rw [hg] at hcfg
      have hmax1 : 0 ≤ r1.cfg.QueryMaxRows := by
        have : r1.cfg = r.cfg := hcfg
        rw [this]; exact hmax
      obtain ⟨result, err, he, hs⟩ := executeInternal_shaped W r1.cfg tr3 db true query hmax1
      have : r1.cfg = r.cfg := hcfg
      rw [this] at hs he
      exact ⟨result, err, by rw [h, this]; exact he, hs⟩
  · rcases execute_cases table W r tr dbType query with
      ⟨e, _, h⟩ | ⟨_, ⟨e, r1, tr1, _, h⟩ | ⟨db, r1, tr1, hg, h⟩⟩
    · exact ⟨_, _, by rw [h], shaped_error _ hmax _ _ _⟩
    · exact ⟨_, _, by rw [h], shaped_error _ hmax _ _ _⟩
    · rw [hg] at hcfg
      have : r1.cfg = r.cfg := hcfg
      have hmax1 : 0 ≤ r1.cfg.QueryMaxRows := by rw [this]; exact hmax
      obtain ⟨result, err, he, hs⟩ := executeInternal_shaped W r1.cfg tr1 db false query hmax1
      rw [this] at hs he
      exact ⟨result, err, by rw [h, this]; exact he, hs⟩

/-- C13, on scenario S1 run with the row limit 2: the result returned has two
rows of one cell, one column and row count 2. -/
theorem results_keep_invariants_witness :
    (ExecuteWithSetup asciiCaseTable quietWorld smallRunner [] "postgresql"
        "CREATE TABLE t(x INT); INSERT INTO t VALUES (1),(2),(3);" "SELECT x FROM t").1 =
      .returned
        { Columns := ["x"], Rows := [[.str "1"], [.str "2"]], RowCount := 2, ExecutionMs := 1 }
        none ∧
    ∃ result err,
      (ExecuteWithSetup asciiCaseTable quietWorld smallRunner [] "postgresql"
        "CREATE TABLE t(x INT); INSERT INTO t VALUES (1),(2),(3);" "SELECT x FROM t").1 =
        .returned result err ∧
      result.RowCount = (result.Rows.length : Int) ∧
      (result.Rows.length : Int) ≤ smallRunner.cfg.QueryMaxRows ∧
      ∀ row ∈ result.Rows, row.length = result.Columns.length :=
  ⟨by decide,
    (results_keep_invariants asciiCaseTable quietWorld smallRunner [] "postgresql"
      "CREATE TABLE t(x INT); INSERT INTO t VALUES (1),(2),(3);" "SELECT x FROM t"
      (by decide)).1⟩

end SqlJudge

namespace SqlJudge

theorem scanRows_error_source (cur : Cursor) (e : GoError) (h : (scanRows cur).2 = some e) :
    cur.columns = .error e ∨ Except.error e ∈ cur.scans ∨ cur.err = some e := by
  rcases scanRows_cases cur with ⟨e', hs, hsrc⟩ | ⟨cols, rows, _, _, _, hs⟩
  · rw [hs] at h
    simp only [Option.some.injEq] at h
    subst h
    rcases hsrc with h1 | h2
    · exact Or.inl h1
    · exact Or.inr (Or.inl h2)
  · rw [hs] at h
    exact Or.inr (Or.inr h)

/-- On a driver whose errors have messages: when `executeInternal` returns,
the error is non-nil exactly when `Error` is not empty, exactly when
`ErrorType` is not empty; and it panics only with a negative row limit. -/
theorem executeInternal_reports (W : World) (hW : W.SpeaksUp) (cfg : Config)
    (tr : List Event) (db : Handle) (inTx : Bool) (query : String) :
    (∀ result err, (executeInternal W cfg tr db inTx query).1 = .returned result err →
      (err ≠ none ↔ result.Error ≠ "") ∧ (result.Error ≠ "" ↔ result.ErrorType ≠ "")) ∧
    (∀ reason, (executeInternal W cfg tr db inTx query).1 = .panicked reason →
      cfg.QueryMaxRows < 0) := by
  rcases executeInternal_cases W cfg tr db inTx query with
    ⟨e, hq, h⟩ | ⟨cur, e, hq, hs, h⟩ | ⟨cur, cols, rows, _, _, _, _, hrows, h⟩
  · rw [h]
    refine ⟨?_, fun reason hr => by cases hr⟩
    intro result err hr
    simp only [Outcome.returned.injEq] at hr
    obtain ⟨h1, h2⟩ := hr
    subst h1 h2
    have hm : (if e.deadline then ErrQueryTimeout else e).msg ≠ "" := by
      by_cases hd : e.deadline = true
      · simp only [hd, if_true]; decide
      · simp only [hd]; exact hW.2.1 tr db inTx query e hq
    have hk : (if e.deadline = true then "timeout" else "runtime") ≠ "" := by
      by_cases hd : e.deadline = true <;> simp [hd]
    exact ⟨⟨fun _ => hm, fun _ => by simp⟩, ⟨fun _ => hk, fun _ => hm⟩⟩
  · rw [h]
    refine ⟨?_, fun reason hr => by cases hr⟩
    intro result err hr
    simp only [Outcome.returned.injEq] at hr
    obtain ⟨h1, h2⟩ := hr
    subst h1 h2
    have hm : e.msg ≠ "" := by
      obtain ⟨_, _, hc⟩ := hW
      obtain ⟨c1, c2, c3⟩ := hc tr db inTx query cur hq
      rcases scanRows_error_source cur e hs with s1 | s2 | s3
      · exact c1 e s1
      · exact c2 e s2
      · exact c3 e s3
    exact ⟨⟨fun _ => hm, fun _ => by simp⟩,
      ⟨fun _ => by show ("runtime" : String) ≠ ""; decide, fun _ => hm⟩⟩
  · rw [h]
    by_cases hgt : (rows.length : Int) > cfg.QueryMaxRows
    · by_cases hneg : cfg.QueryMaxRows < 0
      · rw [if_pos hgt, if_pos hneg]
        exact ⟨fun result err hr => (by cases hr), fun _ _ => hneg⟩
      · rw [if_pos hgt, if_neg hneg]
        refine ⟨?_, fun reason hr => by cases hr⟩
        intro result err hr
        simp only [Outcome.returned.injEq] at hr
        obtain ⟨h1, h2⟩ := hr
        subst h1 h2
        simp
    · rw [if_neg hgt]
      refine ⟨?_, fun reason hr => by cases hr⟩
      intro result err hr
      simp only [Outcome.returned.injEq] at hr
      obtain ⟨h1, h2⟩ := hr
      subst h1 h2
      simp

theorem reports_of_error (e : GoError) (k : String) (he : e.msg ≠ "") (hk : k ≠ "")
    (result : QueryResult) (err : Option GoError)
    (h : Outcome.returned { Error := e.msg, ErrorType := k } (some e) =
      Outcome.returned result err) :
    (err ≠ none ↔ result.Error ≠ "") ∧ (result.Error ≠ "" ↔ result.ErrorType ≠ "") ∧
    (err = none → result.Error = "" ∧ result.ErrorType = "") := by
  simp only [Outcome.returned.injEq] at h
  obtain ⟨h1, h2⟩ := h
  subst h1 h2
  exact ⟨⟨fun _ => he, fun _ => by simp⟩, ⟨fun _ => hk, fun _ => he⟩, fun h => by cases h⟩

theorem reports_weaken (result : QueryResult) (err : Option GoError)
    (h : (err ≠ none ↔ result.Error ≠ "") ∧ (result.Error ≠ "" ↔ result.ErrorType ≠ "")) :
    (err ≠ none ↔ result.Error ≠ "") ∧ (result.Error ≠ "" ↔ result.ErrorType ≠ "") ∧
    (err = none → result.Error = "" ∧ result.ErrorType = "") := by
  refine ⟨h.1, h.2, fun hn => ?_⟩
  have h1 : result.Error = "" := by
    by_contra hc
    exact (h.1.mpr hc) hn
  have h2 : result.ErrorType = "" := by
    by_contra hc
    exact (h.2.mpr hc) h1
  exact ⟨h1, h2⟩

/-- C14 (counterexample). On a driver that fails the query with an error
whose message is empty, `ExecuteWithSetup` and `Execute` return a non-nil
error and a non-empty `ErrorType` together with an empty `Error`. -/
theorem silent_error_breaks_invariant :
    (ExecuteWithSetup asciiCaseTable mutedWorld pgRunner [] "postgresql" "" "SELECT 1").1 =
      .returned { ExecutionMs := 1, Error := "", ErrorType := "runtime" } (some ⟨"", false⟩) ∧
    (Execute asciiCaseTable mutedWorld pgRunner [] "postgresql" "SELECT 1").1 =
      .returned { ExecutionMs := 1, Error := "", ErrorType := "runtime" } (some ⟨"", false⟩) := by
  decide

/-- C14 (amended). On a driver none of whose errors has an empty message,
whenever `ExecuteWithSetup` or `Execute` returns, the returned error is
non-nil exactly when the result's `Error` is not empty, exactly when its
`ErrorType` is not empty, and on success (a nil error) both are empty. The
functions fail to return only by the panic of a negative row limit. -/
theorem executions_report_errors (table : Char → Char) (W : World) (hW : W.SpeaksUp)
    (r : runner) (tr : List Event) (dbType : DBType) (setupSQL query : String) :
    (∀ result err, (ExecuteWithSetup table W r tr dbType setupSQL query).1 =
        .returned result err →
      (err ≠ none ↔ result.Error ≠ "") ∧ (result.Error ≠ "" ↔ result.ErrorType ≠ "") ∧
      (err = none → result.Error = "" ∧ result.ErrorType = "")) ∧
    (∀ reason, (ExecuteWithSetup table W r tr dbType setupSQL query).1 = .panicked reason →
      r.cfg.QueryMaxRows < 0) ∧
    (∀ result err, (Execute table W r tr dbType query).1 = .returned result err →
      (err ≠ none ↔ result.Error ≠ "") ∧ (result.Error ≠ "" ↔ result.ErrorType ≠ "") ∧
      (err = none → result.Error = "" ∧ result.ErrorType = "")) ∧
    (∀ reason, (Execute table W r tr dbType query).1 = .panicked reason →
      r.cfg.QueryMaxRows < 0) := by
  have hcfg := (getConnection_post W r tr dbType).1
  have hcm := (getConnection_post W r tr dbType).2.2
  have hval : ∀ e, ValidateQuery table query = some e → e.msg ≠ "" := by
    intro e he
    rcases validateQuery_cases table query with h0 | h1
    · rw [h0] at he; cases he
    · rw [h1] at he
      simp only [Option.some.injEq] at he
      rw [← he]; decide
  have part1 : (∀ result err, (ExecuteWithSetup table W r tr dbType setupSQL query).1 =
        .returned result err →
      (err ≠ none ↔ result.Error ≠ "") ∧ (result.Error ≠ "" ↔ result.ErrorType ≠ "") ∧
      (err = none → result.Error = "" ∧ result.ErrorType = "")) ∧
    (∀ reason, (ExecuteWithSetup table W r tr dbType setupSQL query).1 = .panicked reason →
      r.cfg.QueryMaxRows < 0) := by
    rcases executeWithSetup_cases table W r tr dbType setupSQL query with
      ⟨e, hv, h⟩ | ⟨_, ⟨e, r1, tr1, hg, h⟩ | ⟨db, r1, tr1, hg, ⟨e, hb, h⟩ |
        ⟨_, ⟨e, stmt, tr3, _, h⟩ | ⟨tr3, _, h⟩⟩⟩⟩
    · rw [h]
      exact ⟨fun result err hr => reports_of_error e _ (hval e hv) (by decide) result err hr,
        fun _ hr => by cases hr⟩
    · rw [h]
      rw [hg] at hcm
      exact ⟨fun result err hr => reports_of_error e _ (hcm e rfl) (by decide) result err hr,
        fun _ hr => by cases hr⟩
    · rw [h]
      exact ⟨fun result err hr =>
          reports_of_error e _ (hW.1 tr1 db e hb) (by decide) result err hr,
        fun _ hr => by cases hr⟩
    · rw [h]
      refine ⟨?_, fun _ hr => by cases hr⟩
      intro result err hr
      simp only [Outcome.returned.injEq] at hr
      obtain ⟨h1, h2⟩ := hr
      subst h1 h2
      have hm : "setup error: " ++ e.msg ++ " (stmt: " ++ stmt ++ ")" ≠ "" := by
        rw [String.append_assoc, String.append_assoc, String.append_assoc]
        exact append_msg_ne_empty _ _ (by decide)
      exact ⟨⟨fun _ => hm, fun _ => by simp⟩,
        ⟨fun _ => by show ("setup" : String) ≠ ""; decide, fun _ => hm⟩,
        fun h => by cases h⟩
    · rw [h]
      rw [hg] at hcfg
      have hc : r1.cfg = r.cfg := hcfg
      obtain ⟨q1, q2⟩ := executeInternal_reports W hW r1.cfg tr3 db true query
      exact ⟨fun result err hr => reports_weaken result err (q1 result err hr),
        fun reason hr => by rw [← hc]; exact q2 reason hr⟩
  refine ⟨part1.1, part1.2, ?_⟩
  rcases execute_cases table W r tr dbType query with
    ⟨e, hv, h⟩ | ⟨_, ⟨e, r1, tr1, hg, h⟩ | ⟨db, r1, tr1, hg, h⟩⟩
  · rw [h]
    exact ⟨fun result err hr => reports_of_error e _ (hval e hv) (by decide) result err hr,
      fun _ hr => by cases hr⟩
  · rw [h]
    rw [hg] at hcm
    exact ⟨fun result err hr => reports_of_error e _ (hcm e rfl) (by decide) result err hr,
      fun _ hr => by cases hr⟩
  · rw [h]
    rw [hg] at hcfg
    have hc : r1.cfg = r.cfg := hcfg
    obtain ⟨q1, q2⟩ := executeInternal_reports W hW r1.cfg tr1 db false query
    exact ⟨fun result err hr => reports_weaken result err (q1 result err hr),
      fun reason hr => by rw [← hc]; exact q2 reason hr⟩

theorem s5World_speaksUp : s5World.SpeaksUp := by
  refine ⟨?_, ?_, ?_⟩
  · intro tr db e h
    cases h
  · intro tr db inTx q e h
    simp only [s5World] at h
    split at h
    · simp only [Except.error.injEq] at h
      rw [← h]; decide
    · cases h
  · intro tr db inTx q cur h
    simp only [s5World] at h
    split at h
    · cases h
    · simp only [Except.ok.injEq] at h
      subst h
      refine ⟨?_, ?_, ?_⟩
      · intro e he; cases he
      · intro e he; simp at he
      · intro e he; cases he

/-- C14 (amended), on scenario S4: the query outlives its deadline on a driver
whose errors have messages; the error is non-nil, and `Error` and `ErrorType`
are not empty. -/
theorem executions_report_errors_witness :
    s5World.SpeaksUp ∧
    (ExecuteWithSetup asciiCaseTable s5World pgRunner [] "postgresql" ""
        "SELECT pg_sleep(10)").1 =
      .returned
        { ExecutionMs := 2000, Error := "query execution timeout", ErrorType := "timeout" }
        (some ErrQueryTimeout) ∧
    ((some ErrQueryTimeout ≠ none ↔ "query execution timeout" ≠ "") ∧
      ("query execution timeout" ≠ "" ↔ "timeout" ≠ "") ∧
      (some ErrQueryTimeout = none → "query execution timeout" = "" ∧ "timeout" = "")) :=
  ⟨s5World_speaksUp, by decide,
    (executions_report_errors asciiCaseTable s5World s5World_speaksUp pgRunner []
      "postgresql" "" "SELECT pg_sleep(10)").1
      { ExecutionMs := 2000, Error := "query execution timeout", ErrorType := "timeout" }
      (some ErrQueryTimeout) (by decide)⟩

end SqlJudge

namespace SqlJudge

/-! ## The pieces of a setup script -/

theorem splitSemis_chars (l cur : List Char) :
    ∀ p ∈ splitSemis l cur, ∀ c ∈ p.data, (c ∈ cur ∨ c ∈ l) ∧ (c = ';' → c ∈ cur) := by
  induction l generalizing cur with
  | nil =>
    intro p hp c hc
    simp only [splitSemis, List.mem_singleton] at hp
    subst hp
    exact ⟨Or.inl hc, fun _ => hc⟩
  | cons x rest ih =>
    intro p hp c hc
    simp only [splitSemis] at hp
    by_cases hx : x = ';'
    · simp only [hx, if_true, List.mem_cons] at hp
      rcases hp with h | h
      · subst h
        exact ⟨Or.inl hc, fun _ => hc⟩
      · obtain ⟨h1, h2⟩ := ih [] p h c hc
        refine ⟨?_, ?_⟩
        · rcases h1 with h1 | h1
          · simp at h1
          · exact Or.inr (List.mem_cons_of_mem _ h1)
        · intro hsemi
          have := h2 hsemi
          simp at this
    · simp only [hx, if_false] at hp
      obtain ⟨h1, h2⟩ := ih (cur ++ [x]) p hp c hc
      refine ⟨?_, ?_⟩
      · rcases h1 with h1 | h1
        · rcases List.mem_append.mp h1 with h | h
          · exact Or.inl h
          · rw [List.mem_singleton.mp h]; exact Or.inr (List.mem_cons_self _ _)
        · exact Or.inr (List.mem_cons_of_mem _ h1)
      · intro hsemi
        rcases List.mem_append.mp (h2 hsemi) with h | h
        · exact h
        · rw [List.mem_singleton.mp h] at hsemi
          exact absurd hsemi hx

theorem trimSpace_data (s : String) :
    (TrimSpace s).data = List.rdropWhile isSpace (s.data.dropWhile isSpace) := rfl

theorem trimSpace_mem (s : String) (c : Char) (h : c ∈ (TrimSpace s).data) : c ∈ s.data := by
  rw [trimSpace_data] at h
  exact (List.dropWhile_sublist isSpace).subset
    ((List.rdropWhile_prefix isSpace _).subset h)

theorem trimSpace_head (s : String) (c : Char) (h : (TrimSpace s).data.head? = some c) :
    isSpace c = false := by
  rw [trimSpace_data] at h
  have hpre := List.rdropWhile_prefix isSpace (s.data.dropWhile isSpace)
  obtain ⟨t, ht⟩ := hpre
  have hd := List.head?_dropWhile_not isSpace s.data
  rw [← ht] at hd
  cases hr : List.rdropWhile isSpace (List.dropWhile isSpace s.data) with
  | nil => rw [hr] at h; cases h
  | cons a as =>
    rw [hr] at h hd
    simp only [List.head?_cons, Option.some.injEq] at h
    simp only [List.cons_append, List.head?_cons] at hd
    rw [← h]; exact hd

theorem trimSpace_last (s : String) (c : Char) (h : (TrimSpace s).data.getLast? = some c) :
    isSpace c = false := by
  rw [trimSpace_data] at h
  have hne : List.rdropWhile isSpace (s.data.dropWhile isSpace) ≠ [] := by
    intro hnil; rw [hnil] at h; cases h
  have hl := List.rdropWhile_last_not isSpace _ hne
  rw [List.getLast?_eq_getLast _ hne] at h
  simp only [Option.some.injEq] at h
  rw [← h]
  simpa using hl

theorem trimSpace_blank (s : String) (h : ∀ c ∈ s.data, isSpace c = true) :
    TrimSpace s = "" := by
  apply String.ext
  rw [trimSpace_data]
  have : s.data.dropWhile isSpace = [] := List.dropWhile_eq_nil_iff.mpr h
  rw [this]
  rfl

/-- The statements of a setup script: none is empty, none begins or ends
with white space, none holds a semicolon; and a script of white space and
semicolons only has no statement. -/
theorem setupStatements_clean (setupSQL : String) :
    (∀ stmt ∈ setupStatements setupSQL,
      stmt ≠ "" ∧ (∀ c, stmt.data.head? = some c → isSpace c = false) ∧
      (∀ c, stmt.data.getLast? = some c → isSpace c = false) ∧ ';' ∉ stmt.data) ∧
    ((∀ c ∈ setupSQL.data, isSpace c = true ∨ c = ';') → setupStatements setupSQL = []) := by
  constructor
  · intro stmt hs
    simp only [setupStatements, List.mem_filter, List.mem_map, decide_eq_true_eq] at hs
    obtain ⟨⟨p, hp, hps⟩, hne⟩ := hs
    subst hps
    refine ⟨hne, trimSpace_head p, trimSpace_last p, ?_⟩
    intro hsemi
    have := (splitSemis_chars setupSQL.data [] p hp ';' (trimSpace_mem p ';' hsemi)).2 rfl
    simp at this
  · intro hall
    simp only [setupStatements, List.filter_eq_nil_iff, List.mem_map, decide_eq_true_eq,
      forall_exists_index, and_imp]
    intro stmt p hp hps
    subst hps
    simp only [ne_eq, not_not]
    apply trimSpace_blank
    intro c hc
    obtain ⟨h1, h2⟩ := splitSemis_chars setupSQL.data [] p hp c hc
    rcases h1 with h1 | h1
    · simp at h1
    · rcases hall c h1 with h | h
      · exact h
      · have := h2 h
        simp at this

theorem executeInternal_trace (W : World) (cfg : Config) (tr : List Event) (db : Handle)
    (inTx : Bool) (query : String) :
    ∃ tail, (executeInternal W cfg tr db inTx query).2 =
        tr ++ [Event.query db inTx query] ++ tail ∧
      ∀ ev ∈ tail, ev = Event.rowsClose db := by
  rcases executeInternal_cases W cfg tr db inTx query with
    ⟨e, _, h⟩ | ⟨cur, e, _, _, h⟩ | ⟨cur, cols, rows, _, _, _, _, _, h⟩
  · exact ⟨[], by rw [h]; simp, by simp⟩
  · exact ⟨[Event.rowsClose db], by rw [h], by simp⟩
  · exact ⟨[Event.rowsClose db], by rw [h], by simp⟩

end SqlJudge

namespace SqlJudge

/-! ## The calls `ExecuteWithSetup` makes -/

/-- The setup loop when no statement fails, each statement succeeding on the
trace at which it is executed: every non-empty trimmed piece is executed, in
order. -/
theorem setupLoop_succeeds (W : World) (db : Handle) (pieces : List String) (tr : List Event)
    (hx : ∀ p1 x p2, (pieces.map TrimSpace).filter (fun s => s ≠ "") = p1 ++ x :: p2 →
      W.exec (tr ++ p1.map (Event.exec db)) db x = none) :
    setupLoop W db tr pieces =
      (none, tr ++ ((pieces.map TrimSpace).filter (fun s => s ≠ "")).map (Event.exec db)) := by
  induction pieces generalizing tr with
  | nil => simp [setupLoop]
  | cons piece rest ih =>
    by_cases he : TrimSpace piece = ""
    · simp only [setupLoop, he, if_true]
      have := ih tr (by simpa [he] using hx)
      simpa [he] using this
    · have h0 := hx [] (TrimSpace piece) ((rest.map TrimSpace).filter (fun s => s ≠ ""))
        (by simp [he])
      simp only [List.map_nil, List.append_nil] at h0
      simp only [setupLoop, he, if_false, h0]
      rw [ih (tr ++ [Event.exec db (TrimSpace piece)]) ?_]
      · simp [he]
      · intro p1 x p2 hp
        have := hx (TrimSpace piece :: p1) x p2 (by
          rw [List.map_cons, List.filter_cons_of_pos (by simpa using he), hp]
          rfl)
        simpa using this

/-- The calls of `ExecuteWithSetup` when no setup statement fails. -/
theorem executeWithSetup_succeeds_trace (table : Char → Char) (W : World) (r : runner)
    (tr : List Event) (dbType : DBType) (setupSQL query : String) (db : Handle)
    (r1 : runner) (tr1 : List Event)
    (hv : ValidateQuery table query = none)
    (hg : getConnection W r tr dbType = (.ok db, r1, tr1))
    (hb : W.beginTx tr1 db = none)
    (hx : ∀ p1 x p2, setupStatements setupSQL = p1 ++ x :: p2 →
      W.exec (tr1 ++ [Event.beginTx db] ++ p1.map (Event.exec db)) db x = none) :
    ∃ tail, (ExecuteWithSetup table W r tr dbType setupSQL query).2.2 =
        tr1 ++ ([Event.beginTx db] ++ (setupStatements setupSQL).map (Event.exec db) ++
          [Event.query db true query] ++ tail) ∧
      ∀ ev ∈ tail, ev = Event.rowsClose db ∨ ev = Event.rollback db := by
  have hloop := setupLoop_succeeds W db
    (if setupSQL ≠ "" then splitSemis setupSQL.data [] else [])
    (tr1 ++ [Event.beginTx db]) (by rw [setup_pieces]; exact hx)
  rw [setup_pieces] at hloop
  obtain ⟨tail, ht, htail⟩ := executeInternal_trace W r1.cfg
    (tr1 ++ [Event.beginTx db] ++ (setupStatements setupSQL).map (Event.exec db)) db true query
  refine ⟨tail ++ [Event.rollback db], ?_, ?_⟩
  · simp only [ExecuteWithSetup, hv, hg, hb, hloop]
    rw [ht]
    simp
  · intro ev hev
    rcases List.mem_append.mp hev with h | h
    · exact Or.inl (htail ev h)
    · exact Or.inr (List.mem_singleton.mp h)

/-- C15. When the query is admitted, the pool and the transaction are
obtained and no setup statement fails (each statement succeeds when it is
executed, after the statements before it), the calls `ExecuteWithSetup` makes
after `BeginTx` are: one `ExecContext` for each statement of the script, in
order (the script split on `;`, each piece trimmed, the empty pieces
dropped), then the user query, then only `rows.Close` and `Rollback`. No
executed statement is empty, begins or ends with white space, or holds a
semicolon, and a script of white space and semicolons executes nothing. -/
theorem setup_statements_in_order (table : Char → Char) (W : World) (r : runner)
    (tr : List Event) (dbType : DBType) (setupSQL query : String) (db : Handle)
    (r1 : runner) (tr1 : List Event)
    (hv : ValidateQuery table query = none)
    (hg : getConnection W r tr dbType = (.ok db, r1, tr1))
    (hb : W.beginTx tr1 db = none)
    (hx : ∀ p1 x p2, setupStatements setupSQL = p1 ++ x :: p2 →
      W.exec (tr1 ++ [Event.beginTx db] ++ p1.map (Event.exec db)) db x = none) :
    (∃ tail, (ExecuteWithSetup table W r tr dbType setupSQL query).2.2 =
        tr1 ++ [Event.beginTx db] ++ (setupStatements setupSQL).map (Event.exec db) ++
          [Event.query db true query] ++ tail ∧
      ∀ ev ∈ tail, ev = Event.rowsClose db ∨ ev = Event.rollback db) ∧
    (∃ conn, tr1 = tr ++ conn ∧ ∀ ev ∈ conn, ∀ h s, ev ≠ Event.exec h s) ∧
    (∀ stmt ∈ setupStatements setupSQL,
      stmt ≠ "" ∧ (∀ c, stmt.data.head? = some c → isSpace c = false) ∧
      (∀ c, stmt.data.getLast? = some c → isSpace c = false) ∧ ';' ∉ stmt.data) ∧
    ((∀ c ∈ setupSQL.data, isSpace c = true ∨ c = ';') →
      setupStatements setupSQL = [] ∧
      ∀ h s, Event.exec h s ∉
        ((ExecuteWithSetup table W r tr dbType setupSQL query).2.2).drop tr1.length) := by
  obtain ⟨tail, ht, htail⟩ :=
    executeWithSetup_succeeds_trace table W r tr dbType setupSQL query db r1 tr1 hv hg hb hx
  have htrace : (ExecuteWithSetup table W r tr dbType setupSQL query).2.2 =
      tr1 ++ [Event.beginTx db] ++ (setupStatements setupSQL).map (Event.exec db) ++
        [Event.query db true query] ++ tail := by
    rw [ht]
    simp
  have hclean := setupStatements_clean setupSQL
  refine ⟨⟨tail, htrace, htail⟩, ?_, hclean.1, ?_⟩
  · obtain ⟨added, ha, hadd⟩ := (getConnection_post W r tr dbType).2.1
    rw [hg] at ha
    refine ⟨added, ha, ?_⟩
    intro ev hev h s heq
    subst heq
    rcases hadd _ hev with ⟨_, h1⟩ | ⟨_, h1⟩ | ⟨_, _, h1⟩ <;> cases h1
  · intro hall
    have hnil := hclean.2 hall
    refine ⟨hnil, ?_⟩
    intro h s hmem
    rw [htrace, hnil] at hmem
    rw [List.map_nil, List.append_nil, List.append_assoc, List.append_assoc,
      List.drop_left] at hmem
    rcases List.mem_append.mp hmem with h1 | h1
    · simp at h1
    · rcases List.mem_append.mp h1 with h2 | h2
      · simp at h2
      · rcases htail _ h2 with h3 | h3 <;> cases h3

/-- C15, on scenario S1, on a database where the second statement of the
script succeeds only because the first was executed before it: the two
statements are executed in order between `BeginTx` and the user query. -/
theorem setup_statements_in_order_witness :
    s1World.exec [.ping 1, .beginTx 1] 1 "INSERT INTO t VALUES (1),(2),(3)" ≠ none ∧
    (ExecuteWithSetup asciiCaseTable s1World pgRunner [] "postgresql"
        "CREATE TABLE t(x INT); INSERT INTO t VALUES (1),(2),(3);"
        "SELECT x FROM t ORDER BY x").2.2 =
      [.ping 1, .beginTx 1, .exec 1 "CREATE TABLE t(x INT)",
        .exec 1 "INSERT INTO t VALUES (1),(2),(3)",
        .query 1 true "SELECT x FROM t ORDER BY x", .rowsClose 1, .rollback 1] ∧
    ∃ tail,
      (ExecuteWithSetup asciiCaseTable s1World pgRunner [] "postgresql"
        "CREATE TABLE t(x INT); INSERT INTO t VALUES (1),(2),(3);"
        "SELECT x FROM t ORDER BY x").2.2 =
        [.ping 1] ++ [Event.beginTx 1] ++
          (setupStatements "CREATE TABLE t(x INT); INSERT INTO t VALUES (1),(2),(3);").map
            (Event.exec 1) ++
          [Event.query 1 true "SELECT x FROM t ORDER BY x"] ++ tail ∧
      ∀ ev ∈ tail, ev = Event.rowsClose 1 ∨ ev = Event.rollback 1 :=
  ⟨by decide, by decide,
    (setup_statements_in_order asciiCaseTable s1World pgRunner [] "postgresql"
      "CREATE TABLE t(x INT); INSERT INTO t VALUES (1),(2),(3);" "SELECT x FROM t ORDER BY x"
      1 pgRunner [.ping 1] (by decide) rfl rfl (by
        intro p1 x p2 h
        have hs : setupStatements "CREATE TABLE t(x INT); INSERT INTO t VALUES (1),(2),(3);" =
            ["CREATE TABLE t(x INT)", "INSERT INTO t VALUES (1),(2),(3)"] := by decide
        rw [hs] at h
        rcases p1 with _ | ⟨y, _ | ⟨z, p1⟩⟩
        · simp only [List.nil_append, List.cons.injEq] at h
          rw [← h.1]
          decide
        · simp only [List.cons_append, List.nil_append, List.cons.injEq] at h
          rw [← h.1, ← h.2.1]
          decide
        · simp at h)).1⟩

/-- C16. When the first setup statement to fail is `s`, after the statements
`pre`, `ExecuteWithSetup` returns `ErrorType = "setup"` and an `Error` that
holds the text of `s`; the calls it makes after `BeginTx` are the statements
of `pre`, then `s`, then `Rollback`: no later statement is executed and the
user query is not issued. -/
theorem setup_failure_aborts (table : Char → Char) (W : World) (r : runner)
    (tr : List Event) (dbType : DBType) (setupSQL query : String) (db : Handle)
    (r1 : runner) (tr1 : List Event) (pre : List String) (s : String) (post : List String)
    (err : GoError)
    (hv : ValidateQuery table query = none)
    (hg : getConnection W r tr dbType = (.ok db, r1, tr1))
    (hb : W.beginTx tr1 db = none)
    (hs : setupStatements setupSQL = pre ++ s :: post)
    (hpre : ∀ p1 x p2, pre = p1 ++ x :: p2 →
      W.exec (tr1 ++ [Event.beginTx db] ++ p1.map (Event.exec db)) db x = none)
    (hfail : W.exec (tr1 ++ [Event.beginTx db] ++ pre.map (Event.exec db)) db s = some err) :
    ExecuteWithSetup table W r tr dbType setupSQL query =
      (.returned
        { Error := "setup error: " ++ err.msg ++ " (stmt: " ++ s ++ ")", ErrorType := "setup" }
        (some err), r1,
        tr1 ++ [Event.beginTx db] ++ pre.map (Event.exec db) ++
          [Event.exec db s, Event.rollback db]) ∧
    (∀ h b q, Event.query h b q ∉
      pre.map (Event.exec db) ++ [Event.exec db s, Event.rollback db]) ∧
    (∀ stmt ∈ post, stmt ∉ pre → stmt ≠ s → ∀ h, Event.exec h stmt ∉
      pre.map (Event.exec db) ++ [Event.exec db s, Event.rollback db]) := by
  have hloop := setupLoop_fails W db
    (if setupSQL ≠ "" then splitSemis setupSQL.data [] else [])
    (tr1 ++ [Event.beginTx db]) pre s post err (by rw [setup_pieces]; exact hs) hpre hfail
  refine ⟨?_, ?_, ?_⟩
  · simp only [ExecuteWithSetup, hv, hg, hb, hloop]
    simp
  · intro h b q hmem
    simp only [List.mem_append, List.mem_map, List.mem_cons, List.mem_singleton,
      List.not_mem_nil, or_false] at hmem
    rcases hmem with ⟨_, _, h1⟩ | h1 | h1 <;> cases h1
  · intro stmt _ hnp hns h hmem
    simp only [List.mem_append, List.mem_map, List.mem_cons, List.mem_singleton,
      List.not_mem_nil, or_false] at hmem
    rcases hmem with ⟨x, hx, h1⟩ | h1 | h1
    · simp only [Event.exec.injEq] at h1
      rw [← h1.2] at hnp
      exact hnp hx
    · simp only [Event.exec.injEq] at h1
      exact hns h1.2
    · cases h1

/-- C16, on scenario S5: the script `CREATE TABLE t(x INT); BOGUS STMT;
INSERT INTO t VALUES (1);` with the user query `SELECT 1`. -/
theorem setup_failure_aborts_witness :
    ExecuteWithSetup asciiCaseTable s5World pgRunner [] "postgresql"
        "CREATE TABLE t(x INT); BOGUS STMT; INSERT INTO t VALUES (1);" "SELECT 1" =
      (.returned
        { Error := "setup error: pq: syntax error at or near BOGUS (stmt: BOGUS STMT)"
          ErrorType := "setup" }
        (some ⟨"pq: syntax error at or near BOGUS", false⟩), pgRunner,
        [.ping 1, .beginTx 1, .exec 1 "CREATE TABLE t(x INT)", .exec 1 "BOGUS STMT",
          .rollback 1]) :=
  (setup_failure_aborts asciiCaseTable s5World pgRunner [] "postgresql"
    "CREATE TABLE t(x INT); BOGUS STMT; INSERT INTO t VALUES (1);" "SELECT 1" 1 pgRunner
    [.ping 1] ["CREATE TABLE t(x INT)"] "BOGUS STMT" ["INSERT INTO t VALUES (1)"]
    ⟨"pq: syntax error at or near BOGUS", false⟩ (by decide) rfl rfl (by decide)
    (fun p1 x p2 h => by
      cases p1 with
      | nil =>
        simp only [List.nil_append, List.cons.injEq] at h
        rw [← h.1]; decide
      | cons a as =>
        simp only [List.cons_append, List.cons.injEq] at h
        have := h.2
        simp at this)
    (by decide)).1

end SqlJudge

namespace SqlJudge

/-! ## Classification of failures, rollback, and the scoring adapters -/

/-- How `executeInternal` classifies a failure. A failure reported when the
query is issued is `timeout` when it is the deadline, with the message of
`ErrQueryTimeout`, and `runtime` with the driver's message otherwise. A
failure reported while the rows are scanned is `runtime` with the driver's
message, whether or not it is the deadline. -/
theorem executeInternal_failure_kind (W : World) (cfg : Config) (tr : List Event)
    (db : Handle) (inTx : Bool) (query : String) :
    (∀ e, W.query tr db inTx query = .error e →
      ∃ result err, (executeInternal W cfg tr db inTx query).1 = .returned result err ∧
        (e.deadline = true → result.ErrorType = "timeout" ∧
          result.Error = "query execution timeout") ∧
        (e.deadline = false → result.ErrorType = "runtime" ∧ result.Error = e.msg)) ∧
    (∀ cur e, W.query tr db inTx query = .ok cur → (scanRows cur).2 = some e →
      ∃ result, (executeInternal W cfg tr db inTx query).1 = .returned result (some e) ∧
        result.ErrorType = "runtime" ∧ result.Error = e.msg) := by
  constructor
  · intro e hq
    have h : (executeInternal W cfg tr db inTx query).1 =
        .returned
          { ExecutionMs := W.elapsedMs (tr ++ [.query db inTx query])
            Error := (if e.deadline then ErrQueryTimeout else e).msg
            ErrorType := if e.deadline then "timeout" else "runtime" }
          (some (if e.deadline then ErrQueryTimeout else e)) := by
      simp only [executeInternal, hq]
    refine ⟨_, _, h, ?_, ?_⟩
    · intro hd; simp [hd, ErrQueryTimeout]
    · intro hd; simp [hd]
  · intro cur e hq hs
    rcases executeInternal_cases W cfg tr db inTx query with
      ⟨e', hq', _⟩ | ⟨cur', e', hq', hs', h⟩ | ⟨cur', cols, rows, hq', hc, hl, he, _, _⟩
    · rw [hq] at hq'; cases hq'
    · rw [hq] at hq'
      simp only [Except.ok.injEq] at hq'
      subst hq'
      rw [hs] at hs'
      simp only [Option.some.injEq] at hs'
      subst hs'
      exact ⟨_, by rw [h], rfl, rfl⟩
    · rw [hq] at hq'
      simp only [Except.ok.injEq] at hq'
      subst hq'
      exfalso
      simp [scanRows, hc, hl, he] at hs

/-- C17 (the code at the failing input). A cursor that delivers one row and
then reports the expiry of the deadline through `rows.Err()`: the result has
`ErrorType = "runtime"`, not `timeout`; the same expiry reported when the
query is issued gives `timeout`. -/
theorem scan_deadline_classified_runtime :
    (executeInternal slowScanWorld pgRunner.cfg [] 1 true "SELECT x FROM t").1 =
      .returned
        { ExecutionMs := 3000, Error := "context deadline exceeded", ErrorType := "runtime" }
        (some ⟨"context deadline exceeded", true⟩) ∧
    (executeInternal s5World pgRunner.cfg [] 1 true "SELECT pg_sleep(10)").1 =
      .returned
        { ExecutionMs := 2000, Error := "query execution timeout", ErrorType := "timeout" }
        (some ErrQueryTimeout) := by
  decide

/-- C18. The calls `ExecuteWithSetup` adds to the trace never include a
`Commit`; and when the query is admitted, the pool is obtained and `BeginTx`
succeeds, the last call added is the `Rollback` of that transaction, after
its `BeginTx`, on every path (setup failure, query failure, scan failure,
success, panic). -/
theorem no_commit_always_rollback (table : Char → Char) (W : World) (r : runner)
    (tr : List Event) (dbType : DBType) (setupSQL query : String) :
    ∃ added, (ExecuteWithSetup table W r tr dbType setupSQL query).2.2 = tr ++ added ∧
      (∀ h, Event.commit h ∉ added) ∧
      (∀ db r1 tr1, ValidateQuery table query = none →
        getConnection W r tr dbType = (.ok db, r1, tr1) → W.beginTx tr1 db = none →
        ∃ conn mid, tr1 = tr ++ conn ∧
          added = conn ++ [Event.beginTx db] ++ mid ++ [Event.rollback db] ∧
          (∀ ev ∈ mid, (∃ s, ev = Event.exec db s) ∨ ev = Event.query db true query ∨
            ev = Event.rowsClose db)) := by
  obtain ⟨conn, hconn, hcev⟩ := (getConnection_post W r tr dbType).2.1
  have hcc : ∀ h, Event.commit h ∉ conn := by
    intro h hm
    rcases hcev _ hm with ⟨_, h1⟩ | ⟨_, h1⟩ | ⟨_, _, h1⟩ <;> cases h1
  rcases executeWithSetup_cases table W r tr dbType setupSQL query with
    ⟨e, hv, h⟩ | ⟨hv, ⟨e, r1, tr1, hg, h⟩ | ⟨db, r1, tr1, hg, ⟨e, hb, h⟩ |
      ⟨hb, ⟨e, stmt, tr3, hl, h⟩ | ⟨tr3, hl, h⟩⟩⟩⟩
  · refine ⟨[], by rw [h]; simp, by simp, ?_⟩
    intro db r1 tr1 hv'
    rw [hv] at hv'; cases hv'
  · rw [hg] at hconn
    replace hconn : tr1 = tr ++ conn := hconn
    refine ⟨conn, by rw [h]; exact hconn, hcc, ?_⟩
    intro db r1' tr1' _ hg'
    rw [hg] at hg'; cases hg'
  · rw [hg] at hconn
    replace hconn : tr1 = tr ++ conn := hconn
    refine ⟨conn ++ [Event.beginTx db], by rw [h]; simp [hconn], ?_, ?_⟩
    · intro h' hm
      rcases List.mem_append.mp hm with h1 | h1
      · exact hcc h' h1
      · simp at h1
    · intro db' r1' tr1' _ hg' hb'
      rw [hg] at hg'
      simp only [Prod.mk.injEq, Except.ok.injEq] at hg'
      obtain ⟨h1, _, h3⟩ := hg'
      subst h1 h3
      rw [hb] at hb'; cases hb'
  · rw [hg] at hconn
    replace hconn : tr1 = tr ++ conn := hconn
    obtain ⟨ex, hex, hexev⟩ := setupLoop_trace W db
      (if setupSQL ≠ "" then splitSemis setupSQL.data [] else []) (tr1 ++ [Event.beginTx db])
    rw [hl] at hex
    simp only at hex
    refine ⟨conn ++ [Event.beginTx db] ++ ex ++ [Event.rollback db],
      by rw [h, hex, hconn]; simp, ?_, ?_⟩
    · intro h' hm
      simp only [List.mem_append, List.mem_singleton] at hm
      rcases hm with ((h1 | h1) | h1) | h1
      · exact hcc h' h1
      · cases h1
      · obtain ⟨_, h2⟩ := hexev _ h1; cases h2
      · cases h1
    · intro db' r1' tr1' _ hg' _
      rw [hg] at hg'
      simp only [Prod.mk.injEq, Except.ok.injEq] at hg'
      obtain ⟨h1, _, h3⟩ := hg'
      subst h1 h3
      exact ⟨conn, ex, hconn, rfl, fun ev hev => Or.inl (hexev ev hev)⟩
  · rw [hg] at hconn
    replace hconn : tr1 = tr ++ conn := hconn
    obtain ⟨ex, hex, hexev⟩ := setupLoop_trace W db
      (if setupSQL ≠ "" then splitSemis setupSQL.data [] else []) (tr1 ++ [Event.beginTx db])
    rw [hl] at hex
    simp only at hex
    obtain ⟨tail, ht, htail⟩ := executeInternal_trace W r1.cfg tr3 db true query
    refine ⟨conn ++ [Event.beginTx db] ++ (ex ++ [Event.query db true query] ++ tail) ++
      [Event.rollback db], by rw [h, ht, hex, hconn]; simp, ?_, ?_⟩
    · intro h' hm
      simp only [List.mem_append, List.mem_singleton] at hm
      rcases hm with ((h1 | h1) | ((h1 | h1) | h1)) | h1
      · exact hcc h' h1
      · cases h1
      · obtain ⟨_, h2⟩ := hexev _ h1; cases h2
      · cases h1
      · have := htail _ h1; cases this
      · cases h1
    · intro db' r1' tr1' _ hg' _
      rw [hg] at hg'
      simp only [Prod.mk.injEq, Except.ok.injEq] at hg'
      obtain ⟨h1, _, h3⟩ := hg'
      subst h1 h3
      refine ⟨conn, ex ++ [Event.query db true query] ++ tail, hconn, rfl, ?_⟩
      intro ev hev
      simp only [List.mem_append, List.mem_singleton] at hev
      rcases hev with (h1 | h1) | h1
      · exact Or.inl (hexev ev h1)
      · exact Or.inr (Or.inl h1)
      · exact Or.inr (Or.inr (htail ev h1))

end SqlJudge

namespace SqlJudge

/-- The error kind of every result `executeInternal` returns is empty,
`timeout` or `runtime`. -/
theorem executeInternal_kind (W : World) (cfg : Config) (tr : List Event) (db : Handle)
    (inTx : Bool) (query : String) (result : QueryResult) (err : Option GoError)
    (h : (executeInternal W cfg tr db inTx query).1 = .returned result err) :
    result.ErrorType ∈ ["", "timeout", "runtime"] := by
  rcases executeInternal_cases W cfg tr db inTx query with
    ⟨e, _, h'⟩ | ⟨cur, e, _, _, h'⟩ | ⟨cur, cols, rows, _, _, _, _, _, h'⟩
  · rw [h'] at h
    simp only [Outcome.returned.injEq] at h
    rw [← h.1]
    by_cases hd : e.deadline = true <;> simp [hd]
  · rw [h'] at h
    simp only [Outcome.returned.injEq] at h
    rw [← h.1]
    simp
  · rw [h'] at h
    by_cases hgt : (rows.length : Int) > cfg.QueryMaxRows
    · by_cases hneg : cfg.QueryMaxRows < 0
      · rw [if_pos hgt, if_pos hneg] at h; cases h
      · rw [if_pos hgt, if_neg hneg] at h
        simp only [Outcome.returned.injEq] at h
        rw [← h.1]; simp
    · rw [if_neg hgt] at h
      simp only [Outcome.returned.injEq] at h
      rw [← h.1]; simp

/-- The error kind of every result `ExecuteWithSetup` returns is one of the
kinds of the data model. -/
theorem executeWithSetup_kind (table : Char → Char) (W : World) (r : runner)
    (tr : List Event) (dbType : DBType) (setupSQL query : String) (result : QueryResult)
    (err : Option GoError)
    (h : (ExecuteWithSetup table W r tr dbType setupSQL query).1 = .returned result err) :
    result.ErrorType ∈ errorKinds := by
  rcases executeWithSetup_cases table W r tr dbType setupSQL query with
    ⟨e, _, h'⟩ | ⟨_, ⟨e, r1, tr1, _, h'⟩ | ⟨db, r1, tr1, _, ⟨e, _, h'⟩ |
      ⟨_, ⟨e, stmt, tr3, _, h'⟩ | ⟨tr3, _, h'⟩⟩⟩⟩
  · rw [h'] at h
    simp only [Outcome.returned.injEq] at h
    rw [← h.1]; simp [errorKinds]
  · rw [h'] at h
    simp only [Outcome.returned.injEq] at h
    rw [← h.1]; simp [errorKinds]
  · rw [h'] at h
    simp only [Outcome.returned.injEq] at h
    rw [← h.1]; simp [errorKinds]
  · rw [h'] at h
    simp only [Outcome.returned.injEq] at h
    rw [← h.1]; simp [errorKinds]
  · rw [h'] at h
    have := executeInternal_kind W r1.cfg tr3 db true query result err h
    simp only [List.mem_cons, List.mem_singleton, List.not_mem_nil, or_false] at this
    rcases this with h1 | h1 | h1 <;> rw [h1] <;> decide

/-- C19. In per-problem Submit, for a result of the user query whose `Error`
is not empty exactly when its `ErrorType` is not empty, the `ErrorType` being
one of the kinds of the data model, and for every verdict, the status is the
one the Scoring Adapter rule gives: `timeout` for the kind timeout, else
`error` for the kinds runtime, syntax, setup, connection and validation, else
`accepted` for a correct verdict, else `wrong_answer`. The status is always
one of these four values. -/
theorem submit_status_rule (actualResult : QueryResult) (compareResult : CompareResult)
    (hiff : actualResult.Error ≠ "" ↔ actualResult.ErrorType ≠ "")
    (hkind : actualResult.ErrorType ∈ errorKinds) :
    submitStatus actualResult compareResult =
      specStatus actualResult.ErrorType compareResult.IsCorrect ∧
    (actualResult.ErrorType = "timeout" → submitStatus actualResult compareResult = "timeout") ∧
    (actualResult.ErrorType ∈ ["runtime", "syntax", "setup", "connection", "validation"] →
      submitStatus actualResult compareResult = "error") ∧
    (actualResult.ErrorType = "" → compareResult.IsCorrect = true →
      submitStatus actualResult compareResult = "accepted") ∧
    (actualResult.ErrorType = "" → compareResult.IsCorrect = false →
      submitStatus actualResult compareResult = "wrong_answer") ∧
    submitStatus actualResult compareResult ∈
      ["timeout", "error", "accepted", "wrong_answer"] := by
  have key : submitStatus actualResult compareResult =
      specStatus actualResult.ErrorType compareResult.IsCorrect := by
    simp only [errorKinds, List.mem_cons, List.mem_singleton, List.not_mem_nil, or_false]
      at hkind
    by_cases he : actualResult.ErrorType = ""
    · have hE : actualResult.Error = "" := by
        by_contra hc
        exact (hiff.mp hc) he
      cases hc : compareResult.IsCorrect <;> simp [submitStatus, specStatus, he, hE, hc]
    · have hE : actualResult.Error ≠ "" := hiff.mpr he
      rcases hkind with h | h | h | h | h | h | h
      · exact absurd h he
      all_goals simp [submitStatus, specStatus, h, hE]
  refine ⟨key, ?_, ?_, ?_, ?_, ?_⟩
  · intro h; rw [key, h]; simp [specStatus]
  · intro h
    rw [key]
    simp only [List.mem_cons, List.mem_singleton, List.not_mem_nil, or_false] at h
    rcases h with h | h | h | h | h <;> rw [h] <;> simp [specStatus]
  · intro h hc; rw [key, h, hc]; simp [specStatus]
  · intro h hc; rw [key, h, hc]; simp [specStatus]
  · simp only [submitStatus]
    split
    · split <;> simp
    · split <;> simp

/-- C19, on scenario S4: the result of a query that outlived its deadline,
compared with the reference of scenario S1, gets the status `timeout`. -/
theorem submit_status_rule_witness :
    submitStatus timeoutActual (Compare smallSliceSort s1Expected timeoutActual false) =
      "timeout" :=
  (submit_status_rule timeoutActual (Compare smallSliceSort s1Expected timeoutActual false)
    (by decide) (by decide)).2.1 rfl

/-- What `SubmitAnswer` of the exam does: the status is `accepted` for a
correct verdict, else `error` when the result has an error (whatever its
kind), else `wrong_answer`; the score is the points of the problem exactly
when the status is `accepted`, and 0 otherwise. -/
theorem exam_status_and_score (actualResult : QueryResult) (compareResult : CompareResult)
    (maxScore : Int) :
    (compareResult.IsCorrect = true → examStatus actualResult compareResult = "accepted") ∧
    (compareResult.IsCorrect = false → actualResult.Error ≠ "" →
      examStatus actualResult compareResult = "error") ∧
    (compareResult.IsCorrect = false → actualResult.Error = "" →
      examStatus actualResult compareResult = "wrong_answer") ∧
    (examStatus actualResult compareResult = "accepted" →
      examScore maxScore compareResult = maxScore) ∧
    (examStatus actualResult compareResult ≠ "accepted" →
      examScore maxScore compareResult = 0) ∧
    examStatus actualResult compareResult ≠ "timeout" := by
  cases hc : compareResult.IsCorrect <;> by_cases he : actualResult.Error = "" <;>
    simp [examStatus, examScore, hc, he]

/-- C20 (the code at the failing input). A user query that outlived its
deadline (`ErrorType = "timeout"`), judged against the reference of scenario
S1: `SubmitAnswer` of the exam stores the status `error`, where the Scoring
Adapter rule and per-problem Submit give `timeout`; the score is 0. -/
theorem exam_timeout_stored_as_error :
    timeoutActual.ErrorType = "timeout" ∧
    examStatus timeoutActual (Compare smallSliceSort s1Expected timeoutActual false) =
      "error" ∧
    specStatus timeoutActual.ErrorType
      (Compare smallSliceSort s1Expected timeoutActual false).IsCorrect = "timeout" ∧
    submitStatus timeoutActual (Compare smallSliceSort s1Expected timeoutActual false) =
      "timeout" ∧
    examScore 10 (Compare smallSliceSort s1Expected timeoutActual false) = 0 := by
  decide

end SqlJudge

namespace SqlJudge

/-- C18, on scenario S5: `BeginTx` succeeds and a setup statement fails; the
calls added hold no `Commit` and end with the `Rollback` of the transaction. -/
theorem no_commit_always_rollback_witness :
    (ExecuteWithSetup asciiCaseTable s5World pgRunner [] "postgresql"
        "CREATE TABLE t(x INT); BOGUS STMT; INSERT INTO t VALUES (1);" "SELECT 1").2.2 =
      [.ping 1, .beginTx 1, .exec 1 "CREATE TABLE t(x INT)", .exec 1 "BOGUS STMT",
        .rollback 1] ∧
    ∃ added,
      (ExecuteWithSetup asciiCaseTable s5World pgRunner [] "postgresql"
        "CREATE TABLE t(x INT); BOGUS STMT; INSERT INTO t VALUES (1);" "SELECT 1").2.2 =
        [] ++ added ∧
      (∀ h, Event.commit h ∉ added) ∧
      ∃ conn mid, [Event.ping 1] = [] ++ conn ∧
        added = conn ++ [Event.beginTx 1] ++ mid ++ [Event.rollback 1] :=
  ⟨by decide,
    (no_commit_always_rollback asciiCaseTable s5World pgRunner [] "postgresql"
      "CREATE TABLE t(x INT); BOGUS STMT; INSERT INTO t VALUES (1);" "SELECT 1").imp
      (fun _ h => ⟨h.1, h.2.1,
        (h.2.2 1 pgRunner [.ping 1] (by decide) rfl rfl).imp
          (fun _ h2 => h2.imp (fun _ h3 => ⟨h3.1, h3.2.1⟩))⟩)⟩

end SqlJudge

namespace SqlJudge

/-! ## The attempt limit of the exam adapter -/

theorem int32_int64_small (x : Int) (h0 : 0 ≤ x) (h1 : x < 2147483648) :
    int32 (int64 x) = x := by
  unfold int32 int64
  omega

theorem submitAnswer_at_limit (table : Char → Char) (S : SliceSort) (W : World) (repo : Repos)
    (r : runner) (tr : List Event) (userID examID : Int) (req : ExamSubmitRequest)
    (exam : Exam) (participant : ExamParticipant) (examProblem : ListExamProblemsRow)
    (hexam : repo.GetByID examID = .ok exam)
    (hpart : repo.GetParticipant examID userID = .ok participant)
    (hstat : ptrToStr participant.Status = "in_progress")
    (hprob : (repo.ListProblems examID).1.find?
      (fun p => decide (p.ProblemID = req.ProblemID)) = some examProblem)
    (hle : ptrToInt32 exam.MaxAttempts ≤
      (repo.CountExamSubmissions examID examProblem.ID userID).1) :
    SubmitAnswer table S W repo r tr userID examID req =
      (.failed ErrMaxAttemptsReached, [], r, tr) := by
  simp only [SubmitAnswer, hexam, hpart, hstat, hprob, ne_eq, not_true_eq_false, if_false]
  rw [if_pos hle]

theorem submitAnswer_created (table : Char → Char) (S : SliceSort) (W : World) (repo : Repos)
    (r : runner) (tr : List Event) (userID examID : Int) (req : ExamSubmitRequest)
    (exam : Exam) (participant : ExamParticipant) (examProblem : ListExamProblemsRow)
    (hexam : repo.GetByID examID = .ok exam)
    (hpart : repo.GetParticipant examID userID = .ok participant)
    (hstat : ptrToStr participant.Status = "in_progress")
    (hprob : (repo.ListProblems examID).1.find?
      (fun p => decide (p.ProblemID = req.ProblemID)) = some examProblem)
    (hlt : (repo.CountExamSubmissions examID examProblem.ID userID).1 <
      ptrToInt32 exam.MaxAttempts) :
    ∀ p ∈ (SubmitAnswer table S W repo r tr userID examID req).2.1,
      p.AttemptNumber =
        int32 (int64 ((repo.CountExamSubmissions examID examProblem.ID userID).1 + 1)) := by
  intro p hp
  simp only [SubmitAnswer, hexam, hpart, hstat, hprob, ne_eq, not_true_eq_false, if_false] at hp
  rw [if_neg (not_le.mpr hlt)] at hp
  cases hpb : repo.problemGetByID req.ProblemID with
  | error e => rw [hpb] at hp; cases hp
  | ok problem =>
    rw [hpb] at hp
    rcases hE1 : Execute table W r tr req.DatabaseType problem.SolutionQuery with ⟨out1, r1, tr1⟩
    simp only [hE1] at hp
    cases out1 with
    | panicked reason => cases hp
    | returned res err =>
      cases err with
      | some e => cases hp
      | none =>
        rcases hE2 : Execute table W r1 tr1 req.DatabaseType req.Code with ⟨out2, r2, tr2⟩
        simp only [hE2] at hp
        cases out2 with
        | panicked reason => cases hp
        | returned res2 err2 =>
          simp only [List.mem_singleton] at hp
          rw [hp]

theorem submitAnswer_proceeds (table : Char → Char) (S : SliceSort) (W : World) (repo : Repos)
    (r : runner) (tr : List Event) (userID examID : Int) (req : ExamSubmitRequest)
    (exam : Exam) (participant : ExamParticipant) (examProblem : ListExamProblemsRow)
    (problem : Problem) (expectedResult actualResult : QueryResult) (err : Option GoError)
    (r1 r2 : runner) (tr1 tr2 : List Event)
    (hexam : repo.GetByID examID = .ok exam)
    (hpart : repo.GetParticipant examID userID = .ok participant)
    (hstat : ptrToStr participant.Status = "in_progress")
    (hprob : (repo.ListProblems examID).1.find?
      (fun p => decide (p.ProblemID = req.ProblemID)) = some examProblem)
    (hlt : (repo.CountExamSubmissions examID examProblem.ID userID).1 <
      ptrToInt32 exam.MaxAttempts)
    (hpb : repo.problemGetByID req.ProblemID = .ok problem)
    (hE1 : Execute table W r tr req.DatabaseType problem.SolutionQuery =
      (.returned expectedResult none, r1, tr1))
    (hE2 : Execute table W r1 tr1 req.DatabaseType req.Code =
      (.returned actualResult err, r2, tr2)) :
    ∃ resp p, SubmitAnswer table S W repo r tr userID examID req = (.ok resp, [p], r2, tr2) ∧
      resp.AttemptNumber = p.AttemptNumber ∧
      resp.MaxAttempts = ptrToInt32 exam.MaxAttempts ∧
      resp.IsCorrect = p.IsCorrect ∧
      p.Status = examStatus actualResult
        (Compare S expectedResult actualResult (ptrToBool problem.OrderMatters)) := by
  simp only [SubmitAnswer, hexam, hpart, hstat, hprob, ne_eq, not_true_eq_false, if_false]
  rw [if_neg (not_le.mpr hlt)]
  simp only [hpb, hE1, hE2]
  exact ⟨_, _, rfl, rfl, rfl, rfl, rfl⟩

/-- C21. In `SubmitAnswer`, for an in-progress participant and a problem of
the exam, with `count` the attempt count the repository answers (a count, so
not negative) and `m` the exam's `max_attempts` (an `int32`): when
`count >= m` the call fails with `ErrMaxAttemptsReached`, the runner and the
database untouched and no submission created; when `count < m` every
submission created has `attempt_number = count + 1`, which is at most `m`,
and once the problem is found and the reference query has run without error,
one submission is created and the response carries the same attempt number
and `m`. -/
theorem exam_attempt_limit (table : Char → Char) (S : SliceSort) (W : World) (repo : Repos)
    (r : runner) (tr : List Event) (userID examID : Int) (req : ExamSubmitRequest)
    (exam : Exam) (participant : ExamParticipant) (examProblem : ListExamProblemsRow)
    (count m : Int)
    (hexam : repo.GetByID examID = .ok exam)
    (hpart : repo.GetParticipant examID userID = .ok participant)
    (hstat : ptrToStr participant.Status = "in_progress")
    (hprob : (repo.ListProblems examID).1.find?
      (fun p => decide (p.ProblemID = req.ProblemID)) = some examProblem)
    (hcount : (repo.CountExamSubmissions examID examProblem.ID userID).1 = count)
    (hnonneg : 0 ≤ count)
    (hmax : ptrToInt32 exam.MaxAttempts = m)
    (hm : m < 2147483648) :
    (m ≤ count →
      SubmitAnswer table S W repo r tr userID examID req =
        (.failed ErrMaxAttemptsReached, [], r, tr)) ∧
    (count < m →
      (∀ p ∈ (SubmitAnswer table S W repo r tr userID examID req).2.1,
        p.AttemptNumber = count + 1 ∧ p.AttemptNumber ≤ m) ∧
      (∀ (problem : Problem) (expectedResult actualResult : QueryResult)
        (err : Option GoError) (r1 r2 : runner) (tr1 tr2 : List Event),
        repo.problemGetByID req.ProblemID = .ok problem →
        Execute table W r tr req.DatabaseType problem.SolutionQuery =
          (.returned expectedResult none, r1, tr1) →
        Execute table W r1 tr1 req.DatabaseType req.Code =
          (.returned actualResult err, r2, tr2) →
        ∃ resp p,
          SubmitAnswer table S W repo r tr userID examID req = (.ok resp, [p], r2, tr2) ∧
          p.AttemptNumber = count + 1 ∧ resp.AttemptNumber = count + 1 ∧
          resp.MaxAttempts = m)) := by
  constructor
  · intro hle
    exact submitAnswer_at_limit table S W repo r tr userID examID req exam participant
      examProblem hexam hpart hstat hprob (by rw [hcount, hmax]; exact hle)
  · intro hlt
    have hlt2 : (repo.CountExamSubmissions examID examProblem.ID userID).1 <
        ptrToInt32 exam.MaxAttempts := by rw [hcount, hmax]; exact hlt
    have hnum : int32 (int64 ((repo.CountExamSubmissions examID examProblem.ID userID).1 + 1)) =
        count + 1 := by
      rw [hcount]
      exact int32_int64_small (count + 1) (by omega) (by omega)
    have hcreated := submitAnswer_created table S W repo r tr userID examID req exam
      participant examProblem hexam hpart hstat hprob hlt2
    constructor
    · intro p hp
      have := (hcreated p hp).trans hnum
      exact ⟨this, by omega⟩
    · intro problem expectedResult actualResult err r1 r2 tr1 tr2 hpb hE1 hE2
      obtain ⟨resp, p, heq, h1, h2, _, _⟩ := submitAnswer_proceeds table S W repo r tr userID
        examID req exam participant examProblem problem expectedResult actualResult err r1 r2
        tr1 tr2 hexam hpart hstat hprob hlt2 hpb hE1 hE2
      have hp : p.AttemptNumber = count + 1 := by
        refine (hcreated p ?_).trans hnum
        rw [heq]
        exact List.mem_singleton.mpr rfl
      exact ⟨resp, p, heq, hp, h1.trans hp, h2.trans hmax⟩

/-- C21, on an exam that allows three attempts: with three attempts stored
the call fails with `ErrMaxAttemptsReached` and nothing else happens; with
one attempt stored the submission created is attempt number 2. -/
theorem exam_attempt_limit_witness :
    SubmitAnswer asciiCaseTable smallSliceSort quietWorld (examRepos 3) pgRunner [] 1 1
        examRequest = (.failed ErrMaxAttemptsReached, [], pgRunner, []) ∧
    (∀ p ∈ (SubmitAnswer asciiCaseTable smallSliceSort quietWorld (examRepos 1) pgRunner [] 1 1
        examRequest).2.1, p.AttemptNumber = 1 + 1 ∧ p.AttemptNumber ≤ 3) ∧
    (SubmitAnswer asciiCaseTable smallSliceSort quietWorld (examRepos 1) pgRunner [] 1 1
        examRequest).2.1.map (fun p => (p.AttemptNumber, p.Status)) = [(2, "accepted")] :=
  ⟨(exam_attempt_limit asciiCaseTable smallSliceSort quietWorld (examRepos 3) pgRunner [] 1 1
      examRequest ⟨some 3⟩ ⟨some "in_progress"⟩ ⟨10, 7, some 5⟩ 3 3 rfl rfl rfl rfl rfl
      (by decide) rfl (by decide)).1 (by decide),
    ((exam_attempt_limit asciiCaseTable smallSliceSort quietWorld (examRepos 1) pgRunner [] 1 1
      examRequest ⟨some 3⟩ ⟨some "in_progress"⟩ ⟨10, 7, some 5⟩ 1 3 rfl rfl rfl rfl rfl
      (by decide) rfl (by decide)).2 (by decide)).1,
    by decide⟩

end SqlJudge

namespace SqlJudge

/-! ## The admitter: first runes, white space and letter case -/

theorem hasPrefix_first (t p : String) (a : Char) (ps : List Char) (hp : p.data = a :: ps)
    (h : HasPrefix t p = true) : ∃ rest, t.data = a :: rest := by
  unfold HasPrefix at h
  rw [hp] at h
  cases ht : t.data with
  | nil => rw [ht] at h; simp [List.isPrefixOf] at h
  | cons b rest =>
    rw [ht] at h
    simp only [List.isPrefixOf, Bool.and_eq_true, beq_iff_eq] at h
    exact ⟨rest, by rw [h.1]⟩

theorem hasPrefix_first_ne (t p : String) (a b : Char) (rest ps : List Char)
    (ht : t.data = a :: rest) (hp : p.data = b :: ps) (hne : b ≠ a) : HasPrefix t p = false := by
  unfold HasPrefix
  rw [ht, hp]
  simp [List.isPrefixOf, hne]

theorem forbidden_heads :
    ∀ kw ∈ forbidden, kw.data.head? ∈
      [some 'I', some 'U', some 'D', some 'C', some 'A', some 'T', some 'G', some 'R'] := by
  decide

theorem forbidden_no_prefix (t : String) (a : Char) (rest : List Char) (ht : t.data = a :: rest)
    (ha : some a ∉
      [some 'I', some 'U', some 'D', some 'C', some 'A', some 'T', some 'G', some 'R']) :
    ∀ kw ∈ forbidden, HasPrefix t kw = false := by
  intro kw hkw
  have hh := forbidden_heads kw hkw
  cases hk : kw.data with
  | nil =>
    rw [hk] at hh
    exact absurd hh (by decide)
  | cons b ps =>
    rw [hk] at hh
    refine hasPrefix_first_ne t kw a b rest ps ht hk ?_
    intro hba
    apply ha
    rw [← hba]
    exact hh

theorem select_with_not_forbidden (t : String)
    (h : HasPrefix t "SELECT" = true ∨ HasPrefix t "WITH" = true) :
    ∀ kw ∈ forbidden, HasPrefix t kw = false := by
  rcases h with h | h
  · obtain ⟨rest, ht⟩ := hasPrefix_first t "SELECT" 'S' _ rfl h
    exact forbidden_no_prefix t 'S' rest ht (by decide)
  · obtain ⟨rest, ht⟩ := hasPrefix_first t "WITH" 'W' _ rfl h
    exact forbidden_no_prefix t 'W' rest ht (by decide)

theorem validateQuery_eq_noLoop (table : Char → Char) (q : String) :
    ValidateQuery table q = validateQueryNoLoop table q := by
  cases hl : forbiddenLoop (TrimSpace (ToUpper table q)) forbidden with
  | none => simp only [ValidateQuery, validateQueryNoLoop, hl]
  | some e =>
    have he := forbiddenLoop_some _ _ e hl
    have hno : ¬ (HasPrefix (TrimSpace (ToUpper table q)) "SELECT" = true ∨
        HasPrefix (TrimSpace (ToUpper table q)) "WITH" = true) := by
      intro h
      have := (forbiddenLoop_none_iff _ _).mpr (select_with_not_forbidden _ h)
      rw [hl] at this
      cases this
    simp only [ValidateQuery, validateQueryNoLoop, hl, he]
    cases h1 : HasPrefix (TrimSpace (ToUpper table q)) "SELECT"
    · cases h2 : HasPrefix (TrimSpace (ToUpper table q)) "WITH"
      · rfl
      · exact absurd (Or.inr h2) hno
    · exact absurd (Or.inl h1) hno

theorem validateQueryNoLoop_none_iff (table : Char → Char) (q : String) :
    validateQueryNoLoop table q = none ↔
      (HasPrefix (TrimSpace (ToUpper table q)) "SELECT" = true ∨
        HasPrefix (TrimSpace (ToUpper table q)) "WITH" = true) := by
  simp only [validateQueryNoLoop]
  cases h1 : HasPrefix (TrimSpace (ToUpper table q)) "SELECT" <;>
    cases h2 : HasPrefix (TrimSpace (ToUpper table q)) "WITH" <;> simp

theorem validateQueryNoLoop_cases (table : Char → Char) (q : String) :
    validateQueryNoLoop table q = none ∨ validateQueryNoLoop table q = some ErrInvalidStatement := by
  simp only [validateQueryNoLoop]
  split
  · right; rfl
  · left; rfl

theorem ofNat_toNat_small (n : Nat) (h : n < 128) : (Char.ofNat n).toNat = n := by
  have hv : n.isValidChar := Or.inl (by omega)
  unfold Char.ofNat
  rw [dif_pos hv]
  show (UInt32.ofNat' n _).toNat = n
  simp [UInt32.ofNat', UInt32.toNat]

theorem toUpperRune_asciiFold (table : Char → Char) (c : Char) :
    toUpperRune table (asciiFold c) = toUpperRune table c := by
  unfold asciiFold
  split
  · rename_i h
    have h1 : (97 : Nat) ≤ c.toNat := h.1
    have h2 : c.toNat ≤ 122 := h.2
    have h3 := ofNat_toNat_small (c.toNat - 32) (by omega)
    have h4 : toUpperRune table c = Char.ofNat (c.toNat - 32) := by
      unfold toUpperRune
      rw [if_pos (by omega), if_pos h]
    rw [h4]
    unfold toUpperRune
    rw [h3, if_pos (by omega), if_neg]
    intro hh
    have : (97 : Nat) ≤ c.toNat - 32 := hh.1
    omega
  · rfl

theorem dropWhile_append_all {α : Type} (p : α → Bool) (ws l : List α)
    (h : ∀ c ∈ ws, p c = true) : (ws ++ l).dropWhile p = l.dropWhile p := by
  induction ws with
  | nil => rfl
  | cons a ws ih =>
    have ha : p a = true := h a (List.mem_cons_self a ws)
    have ih2 := ih (fun c hc => h c (List.mem_cons_of_mem a hc))
    simp only [List.cons_append, List.dropWhile_cons, ha, if_true]
    exact ih2

theorem dropWhile_all {α : Type} (p : α → Bool) (ws : List α) (h : ∀ c ∈ ws, p c = true) :
    ws.dropWhile p = [] := by
  have := dropWhile_append_all p ws [] h
  simpa using this

theorem trim_append_all {α : Type} (p : α → Bool) (l ws : List α)
    (h : ∀ c ∈ ws, p c = true) :
    (((l ++ ws).dropWhile p).reverse.dropWhile p) = ((l.dropWhile p).reverse.dropWhile p) := by
  induction l with
  | nil =>
    simp only [List.nil_append, List.dropWhile_nil, List.reverse_nil]
    rw [dropWhile_all p ws h]
    rfl
  | cons a l ih =>
    by_cases ha : p a = true
    · simp only [List.cons_append, List.dropWhile_cons, ha, if_true]
      exact ih
    · simp only [List.cons_append, List.dropWhile_cons, ha]
      simp only [Bool.false_eq_true, if_false]
      rw [← List.cons_append, List.reverse_append]
      exact dropWhile_append_all p ws.reverse _ (fun c hc => h c (List.mem_reverse.mp hc))

theorem toUpperRune_space (table : Char → Char)
    (hsp : ∀ c, isSpace c = true → isSpace (table c) = true) (c : Char)
    (hc : isSpace c = true) : isSpace (toUpperRune table c) = true := by
  unfold toUpperRune
  split
  · split
    · rename_i h1 h2
      have h3 : (97 : Nat) ≤ c.toNat := h2.1
      have h4 : c.toNat ≤ 122 := h2.2
      exfalso
      simp only [isSpace, Bool.or_eq_true, decide_eq_true_eq, Bool.and_eq_true] at hc
      omega
    · exact hc
  · exact hsp c hc

theorem trimSpace_toUpper_pad (table : Char → Char)
    (hsp : ∀ c, isSpace c = true → isSpace (table c) = true) (q : String)
    (ws ws' : List Char) (h : ∀ c ∈ ws, isSpace c = true) (h' : ∀ c ∈ ws', isSpace c = true) :
    TrimSpace (ToUpper table ⟨ws ++ q.data ++ ws'⟩) = TrimSpace (ToUpper table q) := by
  have hm : ∀ l : List Char, (∀ c ∈ l, isSpace c = true) →
      ∀ c ∈ l.map (toUpperRune table), isSpace c = true := by
    intro l hl c hc
    obtain ⟨d, hd, rfl⟩ := List.mem_map.mp hc
    exact toUpperRune_space table hsp d (hl d hd)
  simp only [TrimSpace, ToUpper, List.map_append]
  rw [List.append_assoc, dropWhile_append_all isSpace _ _ (hm ws h),
    trim_append_all isSpace _ _ (hm ws' h')]

theorem toUpper_of_fold (table : Char → Char) (q q' : String)
    (h : q'.data.map asciiFold = q.data.map asciiFold) : ToUpper table q' = ToUpper table q := by
  have key : ∀ l : List Char, l.map (toUpperRune table) =
      (l.map asciiFold).map (toUpperRune table) := by
    intro l
    rw [List.map_map]
    exact List.map_congr_left (fun c _ => (toUpperRune_asciiFold table c).symm)
  simp only [ToUpper]
  rw [key q'.data, key q.data, h]

end SqlJudge

namespace SqlJudge

/-- C22. The text `WITH x AS (DELETE FROM t RETURNING *) SELECT * FROM x`, a
CTE that deletes rows, is admitted by `ValidateQuery` whatever the case table:
it begins with WITH. `Execute` then hands the whole text to the database. -/
theorem cte_mutation_admitted :
    (∀ table : Char → Char,
      ValidateQuery table "WITH x AS (DELETE FROM t RETURNING *) SELECT * FROM x" = none) ∧
    (Execute asciiCaseTable quietWorld pgRunner [] "postgresql"
        "WITH x AS (DELETE FROM t RETURNING *) SELECT * FROM x").2.2 =
      [.ping 1, .query 1 false "WITH x AS (DELETE FROM t RETURNING *) SELECT * FROM x",
        .rowsClose 1] :=
  ⟨fun _ => rfl, by decide⟩

/-- C23 (counterexample). `ValidateQuery` rejects the forbidden statement
behind a block comment, `/* c */ DELETE FROM t`, and the one behind a line
comment, `-- c` followed on the next line by `DROP TABLE t`, whatever the case
table. -/
theorem comment_prefixed_statement_rejected :
    (∀ table : Char → Char,
      ValidateQuery table "/* c */ DELETE FROM t" = some ErrInvalidStatement) ∧
    (∀ table : Char → Char,
      ValidateQuery table "-- c\nDROP TABLE t" = some ErrInvalidStatement) ∧
    ValidateQuery asciiCaseTable "/* c */ DELETE FROM t" ≠ none ∧
    ValidateQuery asciiCaseTable "-- c\nDROP TABLE t" ≠ none :=
  ⟨fun _ => rfl, fun _ => rfl, by decide, by decide⟩

/-- C23 (amended). A text that begins with a SQL comment is rejected by
`ValidateQuery`: when the text it inspects (the query upper-cased, then
trimmed) begins with `/*` or with `--`, it begins with neither SELECT nor
WITH, and `ErrInvalidStatement` is returned, whatever follows the comment. -/
theorem leading_comment_rejected (table : Char → Char) (q : String)
    (h : HasPrefix (TrimSpace (ToUpper table q)) "/*" = true ∨
      HasPrefix (TrimSpace (ToUpper table q)) "--" = true) :
    ValidateQuery table q = some ErrInvalidStatement ∧
    HasPrefix (TrimSpace (ToUpper table q)) "SELECT" = false ∧
    HasPrefix (TrimSpace (ToUpper table q)) "WITH" = false := by
  have hsw : HasPrefix (TrimSpace (ToUpper table q)) "SELECT" = false ∧
      HasPrefix (TrimSpace (ToUpper table q)) "WITH" = false := by
    rcases h with h | h
    · obtain ⟨rest, ht⟩ := hasPrefix_first _ "/*" '/' _ rfl h
      exact ⟨hasPrefix_first_ne _ "SELECT" '/' 'S' rest _ ht rfl (by decide),
        hasPrefix_first_ne _ "WITH" '/' 'W' rest _ ht rfl (by decide)⟩
    · obtain ⟨rest, ht⟩ := hasPrefix_first _ "--" '-' _ rfl h
      exact ⟨hasPrefix_first_ne _ "SELECT" '-' 'S' rest _ ht rfl (by decide),
        hasPrefix_first_ne _ "WITH" '-' 'W' rest _ ht rfl (by decide)⟩
  refine ⟨?_, hsw⟩
  rcases validateQueryNoLoop_cases table q with hn | hn
  · have := (validateQueryNoLoop_none_iff table q).mp hn
    rw [hsw.1, hsw.2] at this
    simp at this
  · rw [validateQuery_eq_noLoop]
    exact hn

/-- C23 (amended), on an admissible query behind a comment:
`/* c */ SELECT 1` is rejected as well. -/
theorem leading_comment_rejected_witness :
    HasPrefix (TrimSpace (ToUpper asciiCaseTable "/* c */ SELECT 1")) "/*" = true ∧
    ValidateQuery asciiCaseTable "/* c */ SELECT 1" = some ErrInvalidStatement :=
  ⟨by decide,
    (leading_comment_rejected asciiCaseTable "/* c */ SELECT 1" (Or.inl (by decide))).1⟩

/-- C24 (the code at the failing input). `ValidateQuery` admits `SELECT 1; DROP TABLE t`,
which begins with SELECT, and `ExecuteWithSetup` hands the whole text, the
statement after the semicolon included, to the database in one `QueryContext`
call and returns the rows and a nil error. -/
theorem multi_statement_reaches_database :
    (∀ table : Char → Char, ValidateQuery table "SELECT 1; DROP TABLE t" = none) ∧
    ExecuteWithSetup asciiCaseTable quietWorld pgRunner [] "postgresql" ""
        "SELECT 1; DROP TABLE t" =
      (.returned
        { Columns := ["x"], Rows := [[.str "1"], [.str "2"], [.str "3"]], RowCount := 3
          ExecutionMs := 1 } none,
        pgRunner,
        [.ping 1, .beginTx 1, .query 1 true "SELECT 1; DROP TABLE t", .rowsClose 1,
          .rollback 1]) :=
  ⟨fun _ => rfl, by decide⟩

end SqlJudge

namespace SqlJudge

/-! ## What a correct verdict implies, and the legacy judge -/

theorem compare_correct_inv (S : SliceSort) (expected actual : QueryResult) (om : Bool)
    (h : (Compare S expected actual om).IsCorrect = true) :
    actual.Error = "" ∧ expected.RowCount = actual.RowCount ∧
      sortRows S expected.Rows = sortRows S actual.Rows := by
  by_cases he : actual.Error = ""
  · by_cases hc : expected.RowCount = actual.RowCount
    · by_cases hs : sortRows S expected.Rows = sortRows S actual.Rows
      · exact ⟨he, hc, hs⟩
      · rw [compare_of_mismatch S _ _ om he hc hs] at h
        simp at h
    · rw [compare_of_count S _ _ om he hc] at h
      simp at h
  · rw [compare_of_error S _ _ om he] at h
    simp at h

theorem compare_correct_perm (S : SliceSort) (hS : S.Lawful) (expected actual : QueryResult)
    (om : Bool) (h : (Compare S expected actual om).IsCorrect = true) :
    actual.Rows.Perm expected.Rows := by
  obtain ⟨_, _, hs⟩ := compare_correct_inv S expected actual om h
  have h1 : (sortRows S expected.Rows).Perm expected.Rows := hS.perm _ _
  have h2 : (sortRows S actual.Rows).Perm actual.Rows := hS.perm _ _
  rw [hs] at h1
  exact h2.symm.trans h1

theorem sprint_ofStrings (row : List String) :
    Sprint (row.map Cell.str) = sprintStrings row := by
  have : (row.map Cell.str).map Cell.format = row := by
    rw [List.map_map]
    exact (List.map_congr_left (fun s _ => rfl)).trans (List.map_id row)
  simp only [Sprint, sprintStrings, this]

theorem sortRows_ofStrings (S : SliceSort) (hS : S.Lawful) (rows : List (List String)) :
    sortRows S (ofStrings rows) = ofStrings (sortResult S rows) := by
  have hless : (fun a b : List String => strLess (sprintStrings a) (sprintStrings b)) =
      (fun a b : List String =>
        (fun x y : Row => strLess (Sprint x) (Sprint y)) (a.map Cell.str) (b.map Cell.str)) := by
    funext a b
    simp only [sprint_ofStrings]
  unfold sortRows sortResult ofStrings
  rw [hless]
  exact (hS.natural (fun row : List String => row.map Cell.str)
    (fun x y : Row => strLess (Sprint x) (Sprint y)) rows).symm

theorem ofStrings_inj (a b : List (List String)) (h : ofStrings a = ofStrings b) : a = b := by
  have hinj : Function.Injective (fun row : List String => row.map Cell.str) :=
    List.map_injective_iff.mpr (fun x y hxy => Cell.str.inj hxy)
  exact List.map_injective_iff.mpr hinj h

theorem ofStrings_length (a : List (List String)) : (ofStrings a).length = a.length := by
  simp [ofStrings]

theorem sortResult_length (S : SliceSort) (hS : S.Lawful) (a : List (List String)) :
    (sortResult S a).length = a.length :=
  (hS.perm _ a).length_eq

end SqlJudge

namespace SqlJudge

/-- C25 (counterexample). Two results without rows, one of one column and
one of two, are error-free, every row (there is none) has the arity of its
column list, the column counts differ, and `Compare` returns
`is_correct = true`, for every sort and either value of `orderMatters`. -/
theorem compare_empty_results_ignore_columns :
    emptyOneColumn.Error = "" ∧ emptyTwoColumns.Error = "" ∧
    (∀ row ∈ emptyOneColumn.Rows, row.length = emptyOneColumn.Columns.length) ∧
    (∀ row ∈ emptyTwoColumns.Rows, row.length = emptyTwoColumns.Columns.length) ∧
    emptyOneColumn.Columns.length ≠ emptyTwoColumns.Columns.length ∧
    (∀ (S : SliceSort) (om : Bool),
      (Compare S emptyOneColumn emptyTwoColumns om).IsCorrect = true) ∧
    (Compare smallSliceSort emptyOneColumn emptyTwoColumns false).IsCorrect = true := by
  refine ⟨rfl, rfl, by decide, by decide, by decide, ?_, by decide⟩
  intro S om
  rw [compare_of_match S emptyOneColumn emptyTwoColumns om rfl rfl rfl]

/-- C25 (amended). For every pair of error-free results in which every row
has the arity of its result's column list, the column counts differ and at
least one of the two results holds a row, `Compare` returns
`is_correct = false`. -/
theorem compare_column_count_mismatch (S : SliceSort) (hS : S.Lawful)
    (expected actual : QueryResult) (om : Bool)
    (he : expected.Error = "") (ha : actual.Error = "")
    (hec : ∀ row ∈ expected.Rows, row.length = expected.Columns.length)
    (hac : ∀ row ∈ actual.Rows, row.length = actual.Columns.length)
    (hcols : expected.Columns.length ≠ actual.Columns.length)
    (hrow : expected.Rows ≠ [] ∨ actual.Rows ≠ []) :
    (Compare S expected actual om).IsCorrect = false := by
  cases hv : (Compare S expected actual om).IsCorrect with
  | false => rfl
  | true =>
    exfalso
    have hp := compare_correct_perm S hS expected actual om hv
    have key : ∀ row, row ∈ actual.Rows → False := by
      intro row hr
      have h1 := hac row hr
      have h2 := hec row (hp.subset hr)
      exact hcols (h2.symm.trans h1)
    rcases hrow with h | h
    · obtain ⟨row, hr⟩ := List.exists_mem_of_ne_nil _ h
      exact key row (hp.symm.subset hr)
    · obtain ⟨row, hr⟩ := List.exists_mem_of_ne_nil _ h
      exact key row hr

/-- C25 (amended), on a reference result of one column and three rows and a
user result of two columns and three rows. -/
theorem compare_column_count_mismatch_witness :
    (Compare smallSliceSort s1Expected
      { Columns := ["x", "y"]
        Rows := [[.str "1", .str "a"], [.str "2", .str "b"], [.str "3", .str "c"]]
        RowCount := 3 } false).IsCorrect = false :=
  compare_column_count_mismatch smallSliceSort smallSliceSort_lawful s1Expected
    { Columns := ["x", "y"]
      Rows := [[.str "1", .str "a"], [.str "2", .str "b"], [.str "3", .str "c"]]
      RowCount := 3 } false rfl rfl (by decide) (by decide) (by decide) (Or.inl (by decide))

/-- C26. For every pair of error-free results with `RowCount = len(Rows)`
whose cells are all strings, the verdict of the runner's `Compare` is the
verdict of the legacy judge on the same rows taken as `[][]string`:
`sortResult` on both, then `reflect.DeepEqual`. The two sorts use the same
`sort.Slice` and their keys agree, `fmt.Sprint` printing a row of strings the
same way at either type. -/
theorem compare_refines_legacy (S : SliceSort) (hS : S.Lawful)
    (expected actual : QueryResult) (om : Bool) (exp act : List (List String))
    (he : expected.Error = "") (ha : actual.Error = "")
    (hec : expected.RowCount = (expected.Rows.length : Int))
    (hac : actual.RowCount = (actual.Rows.length : Int))
    (hexp : expected.Rows = ofStrings exp) (hact : actual.Rows = ofStrings act) :
    (Compare S expected actual om).IsCorrect = judgeSQLMatch S exp act ∧
    (∀ a b : List String, strLess (Sprint (a.map Cell.str)) (Sprint (b.map Cell.str)) =
      strLess (sprintStrings a) (sprintStrings b)) := by
  refine ⟨?_, fun a b => by rw [sprint_ofStrings, sprint_ofStrings]⟩
  by_cases hc : expected.RowCount = actual.RowCount
  · by_cases hs : sortResult S exp = sortResult S act
    · have heq : sortRows S expected.Rows = sortRows S actual.Rows := by
        rw [hexp, hact, sortRows_ofStrings S hS, sortRows_ofStrings S hS, hs]
      rw [compare_of_match S _ _ om ha hc heq]
      simp [judgeSQLMatch, hs]
    · have hne : sortRows S expected.Rows ≠ sortRows S actual.Rows := by
        rw [hexp, hact, sortRows_ofStrings S hS, sortRows_ofStrings S hS]
        exact fun h => hs (ofStrings_inj _ _ h)
      rw [compare_of_mismatch S _ _ om ha hc hne]
      simp [judgeSQLMatch, hs]
  · have hlen : exp.length ≠ act.length := by
      intro h
      apply hc
      rw [hec, hac, hexp, hact, ofStrings_length, ofStrings_length, h]
    have hs : sortResult S exp ≠ sortResult S act := by
      intro h
      apply hlen
      rw [← sortResult_length S hS exp, ← sortResult_length S hS act, h]
    rw [compare_of_count S _ _ om ha hc]
    simp [judgeSQLMatch, hs]

/-- C26, on scenario S1: the rows `1, 2, 3` against the rows `3, 2, 1`; both
judges accept. -/
theorem compare_refines_legacy_witness :
    (Compare smallSliceSort s1Expected s1Actual false).IsCorrect =
      judgeSQLMatch smallSliceSort [["1"], ["2"], ["3"]] [["3"], ["2"], ["1"]] ∧
    judgeSQLMatch smallSliceSort [["1"], ["2"], ["3"]] [["3"], ["2"], ["1"]] = true :=
  ⟨(compare_refines_legacy smallSliceSort smallSliceSort_lawful s1Expected s1Actual false
      [["1"], ["2"], ["3"]] [["3"], ["2"], ["1"]] rfl rfl rfl rfl rfl rfl).1,
    by decide⟩

/-- C27. When both results have `RowCount = len(Rows)` and `Compare` returns
`is_correct = true`, the user's result carries no error, the two results have
the same number of rows, and the user's rows are a permutation of the
reference rows. -/
theorem compare_sound (S : SliceSort) (hS : S.Lawful) (expected actual : QueryResult)
    (om : Bool)
    (hec : expected.RowCount = (expected.Rows.length : Int))
    (hac : actual.RowCount = (actual.Rows.length : Int))
    (h : (Compare S expected actual om).IsCorrect = true) :
    actual.Error = "" ∧ expected.RowCount = actual.RowCount ∧
    expected.Rows.length = actual.Rows.length ∧ actual.Rows.Perm expected.Rows := by
  obtain ⟨h1, h2, _⟩ := compare_correct_inv S expected actual om h
  have hp := compare_correct_perm S hS expected actual om h
  exact ⟨h1, h2, hp.length_eq.symm, hp⟩

/-- C27, on scenario S1: `Compare` accepts, and the rows `3, 2, 1` are a
permutation of the rows `1, 2, 3`. -/
theorem compare_sound_witness :
    (Compare smallSliceSort s1Expected s1Actual false).IsCorrect = true ∧
    s1Actual.Error = "" ∧ s1Expected.RowCount = s1Actual.RowCount ∧
    s1Expected.Rows.length = s1Actual.Rows.length ∧ s1Actual.Rows.Perm s1Expected.Rows :=
  ⟨by decide,
    compare_sound smallSliceSort smallSliceSort_lawful s1Expected s1Actual false rfl rfl
      (by decide)⟩

end SqlJudge

namespace SqlJudge

theorem validateQuery_of_toUpper (table table' : Char → Char) (q q' : String)
    (h : ToUpper table q = ToUpper table' q') :
    ValidateQuery table q = ValidateQuery table' q' := by
  simp only [ValidateQuery, h]

theorem toUpper_congr_table (table table' : Char → Char) (q : String)
    (h : ∀ c ∈ q.data, 128 ≤ c.toNat → table c = table' c) :
    ToUpper table q = ToUpper table' q := by
  simp only [ToUpper]
  congr 1
  apply List.map_congr_left
  intro c hc
  unfold toUpperRune
  split
  · rfl
  · exact h c hc (by omega)

/-- C28 (counterexample). The query `wİth x AS (SELECT 1) SELECT 1`, whose
second letter is U+0130, the capital letter I with a dot above, is rejected
by `ValidateQuery`, and its lower-cased form `with x as (select 1) select 1`
is admitted, on every case table that leaves U+0130 as it is, as the Unicode
table does: the result changes with the case of a letter. -/
theorem letter_case_changes_verdict :
    ToLower "wİth x AS (SELECT 1) SELECT 1" = "with x as (select 1) select 1" ∧
    (∀ table : Char → Char, table (Char.ofNat 0x130) = Char.ofNat 0x130 →
      ValidateQuery table "wİth x AS (SELECT 1) SELECT 1" = some ErrInvalidStatement ∧
      ValidateQuery table (ToLower "wİth x AS (SELECT 1) SELECT 1") = none) ∧
    ValidateQuery asciiCaseTable "wİth x AS (SELECT 1) SELECT 1" ≠
      ValidateQuery asciiCaseTable (ToLower "wİth x AS (SELECT 1) SELECT 1") := by
  have hl : ToLower "wİth x AS (SELECT 1) SELECT 1" = "with x as (select 1) select 1" := by
    decide
  refine ⟨hl, ?_, by decide⟩
  intro table ht
  constructor
  · have h1 : ToUpper table "wİth x AS (SELECT 1) SELECT 1" =
        ToUpper asciiCaseTable "wİth x AS (SELECT 1) SELECT 1" := by
      apply toUpper_congr_table
      intro c hc hge
      have hc2 : c = Char.ofNat 0x130 :=
        (by decide : ∀ c ∈ ("wİth x AS (SELECT 1) SELECT 1" : String).data,
          128 ≤ c.toNat → c = Char.ofNat 0x130) c hc hge
      rw [hc2, ht]
      rfl
    rw [validateQuery_of_toUpper _ _ _ _ h1]
    decide
  · rw [hl]
    rfl

/-- C28 (amended). The loop of `ValidateQuery` over the forbidden keywords
changes nothing: a text that begins with SELECT or WITH begins with no
forbidden keyword; `ValidateQuery` returns nil exactly when the text it
inspects begins with SELECT or WITH; and it is equal, error included, to the
function without the loop. The result does not change when white space is put
around the query (the case table mapping white space to white space, as the
Unicode table does), nor when the case of ASCII letters in it is changed; in
general two queries with the same upper-cased text get the same result. -/
theorem forbidden_loop_redundant (table : Char → Char) (q : String) :
    (∀ t : String, HasPrefix t "SELECT" = true ∨ HasPrefix t "WITH" = true →
      ∀ kw ∈ forbidden, HasPrefix t kw = false) ∧
    (ValidateQuery table q = none ↔
      (HasPrefix (TrimSpace (ToUpper table q)) "SELECT" = true ∨
        HasPrefix (TrimSpace (ToUpper table q)) "WITH" = true)) ∧
    ValidateQuery table q = validateQueryNoLoop table q ∧
    ((∀ c, isSpace c = true → isSpace (table c) = true) →
      ∀ ws ws' : List Char, (∀ c ∈ ws, isSpace c = true) → (∀ c ∈ ws', isSpace c = true) →
        ValidateQuery table ⟨ws ++ q.data ++ ws'⟩ = ValidateQuery table q) ∧
    (∀ q' : String, q'.data.map asciiFold = q.data.map asciiFold →
      ValidateQuery table q' = ValidateQuery table q) ∧
    (∀ q' : String, ToUpper table q' = ToUpper table q →
      ValidateQuery table q' = ValidateQuery table q) := by
  refine ⟨select_with_not_forbidden, ?_, validateQuery_eq_noLoop table q, ?_, ?_, ?_⟩
  · rw [validateQuery_eq_noLoop]
    exact validateQueryNoLoop_none_iff table q
  · intro hsp ws ws' h h'
    simp only [ValidateQuery]
    rw [trimSpace_toUpper_pad table hsp q ws ws' h h']
  · intro q' hq
    simp only [ValidateQuery]
    rw [toUpper_of_fold table q q' hq]
  · intro q' hq
    exact validateQuery_of_toUpper table table q' q hq

/-- C28 (amended), on the query `select 1`: it gets the result of the
function without the loop, and so do the query with blanks around it and the
query written `SeLeCt 1`. -/
theorem forbidden_loop_redundant_witness :
    ValidateQuery asciiCaseTable "select 1" = validateQueryNoLoop asciiCaseTable "select 1" ∧
    ValidateQuery asciiCaseTable ⟨[' ', ' '] ++ ("select 1" : String).data ++ [' ']⟩ =
      ValidateQuery asciiCaseTable "select 1" ∧
    ValidateQuery asciiCaseTable "SeLeCt 1" = ValidateQuery asciiCaseTable "select 1" ∧
    ValidateQuery asciiCaseTable "select 1" = none :=
  ⟨(forbidden_loop_redundant asciiCaseTable "select 1").2.2.1,
    (forbidden_loop_redundant asciiCaseTable "select 1").2.2.2.1 (fun _ h => h) [' ', ' '] [' ']
      (by decide) (by decide),
    (forbidden_loop_redundant asciiCaseTable "select 1").2.2.2.2.1 "SeLeCt 1" (by decide),
    by decide⟩

/-- C29. In per-problem `Submit`, which stores the status derived from the
user's result and the verdict of `Compare` next to the verdict's
`is_correct`, the status is `accepted` exactly when `is_correct` is true, for
every reference result and every user result; a user result with a non-empty
error is stored with `is_correct = false` and a status other than
`accepted`. -/
theorem submit_accepted_iff_correct (S : SliceSort) (expected actual : QueryResult)
    (om : Bool) :
    (submitStatus actual (Compare S expected actual om) = "accepted" ↔
      (Compare S expected actual om).IsCorrect = true) ∧
    (actual.Error ≠ "" →
      (Compare S expected actual om).IsCorrect = false ∧
      submitStatus actual (Compare S expected actual om) ≠ "accepted") := by
  by_cases he : actual.Error = ""
  · refine ⟨?_, fun h => absurd he h⟩
    simp only [submitStatus, he, ne_eq, not_true_eq_false, if_false]
    cases (Compare S expected actual om).IsCorrect <;> simp
  · have hc := compare_of_error S expected actual om he
    have hst : submitStatus actual (Compare S expected actual om) ≠ "accepted" := by
      simp only [submitStatus, ne_eq, he, not_false_eq_true, if_true]
      split <;> decide
    refine ⟨?_, fun _ => ⟨by rw [hc], hst⟩⟩
    constructor
    · intro h; exact absurd h hst
    · intro h; rw [hc] at h; simp at h

end SqlJudge

namespace SqlJudge

/-! ## The fragments of a setup script -/

theorem setupLoop_prefix (W : World) (db : Handle) (pieces : List String) (tr : List Event) :
    ∃ k, (setupLoop W db tr pieces).2 =
      tr ++ (((pieces.map TrimSpace).filter (fun s => s ≠ "")).take k).map (Event.exec db) := by
  induction pieces generalizing tr with
  | nil => exact ⟨0, by simp [setupLoop]⟩
  | cons piece rest ih =>
    by_cases hp : TrimSpace piece = ""
    · obtain ⟨k, hk⟩ := ih tr
      refine ⟨k, ?_⟩
      simp only [setupLoop, hp, if_true, List.map_cons, ne_eq, not_true_eq_false,
        decide_False, Bool.false_eq_true, not_false_eq_true, List.filter_cons_of_neg]
      exact hk
    · cases hx : W.exec tr db (TrimSpace piece) with
      | some err =>
        refine ⟨1, ?_⟩
        simp [setupLoop, hp, hx]
      | none =>
        obtain ⟨k, hk⟩ := ih (tr ++ [Event.exec db (TrimSpace piece)])
        refine ⟨k + 1, ?_⟩
        simp only [setupLoop, hp, if_false, hx, List.map_cons, ne_eq, not_false_eq_true,
          decide_True, List.filter_cons_of_pos, List.take_succ_cons]
        rw [hk]
        simp

theorem executeWithSetup_execs (table : Char → Char) (W : World) (r : runner)
    (tr : List Event) (dbType : DBType) (setupSQL query : String) (h : Handle) (s : String)
    (hmem : Event.exec h s ∈ (ExecuteWithSetup table W r tr dbType setupSQL query).2.2) :
    Event.exec h s ∈ tr ∨ s ∈ setupStatements setupSQL := by
  have hconn : ∀ res r1 tr1, getConnection W r tr dbType = (res, r1, tr1) →
      Event.exec h s ∈ tr1 → Event.exec h s ∈ tr := by
    intro res r1 tr1 hg hm
    obtain ⟨added, ha, hadd⟩ := (getConnection_post W r tr dbType).2.1
    rw [hg] at ha
    replace ha : tr1 = tr ++ added := ha
    rw [ha] at hm
    rcases List.mem_append.mp hm with hm | hm
    · exact hm
    · rcases hadd _ hm with ⟨_, h1⟩ | ⟨_, h1⟩ | ⟨_, _, h1⟩ <;> cases h1
  have hloop : ∀ db tr1 tr3 res,
      setupLoop W db (tr1 ++ [Event.beginTx db])
        (if setupSQL ≠ "" then splitSemis setupSQL.data [] else []) = (res, tr3) →
      Event.exec h s ∈ tr3 → Event.exec h s ∈ tr1 ∨ s ∈ setupStatements setupSQL := by
    intro db tr1 tr3 res hl hm
    obtain ⟨k, hk⟩ := setupLoop_prefix W db
      (if setupSQL ≠ "" then splitSemis setupSQL.data [] else []) (tr1 ++ [Event.beginTx db])
    rw [hl, setup_pieces] at hk
    replace hk : tr3 = tr1 ++ [Event.beginTx db] ++
      ((setupStatements setupSQL).take k).map (Event.exec db) := hk
    rw [hk] at hm
    rcases List.mem_append.mp hm with hm | hm
    · rcases List.mem_append.mp hm with hm | hm
      · exact Or.inl hm
      · cases List.mem_singleton.mp hm
    · obtain ⟨x, hx, hxe⟩ := List.mem_map.mp hm
      cases hxe
      exact Or.inr (List.mem_of_mem_take hx)
  rcases executeWithSetup_cases table W r tr dbType setupSQL query with
    ⟨e, _, he⟩ | ⟨_, ⟨e, r1, tr1, hg, he⟩ | ⟨db, r1, tr1, hg, hcase⟩⟩
  · rw [he] at hmem
    exact Or.inl hmem
  · rw [he] at hmem
    exact Or.inl (hconn _ r1 tr1 hg hmem)
  · rcases hcase with ⟨e, _, he⟩ | ⟨_, ⟨e, stmt, tr3, hl, he⟩ | ⟨tr3, hl, he⟩⟩
    · rw [he] at hmem
      rcases List.mem_append.mp hmem with hm | hm
      · exact Or.inl (hconn _ r1 tr1 hg hm)
      · cases List.mem_singleton.mp hm
    · rw [he] at hmem
      rcases List.mem_append.mp hmem with hm | hm
      · exact (hloop db tr1 tr3 _ hl hm).imp_left (hconn _ r1 tr1 hg)
      · cases List.mem_singleton.mp hm
    · rw [he] at hmem
      obtain ⟨tail, ht, htail⟩ := executeInternal_trace W r1.cfg tr3 db true query
      replace hmem : Event.exec h s ∈
          (executeInternal W r1.cfg tr3 db true query).2 ++ [Event.rollback db] := hmem
      rw [ht] at hmem
      rcases List.mem_append.mp hmem with hm | hm
      · rcases List.mem_append.mp hm with hm | hm
        · rcases List.mem_append.mp hm with hm | hm
          · exact (hloop db tr1 tr3 _ hl hm).imp_left (hconn _ r1 tr1 hg)
          · cases List.mem_singleton.mp hm
        · cases htail _ hm
      · cases List.mem_singleton.mp hm

theorem setupStatements_length (setupSQL : String) :
    (setupStatements setupSQL).length =
      (splitSemis setupSQL.data []).countP (fun piece => decide (TrimSpace piece ≠ "")) := by
  unfold setupStatements
  rw [← List.countP_eq_length_filter, List.countP_map]
  rfl

theorem setupLoop_pair (W : World) (db : Handle) (tr : List Event) (a b : String)
    (ha : TrimSpace a ≠ "") (hb : TrimSpace b ≠ "")
    (h1 : W.exec tr db (TrimSpace a) = none) :
    (setupLoop W db tr [a, b]).2 =
      tr ++ [Event.exec db (TrimSpace a), Event.exec db (TrimSpace b)] := by
  simp only [setupLoop, ha, hb, if_false, h1]
  cases W.exec (tr ++ [Event.exec db (TrimSpace a)]) db (TrimSpace b) <;> simp

theorem executeWithSetup_setup_trace (table : Char → Char) (W : World) (r : runner)
    (tr : List Event) (dbType : DBType) (setupSQL query : String) (db : Handle)
    (r1 : runner) (tr1 : List Event)
    (hv : ValidateQuery table query = none)
    (hg : getConnection W r tr dbType = (.ok db, r1, tr1))
    (hb : W.beginTx tr1 db = none) :
    ∃ rest, (ExecuteWithSetup table W r tr dbType setupSQL query).2.2 =
      (setupLoop W db (tr1 ++ [Event.beginTx db])
        (if setupSQL ≠ "" then splitSemis setupSQL.data [] else [])).2 ++ rest := by
  rcases hl : setupLoop W db (tr1 ++ [Event.beginTx db])
    (if setupSQL ≠ "" then splitSemis setupSQL.data [] else []) with ⟨res, tr3⟩
  cases res with
  | some p =>
    refine ⟨[Event.rollback db], ?_⟩
    simp only [ExecuteWithSetup, hv, hg, hb, hl]
  | none =>
    obtain ⟨tail, ht, _⟩ := executeInternal_trace W r1.cfg tr3 db true query
    refine ⟨[Event.query db true query] ++ tail ++ [Event.rollback db], ?_⟩
    simp only [ExecuteWithSetup, hv, hg, hb, hl]
    rw [ht]
    simp

theorem filter_isExec_map (db : Handle) (stmts : List String) :
    (stmts.map (Event.exec db)).filter Event.isExec = stmts.map (Event.exec db) := by
  rw [List.filter_eq_self]
  intro ev hev
  obtain ⟨s, _, rfl⟩ := List.mem_map.mp hev
  rfl

theorem filter_isExec_none (evs : List Event) (h : ∀ ev ∈ evs, ∀ d s, ev ≠ Event.exec d s) :
    evs.filter Event.isExec = [] := by
  rw [List.filter_eq_nil_iff]
  intro ev hev hx
  cases ev with
  | exec d s => exact h _ hev d s rfl
  | _ => cases hx

theorem getConnection_no_exec (W : World) (r : runner) (tr : List Event) (dbType : DBType) :
    ∀ res r1 tr1, getConnection W r tr dbType = (res, r1, tr1) →
      ∃ conn, tr1 = tr ++ conn ∧ conn.filter Event.isExec = [] := by
  intro res r1 tr1 hg
  obtain ⟨added, ha, hadd⟩ := (getConnection_post W r tr dbType).2.1
  rw [hg] at ha
  refine ⟨added, ha, filter_isExec_none added ?_⟩
  intro ev hev d s heq
  rcases hadd _ hev with ⟨_, h1⟩ | ⟨_, h1⟩ | ⟨_, _, h1⟩ <;> rw [h1] at heq <;> cases heq

theorem executeWithSetup_exec_prefix (table : Char → Char) (W : World) (r : runner)
    (tr : List Event) (dbType : DBType) (setupSQL query : String) :
    ∃ added k db, (ExecuteWithSetup table W r tr dbType setupSQL query).2.2 = tr ++ added ∧
      added.filter Event.isExec = ((setupStatements setupSQL).take k).map (Event.exec db) := by
  have hconn := getConnection_no_exec W r tr dbType
  have hloop : ∀ db tr1 tr3 res,
      setupLoop W db (tr1 ++ [Event.beginTx db])
        (if setupSQL ≠ "" then splitSemis setupSQL.data [] else []) = (res, tr3) →
      ∃ k, tr3 = tr1 ++ [Event.beginTx db] ++
        ((setupStatements setupSQL).take k).map (Event.exec db) := by
    intro db tr1 tr3 res hl
    obtain ⟨k, hk⟩ := setupLoop_prefix W db
      (if setupSQL ≠ "" then splitSemis setupSQL.data [] else []) (tr1 ++ [Event.beginTx db])
    rw [hl, setup_pieces] at hk
    exact ⟨k, hk⟩
  rcases executeWithSetup_cases table W r tr dbType setupSQL query with
    ⟨e, _, he⟩ | ⟨_, ⟨e, r1, tr1, hg, he⟩ | ⟨db, r1, tr1, hg, hcase⟩⟩
  · exact ⟨[], 0, 0, by rw [he]; simp, by simp⟩
  · obtain ⟨conn, hc, hf⟩ := hconn _ r1 tr1 hg
    exact ⟨conn, 0, 0, by rw [he]; exact hc, by simp [hf]⟩
  · obtain ⟨conn, hc, hf⟩ := hconn _ r1 tr1 hg
    rcases hcase with ⟨e, _, he⟩ | ⟨_, ⟨e, stmt, tr3, hl, he⟩ | ⟨tr3, hl, he⟩⟩
    · refine ⟨conn ++ [Event.beginTx db], 0, 0, ?_, ?_⟩
      · rw [he, hc]; simp
      · simp [List.filter_append, hf, Event.isExec]
    · obtain ⟨k, hk⟩ := hloop db tr1 tr3 _ hl
      refine ⟨conn ++ [Event.beginTx db] ++
        ((setupStatements setupSQL).take k).map (Event.exec db) ++ [Event.rollback db],
        k, db, ?_, ?_⟩
      · rw [he, hk, hc]; simp
      · have hb1 : [Event.beginTx db].filter Event.isExec = [] := rfl
        have hr1 : [Event.rollback db].filter Event.isExec = [] := rfl
        simp only [List.filter_append, hf, hb1, hr1, filter_isExec_map, List.nil_append,
          List.append_nil]
    · obtain ⟨k, hk⟩ := hloop db tr1 tr3 _ hl
      obtain ⟨tail, ht, htail⟩ := executeInternal_trace W r1.cfg tr3 db true query
      have hft : tail.filter Event.isExec = [] :=
        filter_isExec_none tail (fun ev hev d s heq => by
          rw [htail ev hev] at heq; cases heq)
      refine ⟨conn ++ [Event.beginTx db] ++
        ((setupStatements setupSQL).take k).map (Event.exec db) ++
        [Event.query db true query] ++ tail ++ [Event.rollback db], k, db, ?_, ?_⟩
      · rw [he]
        show (executeInternal W r1.cfg tr3 db true query).2 ++ [Event.rollback db] = _
        rw [ht, hk, hc]; simp
      · have hb1 : [Event.beginTx db].filter Event.isExec = [] := rfl
        have hr1 : [Event.rollback db].filter Event.isExec = [] := rfl
        have hq1 : [Event.query db true query].filter Event.isExec = [] := rfl
        simp only [List.filter_append, hf, hft, hb1, hr1, hq1, filter_isExec_map,
          List.nil_append, List.append_nil]

/-- C30 (counterexample). On scenario S5 the script
`CREATE TABLE t(x INT); BOGUS STMT; INSERT INTO t VALUES (1);` has three
pieces between semicolons that are not blank, its second statement fails, and
`ExecuteWithSetup` makes two `ExecContext` calls, not three. -/
theorem failed_fragment_cuts_count :
    (splitSemis ("CREATE TABLE t(x INT); BOGUS STMT; INSERT INTO t VALUES (1);" : String).data
      []).countP (fun piece => decide (TrimSpace piece ≠ "")) = 3 ∧
    ((ExecuteWithSetup asciiCaseTable s5World pgRunner [] "postgresql"
      "CREATE TABLE t(x INT); BOGUS STMT; INSERT INTO t VALUES (1);" "SELECT 1").2.2).countP
        Event.isExec = 2 ∧
    (ExecuteWithSetup asciiCaseTable s5World pgRunner [] "postgresql"
      "CREATE TABLE t(x INT); BOGUS STMT; INSERT INTO t VALUES (1);" "SELECT 1").2.2 =
      [.ping 1, .beginTx 1, .exec 1 "CREATE TABLE t(x INT)", .exec 1 "BOGUS STMT",
        .rollback 1] := by
  decide

/-- C30 (amended). The setup script is split on every semicolon, quoted or
not. The script `INSERT INTO t VALUES ('a;b')`, one statement, yields the two
fragments `INSERT INTO t VALUES ('a` and `b')`; the statement itself is passed
to `ExecContext` on no database, and when the query is admitted, the pool and
the transaction are obtained and the first fragment does not fail, both
fragments are executed, in that order. In general the statements executed are
the first `k` pieces between semicolons that are not blank, trimmed, for some
`k`: the loop stops at the first failure. Their number is at most the number
of those pieces, and equal to it when no statement fails. -/
theorem setup_split_ignores_quotes (table : Char → Char) (W : World) (r : runner)
    (tr : List Event) (dbType : DBType) (setupSQL query : String) :
    setupStatements "INSERT INTO t VALUES ('a;b')" = ["INSERT INTO t VALUES ('a", "b')"] ∧
    (∀ h : Handle, Event.exec h "INSERT INTO t VALUES ('a;b')" ∉
      ((ExecuteWithSetup table W r tr dbType "INSERT INTO t VALUES ('a;b')" query).2.2).drop
        tr.length) ∧
    (∀ (db : Handle) (r1 : runner) (tr1 : List Event),
      ValidateQuery table query = none →
      getConnection W r tr dbType = (.ok db, r1, tr1) →
      W.beginTx tr1 db = none →
      W.exec (tr1 ++ [Event.beginTx db]) db "INSERT INTO t VALUES ('a" = none →
      ∃ rest, (ExecuteWithSetup table W r tr dbType "INSERT INTO t VALUES ('a;b')" query).2.2 =
        tr1 ++ [Event.beginTx db, Event.exec db "INSERT INTO t VALUES ('a",
          Event.exec db "b')"] ++ rest) ∧
    (∃ (k : Nat) (db : Handle),
      (((ExecuteWithSetup table W r tr dbType setupSQL query).2.2).drop tr.length).filter
          Event.isExec =
        ((setupStatements setupSQL).take k).map (Event.exec db)) ∧
    ((((ExecuteWithSetup table W r tr dbType setupSQL query).2.2).drop tr.length).countP
        Event.isExec ≤
      (splitSemis setupSQL.data []).countP (fun piece => decide (TrimSpace piece ≠ ""))) ∧
    (∀ (db : Handle) (r1 : runner) (tr1 : List Event),
      ValidateQuery table query = none →
      getConnection W r tr dbType = (.ok db, r1, tr1) →
      W.beginTx tr1 db = none →
      (∀ p1 x p2, setupStatements setupSQL = p1 ++ x :: p2 →
        W.exec (tr1 ++ [Event.beginTx db] ++ p1.map (Event.exec db)) db x = none) →
      (((ExecuteWithSetup table W r tr dbType setupSQL query).2.2).drop tr.length).countP
          Event.isExec =
        (splitSemis setupSQL.data []).countP (fun piece => decide (TrimSpace piece ≠ ""))) := by
  have hq : setupStatements "INSERT INTO t VALUES ('a;b')" =
      ["INSERT INTO t VALUES ('a", "b')"] := by decide
  have hprefix : ∀ s : String, ∃ (k : Nat) (db : Handle),
      (((ExecuteWithSetup table W r tr dbType s query).2.2).drop tr.length).filter
          Event.isExec =
        ((setupStatements s).take k).map (Event.exec db) := by
    intro s
    obtain ⟨added, k, db, ha, hf⟩ := executeWithSetup_exec_prefix table W r tr dbType s query
    exact ⟨k, db, by rw [ha, List.drop_left]; exact hf⟩
  refine ⟨hq, ?_, ?_, hprefix setupSQL, ?_, ?_⟩
  · intro h hmem
    obtain ⟨k, db, hk⟩ := hprefix "INSERT INTO t VALUES ('a;b')"
    have h1 : Event.exec h "INSERT INTO t VALUES ('a;b')" ∈
        ((setupStatements "INSERT INTO t VALUES ('a;b')").take k).map (Event.exec db) := by
      rw [← hk]
      exact List.mem_filter.mpr ⟨hmem, rfl⟩
    obtain ⟨x, hx, hxe⟩ := List.mem_map.mp h1
    have h2 := List.mem_of_mem_take hx
    rw [hq] at h2
    cases hxe
    revert h2
    decide
  · intro db r1 tr1 hv hg hb h1
    obtain ⟨rest, hr⟩ := executeWithSetup_setup_trace table W r tr dbType
      "INSERT INTO t VALUES ('a;b')" query db r1 tr1 hv hg hb
    have hp : (if ("INSERT INTO t VALUES ('a;b')" : String) ≠ "" then
        splitSemis ("INSERT INTO t VALUES ('a;b')" : String).data [] else []) =
        ["INSERT INTO t VALUES ('a", "b')"] := by decide
    have ht1 : TrimSpace "INSERT INTO t VALUES ('a" = "INSERT INTO t VALUES ('a" := by decide
    have ht2 : TrimSpace "b')" = "b')" := by decide
    have hpair := setupLoop_pair W db (tr1 ++ [Event.beginTx db]) "INSERT INTO t VALUES ('a"
      "b')" (by decide) (by decide) (by rw [ht1]; exact h1)
    rw [ht1, ht2] at hpair
    refine ⟨rest, ?_⟩
    rw [hr, hp, hpair]
    simp
  · obtain ⟨k, db, hk⟩ := hprefix setupSQL
    rw [List.countP_eq_length_filter, hk, List.length_map, ← setupStatements_length]
    rw [List.length_take]
    exact Nat.min_le_right _ _
  · intro db r1 tr1 hv hg hb hx
    obtain ⟨tail, ht, htail⟩ :=
      executeWithSetup_succeeds_trace table W r tr dbType setupSQL query db r1 tr1 hv hg hb hx
    obtain ⟨conn, hc, hf⟩ := getConnection_no_exec W r tr dbType _ r1 tr1 hg
    have hft : tail.filter Event.isExec = [] :=
      filter_isExec_none tail (fun ev hev d s heq => by
        rcases htail ev hev with h | h <;> rw [h] at heq <;> cases heq)
    have hb1 : [Event.beginTx db].filter Event.isExec = [] := rfl
    have hq1 : [Event.query db true query].filter Event.isExec = [] := rfl
    rw [ht, hc, List.append_assoc, List.drop_left, List.countP_eq_length_filter]
    simp only [List.filter_append, hf, hft, hb1, hq1, filter_isExec_map, List.nil_append,
      List.append_nil, List.length_map]
    exact setupStatements_length setupSQL

/-- C30 (amended), on a database that accepts every statement: the two
fragments of `INSERT INTO t VALUES ('a;b')` are executed in order, before the
user query. -/
theorem setup_split_ignores_quotes_witness :
    (∃ rest, (ExecuteWithSetup asciiCaseTable quietWorld pgRunner [] "postgresql"
        "INSERT INTO t VALUES ('a;b')" "SELECT 1").2.2 =
      [.ping 1] ++ [Event.beginTx 1, Event.exec 1 "INSERT INTO t VALUES ('a",
        Event.exec 1 "b')"] ++ rest) ∧
    (ExecuteWithSetup asciiCaseTable quietWorld pgRunner [] "postgresql"
        "INSERT INTO t VALUES ('a;b')" "SELECT 1").2.2 =
      [.ping 1, .beginTx 1, .exec 1 "INSERT INTO t VALUES ('a", .exec 1 "b')",
        .query 1 true "SELECT 1", .rowsClose 1, .rollback 1] :=
  ⟨(setup_split_ignores_quotes asciiCaseTable quietWorld pgRunner [] "postgresql"
      "INSERT INTO t VALUES ('a;b')" "SELECT 1").2.2.1 1 pgRunner [.ping 1] (by decide) rfl rfl
      rfl,
    by decide⟩

end SqlJudge
